import Mathlib

/-!
# Share-group asynchronous pixel transfer delegate

A shallow embedding of
`gpu/command_buffer/service/async_pixel_transfer_delegate_share_group.cc`.

The main thread and the single transfer thread are modelled by an explicit
interleaving of steps on a `System`.  In `step` every main-thread call and
every task run by the transfer thread is one atomic step.  The upload lock
makes the worker task bodies and the state destructor mutually exclusive, and
up to its `MarkAsCompleted()` a task writes nothing that the main thread
reads: a main-thread call only reads completion events, which the transfer
thread only ever signals, so a call that overlaps task runs behaves like the
same call placed after the task runs it observed.

The upload statistics are the exception.  A sub-region upload task calls
`AddUpload` after `MarkAsCompleted()`, and the main thread reads the
completion event and the statistics without the upload lock, so it can run
between the two.  `Threads.step` is the step relation that stops there: a
sub-region upload task takes two turns of the transfer thread, one up to the
signal and one for `AddUpload`.  It differs from `step` in the upload
statistics only: once the transfer thread has left the task it is inside,
every execution of `Threads.step` is an execution of `step`
(`Threads.run_settle`).  What is said of the upload count is said of
`Threads.step`.

Pointers, handles and closures are numbered, `0` being the null value.  GL
calls and callback runs are recorded in logs.  A step returns
`Except Fault System`: assertions are enabled, and a failed one ends the step.
What the translation unit uses without defining it is a field of `Env`.
-/

namespace gpu

/-! ## Data model -/

/-- The GL enumerant `GL_TEXTURE_2D`. -/
def GL_TEXTURE_2D : Nat := 3553

/-- Parameters of a texture definition (`AsyncTexImage2DParams`). -/
structure AsyncTexImage2DParams where
  target : Nat
  level : Int
  internal_format : Nat
  width : Int
  height : Int
  border : Int
  format : Nat
  type : Nat
deriving DecidableEq, Repr

/-- Parameters of a sub-region upload (`AsyncTexSubImage2DParams`). -/
structure AsyncTexSubImage2DParams where
  target : Nat
  level : Int
  xoffset : Int
  yoffset : Int
  width : Int
  height : Int
  format : Nat
  type : Nat
deriving DecidableEq, Repr

/-- Source memory of a transfer (`AsyncMemoryParams`): the shared memory
pointer and three unsigned fixed-width sizes. -/
structure AsyncMemoryParams where
  shared_memory : Nat
  shm_size : Nat
  shm_data_offset : Nat
  shm_data_size : Nat
deriving DecidableEq, Repr

/-- The worker-side mapping owned by a posted task (`ScopedSafeSharedMemory`). -/
structure ScopedSafeSharedMemory where
  shared_memory : Nat
deriving DecidableEq, Repr

/-- What the translation unit uses but does not define (declared in
`async_pixel_transfer_delegate.h`, `safe_shared_memory_pool.h` and the build
configuration), taken as parameters. -/
structure Env where
  /-- Width in bits of the unsigned size fields of `AsyncMemoryParams`. -/
  shm_bits : Nat
  /-- The mapping a `ScopedSafeSharedMemory` obtains from the pool for a
  shared memory pointer and a block size. -/
  AcquireSafeSharedMemory : Nat → Nat → Nat
  /-- The static helper `AsyncPixelTransferDelegate::GetAddress`. -/
  GetAddress : ScopedSafeSharedMemory → AsyncMemoryParams → Nat
  /-- Whether `OS_ANDROID || OS_LINUX` is defined. -/
  android_or_linux : Bool
  /-- Ticks elapsed between the two `HighResNow` readings of a sub-region
  upload. -/
  upload_ticks : AsyncTexSubImage2DParams → Nat

/-- Sum of two unsigned machine integers of the given width. -/
def uint_add (bits a b : Nat) : Nat := (a + b) % 2 ^ bits

/-- The assertions of the translation unit. -/
inductive Check
  /-- `DCHECK(mem_params.shared_memory)` -/
  | shared_memory
  /-- `DCHECK_LE(shm_data_offset + shm_data_size, shm_size)` -/
  | shm_range
  /-- `DCHECK(state->texture_id())` and `DCHECK(texture_id_)` -/
  | texture_id
  /-- `DCHECK(!state->TransferIsInProgress())` -/
  | not_in_progress
  /-- `DCHECK_EQ(GL_TEXTURE_2D, tex_params.target)` -/
  | target
  /-- `DCHECK_EQ(tex_params.level, 0)` -/
  | level
deriving DecidableEq, Repr

/-- Modelled from the spec: the macro `DCHECK` of `base/logging.h`, by which
misuse is "reported as a fatal assertion, not a recoverable error": a step
whose asserted condition is false ends in the fault `dcheck`.  The other ways
a step can fail to return normally are listed with it. -/
inductive Fault
  /-- A `DCHECK` whose condition is false. -/
  | dcheck (c : Check)
  /-- `Run()` on a null closure. -/
  | null_closure
  /-- A call through an `AsyncPixelTransferState*` that is not a live object. -/
  | bad_pointer
  /-- A wait on a completion event that no posted task will signal. -/
  | blocked
deriving DecidableEq, Repr

/-- The class `TransferStateInternal`; `transfer_completion_` is the
manual-reset event, `true` when signaled. -/
structure TransferStateInternal where
  cancel_upload_flag_ : Bool
  texture_id_ : Nat
  define_params_ : AsyncTexImage2DParams
  transfer_completion_ : Bool
  bind_callback_ : Nat
deriving DecidableEq, Repr

/-- The class `AsyncTransferStateImpl`: the caller's handle around the
ref-counted internal state.  `alive` is false once the destructor has run;
weak pointers to the handle are null from then on, while the internal state
stays reachable from the tasks that hold a reference. -/
structure AsyncTransferStateImpl where
  internal_ : TransferStateInternal
  alive : Bool
deriving DecidableEq, Repr

/-- GL calls, with the two calls of the `ScopedTextureBinder` helper. -/
inductive GLCall
  | glBindTexture (target texture : Nat)
  | glTexImage2D (target : Nat) (level : Int) (internal_format : Nat)
      (width height border : Int) (format type data : Nat)
  | glTexSubImage2D (target : Nat) (level xoffset yoffset width height : Int)
      (format type data : Nat)
  | glFlush
  | ScopedTextureBinder_enter (target texture : Nat)
  | ScopedTextureBinder_leave
deriving DecidableEq, Repr

/-- Tasks bound by `base::Bind` and posted to the transfer thread.  A
transfer state is named by its index in the heap. -/
inductive Task
  | PerformAsyncTexImage2D (state : Nat) (tex_params : AsyncTexImage2DParams)
      (mem_params : AsyncMemoryParams) (safe_shared_memory : ScopedSafeSharedMemory)
  | PerformAsyncTexSubImage2D (state : Nat) (tex_params : AsyncTexSubImage2DParams)
      (mem_params : AsyncMemoryParams) (safe_shared_memory : ScopedSafeSharedMemory)
      (texture_upload_stats : Bool)
  | PerformNotifyCompletion (mem_params : AsyncMemoryParams)
      (safe_shared_memory : ScopedSafeSharedMemory) (callback : Nat)
deriving DecidableEq, Repr

/-- Scheduling priority of the transfer thread. -/
inductive ThreadPriority
  | Normal
  | Background
deriving DecidableEq, Repr

/-- Modelled from the spec: the class `AsyncPixelTransferUploadStats`
(declared in `async_pixel_transfer_delegate.h`), the monotonic counters
"total number of uploads performed, cumulative upload duration". -/
structure AsyncPixelTransferUploadStats where
  texture_upload_count_ : Nat
  total_texture_upload_time_ : Nat
deriving DecidableEq, Repr

/-- Modelled from the spec: `AsyncPixelTransferUploadStats::AddUpload`, one
more upload performed and its duration added. -/
def AsyncPixelTransferUploadStats.AddUpload (st : AsyncPixelTransferUploadStats)
    (transfer_time : Nat) : AsyncPixelTransferUploadStats :=
  { texture_upload_count_ := st.texture_upload_count_ + 1,
    total_texture_upload_time_ := st.total_texture_upload_time_ + transfer_time }

/-- The delegate, the transfer thread and the observable logs. -/
structure System where
  /-- All transfer states ever created; a state is named by its index. -/
  heap : List AsyncTransferStateImpl
  /-- The member `pending_allocations_`: weak pointers, head first. -/
  pending_allocations_ : List Nat
  /-- The message loop of `g_transfer_thread`, next task first. -/
  transfer_tasks : List Task
  transfer_priority : ThreadPriority
  texture_upload_stats_ : AsyncPixelTransferUploadStats
  /-- GL calls made on the main thread. -/
  main_gl : List GLCall
  /-- GL calls made on the transfer thread, with the state that made them. -/
  transfer_gl : List (Nat × GLCall)
  /-- Runs of `bind_callback_`: the state and the closure. -/
  bind_runs : List (Nat × Nat)
  /-- Runs of completion callbacks: the closure and its argument. -/
  notify_runs : List (Nat × AsyncMemoryParams)
deriving DecidableEq, Repr

/-- The system right after the delegate is constructed. -/
def System.init (env : Env) : System :=
  { heap := [], pending_allocations_ := [], transfer_tasks := [],
    transfer_priority :=
      if env.android_or_linux then ThreadPriority.Background else ThreadPriority.Normal,
    texture_upload_stats_ := { texture_upload_count_ := 0, total_texture_upload_time_ := 0 },
    main_gl := [], transfer_gl := [], bind_runs := [], notify_runs := [] }

/-! ## TransferStateInternal -/

/-- `TransferStateInternal::TransferIsInProgress`. -/
def TransferStateInternal.TransferIsInProgress (st : TransferStateInternal) : Bool :=
  !st.transfer_completion_

/-- `TransferStateInternal::MarkAsTransferIsInProgress`: resets the event. -/
def TransferStateInternal.MarkAsTransferIsInProgress (st : TransferStateInternal) :
    TransferStateInternal :=
  { st with transfer_completion_ := false }

/-- `TransferStateInternal::SetBindCallback`. -/
def TransferStateInternal.SetBindCallback (st : TransferStateInternal) (bind_callback : Nat) :
    TransferStateInternal :=
  { st with bind_callback_ := bind_callback }

/-- What a weak pointer to the handle yields (`WeakPtr::get`), and what a
raw `AsyncPixelTransferState*` may be cast to: the internal state of a handle
that is still alive. -/
def System.get (s : System) (h : Nat) : Option TransferStateInternal :=
  match s.heap[h]? with
  | some o => if o.alive then some o.internal_ else none
  | none => none

/-- Replaces the internal state stored under a handle. -/
def System.store (s : System) (h : Nat) (o : AsyncTransferStateImpl) : System :=
  { s with heap := s.heap.set h o }

/-- The bounds assertion on memory parameters, in the width of the fields. -/
def shm_range_ok (env : Env) (mem_params : AsyncMemoryParams) : Bool :=
  decide (uint_add env.shm_bits mem_params.shm_data_offset mem_params.shm_data_size
    ≤ mem_params.shm_size)

/-- The constructor of `ScopedSafeSharedMemory` on the pool of the transfer
thread. -/
def new_ScopedSafeSharedMemory (env : Env) (mem_params : AsyncMemoryParams) :
    ScopedSafeSharedMemory :=
  { shared_memory := env.AcquireSafeSharedMemory mem_params.shared_memory mem_params.shm_size }

/-- `TransferStateInternal::BindTransfer` on the state named `h`. -/
def BindTransfer (s : System) (h : Nat) (state : TransferStateInternal) :
    Except Fault System :=
  if state.texture_id_ = 0 then .error (.dcheck .texture_id)
  else if state.bind_callback_ = 0 then .error .null_closure
  else .ok { s with
    main_gl := s.main_gl ++ [GLCall.glBindTexture GL_TEXTURE_2D state.texture_id_],
    bind_runs := s.bind_runs ++ [(h, state.bind_callback_)] }

/-- `TransferStateInternal::PerformAsyncTexImage2D`, run under the upload
lock by the transfer thread. -/
def PerformAsyncTexImage2D (env : Env) (s : System) (h : Nat)
    (tex_params : AsyncTexImage2DParams) (mem_params : AsyncMemoryParams)
    (safe_shared_memory : ScopedSafeSharedMemory) : Except Fault System :=
  match s.heap[h]? with
  | none => .error .bad_pointer
  | some o =>
    if o.internal_.cancel_upload_flag_ then .ok s
    else if tex_params.level ≠ 0 then .error (.dcheck .level)
    else
      let data := env.GetAddress safe_shared_memory mem_params
      .ok { s with
        heap := s.heap.set h { o with internal_ := { o.internal_ with transfer_completion_ := true } },
        transfer_gl := s.transfer_gl ++
          [(h, GLCall.glBindTexture GL_TEXTURE_2D o.internal_.texture_id_),
           (h, GLCall.glTexImage2D GL_TEXTURE_2D tex_params.level tex_params.internal_format
                 tex_params.width tex_params.height tex_params.border tex_params.format
                 tex_params.type data),
           (h, GLCall.glBindTexture GL_TEXTURE_2D 0),
           (h, GLCall.glFlush)] }

/-- A call of `AddUpload` that the transfer thread is about to make: it is
inside `PerformAsyncTexSubImage2D` of `state`, whose upload lock it holds,
past `MarkAsCompleted()`, and `transfer_time` is the duration that
`HighResNow() - begin_time` will yield. -/
structure Recording where
  state : Nat
  transfer_time : Nat
deriving DecidableEq, Repr

/-- `TransferStateInternal::PerformAsyncTexSubImage2D` from its first line to
`MarkAsCompleted()` (l.214-253), run under the upload lock by the transfer
thread: the cancellation test, the level assertion, the upload and the
signal.  It yields the system, and the `AddUpload` that the task goes on to
when it has not returned and `texture_upload_stats` is not null. -/
def PerformAsyncTexSubImage2D_upload (env : Env) (s : System) (h : Nat)
    (tex_params : AsyncTexSubImage2DParams) (mem_params : AsyncMemoryParams)
    (safe_shared_memory : ScopedSafeSharedMemory) (texture_upload_stats : Bool) :
    Except Fault (System × Option Recording) :=
  match s.heap[h]? with
  | none => .error .bad_pointer
  | some o =>
    if o.internal_.cancel_upload_flag_ then .ok (s, none)
    else if tex_params.level ≠ 0 then .error (.dcheck .level)
    else
      let data := env.GetAddress safe_shared_memory mem_params
      .ok ({ s with
        heap := s.heap.set h { o with internal_ := { o.internal_ with transfer_completion_ := true } },
        transfer_gl := s.transfer_gl ++
          [(h, GLCall.glBindTexture GL_TEXTURE_2D o.internal_.texture_id_),
           (h, GLCall.glTexSubImage2D GL_TEXTURE_2D tex_params.level tex_params.xoffset
                 tex_params.yoffset tex_params.width tex_params.height tex_params.format
                 tex_params.type data),
           (h, GLCall.glBindTexture GL_TEXTURE_2D 0),
           (h, GLCall.glFlush)] },
        if texture_upload_stats then
          some { state := h, transfer_time := env.upload_ticks tex_params }
        else none)

/-- The rest of `TransferStateInternal::PerformAsyncTexSubImage2D`
(l.255-258), after `MarkAsCompleted()`: the call of `AddUpload`, when there is
one to make. -/
def PerformAsyncTexSubImage2D_record (s : System) : Option Recording → System
  | none => s
  | some r =>
    { s with texture_upload_stats_ := s.texture_upload_stats_.AddUpload r.transfer_time }

/-- `TransferStateInternal::PerformAsyncTexSubImage2D` from its first line to
its last, run under the upload lock by the transfer thread: the upload and
the signal, then the call of `AddUpload`.  The main thread reads the
completion event and the statistics without the upload lock, so it can run
between the two parts; `Threads.step` is the step relation in which it
does. -/
def PerformAsyncTexSubImage2D (env : Env) (s : System) (h : Nat)
    (tex_params : AsyncTexSubImage2DParams) (mem_params : AsyncMemoryParams)
    (safe_shared_memory : ScopedSafeSharedMemory) (texture_upload_stats : Bool) :
    Except Fault System :=
  match PerformAsyncTexSubImage2D_upload env s h tex_params mem_params safe_shared_memory
      texture_upload_stats with
  | .error e => .error e
  | .ok (s1, recording) => .ok (PerformAsyncTexSubImage2D_record s1 recording)

/-- The free function `PerformNotifyCompletion`. -/
def PerformNotifyCompletion (s : System) (mem_params : AsyncMemoryParams)
    (safe_shared_memory : ScopedSafeSharedMemory) (callback : Nat) : Except Fault System :=
  let safe_mem_params := { mem_params with shared_memory := safe_shared_memory.shared_memory }
  if callback = 0 then .error .null_closure
  else .ok { s with notify_runs := s.notify_runs ++ [(callback, safe_mem_params)] }

/-- Runs one bound task on the transfer thread. -/
def runTask (env : Env) (s : System) : Task → Except Fault System
  | .PerformAsyncTexImage2D h tex_params mem_params safe_shared_memory =>
    PerformAsyncTexImage2D env s h tex_params mem_params safe_shared_memory
  | .PerformAsyncTexSubImage2D h tex_params mem_params safe_shared_memory stats =>
    PerformAsyncTexSubImage2D env s h tex_params mem_params safe_shared_memory stats
  | .PerformNotifyCompletion mem_params safe_shared_memory callback =>
    PerformNotifyCompletion s mem_params safe_shared_memory callback

/-- The transfer thread takes the task at the head of its message loop and
runs it; with no task posted it stays idle. -/
def RunTransferTask (env : Env) (s : System) : Except Fault System :=
  match s.transfer_tasks with
  | [] => .ok s
  | t :: rest => runTask env { s with transfer_tasks := rest } t

/-! ## AsyncTransferStateImpl and the delegate -/

/-- `AsyncPixelTransferDelegateShareGroup::CreatePixelTransferState`: a new
handle whose completion event starts signaled. -/
def CreatePixelTransferState (s : System) (texture_id : Nat)
    (define_params : AsyncTexImage2DParams) : System :=
  { s with heap := s.heap ++
      [{ internal_ :=
           { cancel_upload_flag_ := false, texture_id_ := texture_id,
             define_params_ := define_params, transfer_completion_ := true,
             bind_callback_ := 0 },
         alive := true }] }

/-- The destructor `~AsyncTransferStateImpl`: sets the cancellation flag
under the upload lock; the weak pointers to the handle become null. -/
def DestroyTransferState (s : System) (h : Nat) : Except Fault System :=
  match s.heap[h]? with
  | none => .error .bad_pointer
  | some o =>
    if o.alive then
      .ok (s.store h { internal_ := { o.internal_ with cancel_upload_flag_ := true },
                       alive := false })
    else .error .bad_pointer

/-- Leaves the scope of `texture_binder` when it was set. -/
def leaveBinder (s : System) (texture_binder : Bool) : System :=
  if texture_binder then { s with main_gl := s.main_gl ++ [GLCall.ScopedTextureBinder_leave] }
  else s

/-- Sets `texture_binder` when it is still unset. -/
def enterBinder (s : System) (texture_binder : Bool) : System :=
  if texture_binder then s
  else { s with main_gl := s.main_gl ++ [GLCall.ScopedTextureBinder_enter GL_TEXTURE_2D 0] }

/-- The `while` loop of `BindCompletedAsyncTransfers` over the pending
queue. -/
def bindLoop : List Nat → System → Bool → Except Fault System
  | [], s, texture_binder =>
    .ok (leaveBinder { s with pending_allocations_ := [] } texture_binder)
  | h :: rest, s, texture_binder =>
    match s.get h with
    | none => bindLoop rest s texture_binder
    | some state =>
      if state.TransferIsInProgress then
        .ok (leaveBinder { s with pending_allocations_ := h :: rest } texture_binder)
      else
        match BindTransfer (enterBinder s texture_binder) h state with
        | .error e => .error e
        | .ok s1 => bindLoop rest s1 true

/-- `AsyncPixelTransferDelegateShareGroup::BindCompletedAsyncTransfers`. -/
def BindCompletedAsyncTransfers (s : System) : Except Fault System :=
  bindLoop s.pending_allocations_ s false

/-- `AsyncPixelTransferDelegateShareGroup::AsyncNotifyCompletion`. -/
def AsyncNotifyCompletion (env : Env) (s : System) (mem_params : AsyncMemoryParams)
    (callback : Nat) : Except Fault System :=
  if mem_params.shared_memory = 0 then .error (.dcheck .shared_memory)
  else if shm_range_ok env mem_params = false then .error (.dcheck .shm_range)
  else .ok { s with transfer_tasks := s.transfer_tasks ++
    [Task.PerformNotifyCompletion mem_params (new_ScopedSafeSharedMemory env mem_params)
      callback] }

/-- The blocking `transfer_completion_.Wait()` of `step`: the transfer thread
runs its tasks in order, each to its end, until the event of state `h` is
signaled.  The wait that returns at the signal itself is `waitThreads`. -/
def waitLoop (env : Env) (h : Nat) : List Task → System → Except Fault System
  | [], s =>
    match s.heap[h]? with
    | none => .error .bad_pointer
    | some o => if o.internal_.transfer_completion_ then .ok s else .error .blocked
  | t :: rest, s =>
    match s.heap[h]? with
    | none => .error .bad_pointer
    | some o =>
      if o.internal_.transfer_completion_ then .ok s
      else
        match runTask env { s with transfer_tasks := rest } t with
        | .error e => .error e
        | .ok s1 => waitLoop env h rest s1

/-- `AsyncPixelTransferDelegateShareGroup::WaitForTransferCompletion`. -/
def WaitForTransferCompletion (env : Env) (s : System) (h : Nat) : Except Fault System :=
  match s.get h with
  | none => .error .bad_pointer
  | some state =>
    if state.texture_id_ = 0 then .error (.dcheck .texture_id)
    else if state.TransferIsInProgress then
      let s1 := if env.android_or_linux then
        { s with transfer_priority := ThreadPriority.Normal } else s
      match waitLoop env h s1.transfer_tasks s1 with
      | .error e => .error e
      | .ok s2 =>
        match s2.heap[h]? with
        | none => .error .bad_pointer
        | some o =>
          if o.internal_.TransferIsInProgress then .error (.dcheck .not_in_progress)
          else .ok (if env.android_or_linux then
            { s2 with transfer_priority := ThreadPriority.Background } else s2)
    else .ok s

/-- `AsyncPixelTransferDelegateShareGroup::AsyncTexImage2D`. -/
def AsyncTexImage2D (env : Env) (s : System) (h : Nat) (tex_params : AsyncTexImage2DParams)
    (mem_params : AsyncMemoryParams) (bind_callback : Nat) : Except Fault System :=
  match s.heap[h]? with
  | none => .error .bad_pointer
  | some o =>
    if o.alive = false then .error .bad_pointer
    else if mem_params.shared_memory = 0 then .error (.dcheck .shared_memory)
    else if shm_range_ok env mem_params = false then .error (.dcheck .shm_range)
    else if o.internal_.texture_id_ = 0 then .error (.dcheck .texture_id)
    else if o.internal_.TransferIsInProgress then .error (.dcheck .not_in_progress)
    else if tex_params.target ≠ GL_TEXTURE_2D then .error (.dcheck .target)
    else if tex_params.level ≠ 0 then .error (.dcheck .level)
    else
      .ok { s with
        pending_allocations_ := s.pending_allocations_ ++ [h],
        heap := s.heap.set h { o with internal_ :=
          (o.internal_.SetBindCallback bind_callback).MarkAsTransferIsInProgress },
        transfer_tasks := s.transfer_tasks ++
          [Task.PerformAsyncTexImage2D h tex_params mem_params
            (new_ScopedSafeSharedMemory env mem_params)] }

/-- `AsyncPixelTransferDelegateShareGroup::AsyncTexSubImage2D`. -/
def AsyncTexSubImage2D (env : Env) (s : System) (h : Nat)
    (tex_params : AsyncTexSubImage2DParams) (mem_params : AsyncMemoryParams) :
    Except Fault System :=
  match s.heap[h]? with
  | none => .error .bad_pointer
  | some o =>
    if o.alive = false then .error .bad_pointer
    else if o.internal_.texture_id_ = 0 then .error (.dcheck .texture_id)
    else if o.internal_.TransferIsInProgress then .error (.dcheck .not_in_progress)
    else if mem_params.shared_memory = 0 then .error (.dcheck .shared_memory)
    else if shm_range_ok env mem_params = false then .error (.dcheck .shm_range)
    else if tex_params.target ≠ GL_TEXTURE_2D then .error (.dcheck .target)
    else if tex_params.level ≠ 0 then .error (.dcheck .level)
    else
      .ok { s with
        heap := s.heap.set h { o with internal_ := o.internal_.MarkAsTransferIsInProgress },
        transfer_tasks := s.transfer_tasks ++
          [Task.PerformAsyncTexSubImage2D h tex_params mem_params
            (new_ScopedSafeSharedMemory env mem_params) true] }

/-- `AsyncPixelTransferDelegateShareGroup::GetTextureUploadCount`, a
`uint32`. -/
def GetTextureUploadCount (s : System) : Nat :=
  s.texture_upload_stats_.texture_upload_count_ % 2 ^ 32

/-- `AsyncPixelTransferDelegateShareGroup::GetTotalTextureUploadTime`. -/
def GetTotalTextureUploadTime (s : System) : Nat :=
  s.texture_upload_stats_.total_texture_upload_time_

/-! ## Executions -/

/-- One atomic step: a call made on the main thread, or the transfer thread
running its next task. -/
inductive Event
  | CreatePixelTransferState (texture_id : Nat) (define_params : AsyncTexImage2DParams)
  | DestroyTransferState (h : Nat)
  | AsyncTexImage2D (h : Nat) (tex_params : AsyncTexImage2DParams)
      (mem_params : AsyncMemoryParams) (bind_callback : Nat)
  | AsyncTexSubImage2D (h : Nat) (tex_params : AsyncTexSubImage2DParams)
      (mem_params : AsyncMemoryParams)
  | AsyncNotifyCompletion (mem_params : AsyncMemoryParams) (callback : Nat)
  | WaitForTransferCompletion (h : Nat)
  | BindCompletedAsyncTransfers
  | RunTransferTask
deriving DecidableEq, Repr

/-- The effect of one step. -/
def step (env : Env) (s : System) : Event → Except Fault System
  | .CreatePixelTransferState texture_id define_params =>
    .ok (CreatePixelTransferState s texture_id define_params)
  | .DestroyTransferState h => DestroyTransferState s h
  | .AsyncTexImage2D h tex_params mem_params bind_callback =>
    AsyncTexImage2D env s h tex_params mem_params bind_callback
  | .AsyncTexSubImage2D h tex_params mem_params =>
    AsyncTexSubImage2D env s h tex_params mem_params
  | .AsyncNotifyCompletion mem_params callback =>
    AsyncNotifyCompletion env s mem_params callback
  | .WaitForTransferCompletion h => WaitForTransferCompletion env s h
  | .BindCompletedAsyncTransfers => BindCompletedAsyncTransfers s
  | .RunTransferTask => RunTransferTask env s

/-- Runs a sequence of steps, stopping at the first fault. -/
def run (env : Env) : System → List Event → Except Fault System
  | s, [] => .ok s
  | s, e :: es =>
    match step env s e with
    | .error f => .error f
    | .ok s1 => run env s1 es

/-- Whether reconciliation passes over the queue entry `h`: its weak pointer
is null, or the state it names is not in progress. -/
def System.ready (s : System) (h : Nat) : Bool :=
  match s.get h with
  | none => true
  | some state => !state.TransferIsInProgress

/-- The callback run that `BindTransfer` records for the queue entry `h`,
when its weak pointer is not null. -/
def System.bound (s : System) (h : Nat) : Option (Nat × Nat) :=
  (s.get h).map fun state => (h, state.bind_callback_)

deriving instance DecidableEq for Except

/-! ## Concrete data for the worked executions -/

/-- A configuration with 32-bit size fields, in which `GetAddress` yields the
null pointer for a range that leaves the mapped block. -/
def env32 : Env where
  shm_bits := 32
  AcquireSafeSharedMemory := fun p _ => p + 1000
  GetAddress := fun m p =>
    if p.shm_data_offset + p.shm_data_size ≤ p.shm_size then
      m.shared_memory + p.shm_data_offset
    else 0
  android_or_linux := true
  upload_ticks := fun _ => 1

/-- A 64 by 64 level-0 texture definition. -/
def tex64 : AsyncTexImage2DParams :=
  { target := GL_TEXTURE_2D, level := 0, internal_format := 6408, width := 64, height := 64,
    border := 0, format := 6408, type := 5121 }

/-- A 64 by 64 level-0 sub-region upload at the origin. -/
def sub64 : AsyncTexSubImage2DParams :=
  { target := GL_TEXTURE_2D, level := 0, xoffset := 0, yoffset := 0, width := 64, height := 64,
    format := 6408, type := 5121 }

/-- A 16384-byte block used in full. -/
def mem16k : AsyncMemoryParams :=
  { shared_memory := 1, shm_size := 16384, shm_data_offset := 0, shm_data_size := 16384 }

/-- A system holding one freshly created state, handle `0`, texture `5`. -/
def sysIdle : System := CreatePixelTransferState (System.init env32) 5 tex64

/-- Memory parameters whose 32-bit sum wraps: the range ends far past the
10-byte block. -/
def memWrap : AsyncMemoryParams :=
  { shared_memory := 1, shm_size := 10, shm_data_offset := 4294967295, shm_data_size := 2 }

/-- Whether `BindTransfer` can run for the queue entry `h`: a live completed
state has a texture and a stored callback. -/
def System.bindable (s : System) (h : Nat) : Bool :=
  match s.get h with
  | none => true
  | some state =>
    state.TransferIsInProgress || (state.texture_id_ != 0 && state.bind_callback_ != 0)

/-- A state with texture `t` and callback `cb`, completed or not. -/
def stateWith (t cb : Nat) (completed alive : Bool) : AsyncTransferStateImpl :=
  { internal_ := { cancel_upload_flag_ := !alive, texture_id_ := t, define_params_ := tex64,
                   transfer_completion_ := completed, bind_callback_ := cb },
    alive := alive }

/-- A pending queue with a released entry, a completed one, one in progress
and a completed one behind it. -/
def sysQueue : System :=
  { System.init env32 with
    heap := [stateWith 5 70 false false, stateWith 6 71 true true,
             stateWith 7 72 false true, stateWith 8 73 true true],
    pending_allocations_ := [0, 1, 2, 3] }

/-- The state `0` of `sysIdle` while its first upload is outstanding. -/
def sysBusy : System :=
  { sysIdle with
    heap := [stateWith 5 70 false true],
    pending_allocations_ := [0],
    transfer_tasks := [Task.PerformAsyncTexImage2D 0 tex64 mem16k
      (new_ScopedSafeSharedMemory env32 mem16k)] }

/-- An execution that submits a range ending past its block and lets the
transfer thread run the task. -/
def traceWrap : List Event :=
  [.CreatePixelTransferState 5 tex64, .AsyncTexImage2D 0 tex64 memWrap 7, .RunTransferTask]

/-- The transfer state an upload task holds a reference to. -/
def Task.handle : Task → Option Nat
  | .PerformAsyncTexImage2D h _ _ _ => some h
  | .PerformAsyncTexSubImage2D h _ _ _ _ => some h
  | .PerformNotifyCompletion _ _ _ => none

/-- The transfer state a define-mode upload task holds a reference to. -/
def Task.defineHandle : Task → Option Nat
  | .PerformAsyncTexImage2D h _ _ _ => some h
  | _ => none

/-- The handle with its completion event signaled (`MarkAsCompleted`). -/
def AsyncTransferStateImpl.completed (o : AsyncTransferStateImpl) : AsyncTransferStateImpl :=
  { o with internal_ := { o.internal_ with transfer_completion_ := true } }

/-- The state `h` was destroyed while its transfer was in progress: the
handle is gone, the cancellation flag is set and the completion event is not
signaled. -/
def System.cancelledInFlight (s : System) (h : Nat) : Prop :=
  ∃ o, s.heap[h]? = some o ∧ o.alive = false ∧ o.internal_.cancel_upload_flag_ = true ∧
    o.internal_.transfer_completion_ = false

/-- The GL calls the transfer thread made for the state `h`. -/
def System.transferCallsOf (s : System) (h : Nat) : List (Nat × GLCall) :=
  s.transfer_gl.filter fun c => decide (c.1 = h)

/-- The bind callback runs made for the state `h`. -/
def System.bindRunsOf (s : System) (h : Nat) : List (Nat × Nat) :=
  s.bind_runs.filter fun r => decide (r.1 = h)

/-- What follows the destruction of the busy state of `sysBusy`. -/
def traceAfterCancel : List Event :=
  [.RunTransferTask, .BindCompletedAsyncTransfers, .RunTransferTask,
   .BindCompletedAsyncTransfers]

/-- The define-mode submissions of an execution in order: the state and the
bind callback handed to `AsyncTexImage2D`. -/
def defines : List Event → List (Nat × Nat)
  | [] => []
  | .AsyncTexImage2D h _ _ bind_callback :: es => (h, bind_callback) :: defines es
  | _ :: es => defines es

/-- Whether the step is the destruction of a handle. -/
def Event.isDestroy : Event → Bool
  | .DestroyTransferState _ => true
  | _ => false

/-- Two textures, A then B, uploaded and reconciled while A is delayed. -/
def traceAB : List Event :=
  [.CreatePixelTransferState 5 tex64, .CreatePixelTransferState 6 tex64,
   .AsyncTexImage2D 0 tex64 mem16k 70, .AsyncTexImage2D 1 tex64 mem16k 71,
   .BindCompletedAsyncTransfers, .RunTransferTask, .BindCompletedAsyncTransfers,
   .RunTransferTask, .BindCompletedAsyncTransfers]

/-- The runs of bind callbacks so far, followed by the callbacks of the live
entries still queued, are the define-mode submissions `subs` in order; every
queued entry names a created state that was submitted. -/
def OrderInv (s : System) (subs : List (Nat × Nat)) : Prop :=
  s.bind_runs ++ s.pending_allocations_.filterMap s.bound = subs ∧
  (∀ h ∈ s.pending_allocations_, h < s.heap.length) ∧
  (∀ h ∈ s.pending_allocations_, h ∈ subs.map Prod.fst)

/-- The states the posted upload tasks refer to, next task first. -/
def uploadHandles (tasks : List Task) : List Nat := tasks.filterMap Task.handle

/-- The states the posted define-mode upload tasks refer to, next task first. -/
def defineHandles (tasks : List Task) : List Nat := tasks.filterMap Task.defineHandle

/-- Whether the queue entry `h` is a live state whose transfer has completed. -/
def System.liveCompleted (s : System) (h : Nat) : Bool :=
  match s.get h with
  | none => false
  | some state => !state.TransferIsInProgress

/-- No live completed entry of the pending queue stands behind a live entry
that is still in progress. -/
def System.queueInOrder (s : System) : Prop :=
  ∀ (i j a b : Nat), i < j → s.pending_allocations_[i]? = some a → s.pending_allocations_[j]? = some b →
    s.ready a = false → s.liveCompleted b = false

/-- The transfer thread is behind the pending queue: the queue is a run of
entries reconciliation passes over, followed by entries whose define-mode
tasks are still posted, in the order of those tasks; the states of the posted
upload tasks are pairwise distinct and not signaled; a live state is not
cancelled. -/
def FifoInv (s : System) : Prop :=
  (∃ done todo, s.pending_allocations_ = done ++ todo ∧
    todo <:+ defineHandles s.transfer_tasks ∧ ∀ h ∈ done, s.ready h = true) ∧
  (∀ h ∈ uploadHandles s.transfer_tasks,
    ∃ o, s.heap[h]? = some o ∧ o.internal_.transfer_completion_ = false) ∧
  (uploadHandles s.transfer_tasks).Nodup ∧
  (∀ (h : Nat) (o : AsyncTransferStateImpl), s.heap[h]? = some o → o.alive = true → o.internal_.cancel_upload_flag_ = false)

/-- Whether the step submits an upload on a state that still has an entry in
the pending queue, that is, whose earlier transfer was not reconciled yet. -/
def Event.resubmitsQueued (s : System) : Event → Bool
  | .AsyncTexImage2D h _ _ _ => decide (h ∈ s.pending_allocations_)
  | .AsyncTexSubImage2D h _ _ => decide (h ∈ s.pending_allocations_)
  | _ => false

/-- Whether, along the execution, every upload is submitted on a state that
has no entry left in the pending queue. -/
def consumedFirst (env : Env) : System → List Event → Bool
  | _, [] => true
  | s, e :: es =>
    !(e.resubmitsQueued s) &&
      match step env s e with
      | .error _ => true
      | .ok s1 => consumedFirst env s1 es

/-- Textures A then B are submitted, A completes and is submitted again in
sub-region mode before any reconciliation, then B completes. -/
def traceResubmit : List Event :=
  [.CreatePixelTransferState 5 tex64, .CreatePixelTransferState 6 tex64,
   .AsyncTexImage2D 0 tex64 mem16k 70, .AsyncTexImage2D 1 tex64 mem16k 71,
   .RunTransferTask, .AsyncTexSubImage2D 0 sub64 mem16k, .RunTransferTask]

/-- Textures A then B are submitted, A completes and is reconciled, is
submitted again in sub-region mode, then B completes. -/
def traceConsumed : List Event :=
  [.CreatePixelTransferState 5 tex64, .CreatePixelTransferState 6 tex64,
   .AsyncTexImage2D 0 tex64 mem16k 70, .AsyncTexImage2D 1 tex64 mem16k 71,
   .RunTransferTask, .BindCompletedAsyncTransfers, .AsyncTexSubImage2D 0 sub64 mem16k,
   .RunTransferTask, .DestroyTransferState 0]

/-- The define-mode submissions made on the state `h`, in order. -/
def submissionsOf (subs : List (Nat × Nat)) (h : Nat) : List (Nat × Nat) :=
  subs.filter fun r => decide (r.1 = h)

/-- For every state, the bind callbacks run for it so far are an initial
segment of the callbacks supplied for it, and while its handle is alive what
is missing are the callbacks of its entries still queued, which is the stored
callback once per entry. -/
def BindInv (s : System) (subs : List (Nat × Nat)) : Prop :=
  ∀ h : Nat,
    (s.heap.length ≤ h → h ∉ s.pending_allocations_ ∧ submissionsOf subs h = []) ∧
    ∃ rest, submissionsOf subs h = s.bindRunsOf h ++ rest ∧
      ∀ st, s.get h = some st →
        rest = (s.pending_allocations_.filter fun x => decide (x = h)).map
          fun _ => (h, st.bind_callback_)

/-- A state is submitted, completes, and is submitted again with another
callback before any reconciliation. -/
def traceTwice : List Event :=
  [.CreatePixelTransferState 5 tex64, .AsyncTexImage2D 0 tex64 mem16k 70, .RunTransferTask,
   .AsyncTexImage2D 0 tex64 mem16k 71, .RunTransferTask, .BindCompletedAsyncTransfers]

/-- A state is submitted, completes and is reconciled, then is submitted
again with another callback, completes and is reconciled. -/
def traceTwiceConsumed : List Event :=
  [.CreatePixelTransferState 5 tex64, .AsyncTexImage2D 0 tex64 mem16k 70, .RunTransferTask,
   .BindCompletedAsyncTransfers, .AsyncTexImage2D 0 tex64 mem16k 71, .RunTransferTask]

/-- Whether a posted task can run to its end: an upload task was posted for
level 0, a notification task holds a closure that is not null. -/
def Task.wellFormed : Task → Bool
  | .PerformAsyncTexImage2D _ tex_params _ _ => decide (tex_params.level = 0)
  | .PerformAsyncTexSubImage2D _ tex_params _ _ _ => decide (tex_params.level = 0)
  | .PerformNotifyCompletion _ _ callback => decide (callback ≠ 0)

/-- Whether the step asks for a notification with a null completion
callback. -/
def Event.postsNullCallback : Event → Bool
  | .AsyncNotifyCompletion _ callback => decide (callback = 0)
  | _ => false

/-- The posted tasks can all run, they refer to created states, every live
state in progress has an upload task posted, and a live state is not
cancelled. -/
def WaitInv (s : System) : Prop :=
  (∀ t ∈ s.transfer_tasks, t.wellFormed = true) ∧
  (∀ h ∈ uploadHandles s.transfer_tasks, h < s.heap.length) ∧
  (∀ (h : Nat) (o : AsyncTransferStateImpl), s.heap[h]? = some o → o.alive = true →
    o.internal_.transfer_completion_ = false → h ∈ uploadHandles s.transfer_tasks) ∧
  (∀ (h : Nat) (o : AsyncTransferStateImpl), s.heap[h]? = some o → o.alive = true →
    o.internal_.cancel_upload_flag_ = false)

/-- Textures A and B are submitted with a notification between them. -/
def traceWait : List Event :=
  [.CreatePixelTransferState 5 tex64, .CreatePixelTransferState 6 tex64,
   .AsyncTexImage2D 0 tex64 mem16k 70, .AsyncNotifyCompletion mem16k 9,
   .AsyncTexImage2D 1 tex64 mem16k 71]

/-- The memory parameters a notification hands to its callback: those of the
request with the shared memory replaced by the mapping of the task. -/
def safeParams (env : Env) (mem_params : AsyncMemoryParams) : AsyncMemoryParams :=
  { mem_params with
    shared_memory := (new_ScopedSafeSharedMemory env mem_params).shared_memory }

/-- Two states in progress: a define-mode upload of state `0` and a
sub-region upload of state `1` are posted. -/
def sysTwoTasks : System :=
  { sysIdle with
    heap := [stateWith 5 70 false true, stateWith 6 0 false true],
    pending_allocations_ := [0],
    transfer_tasks :=
      [Task.PerformAsyncTexImage2D 0 tex64 mem16k (new_ScopedSafeSharedMemory env32 mem16k),
       Task.PerformAsyncTexSubImage2D 1 sub64 mem16k
        (new_ScopedSafeSharedMemory env32 mem16k) true] }

/-- Whether a logged GL call of the transfer thread is a sub-region upload. -/
def isSubUpload : Nat × GLCall → Bool
  | (_, .glTexSubImage2D _ _ _ _ _ _ _ _ _) => true
  | _ => false

/-- Whether a logged GL call of the transfer thread is a define-mode upload. -/
def isDefineUpload : Nat × GLCall → Bool
  | (_, .glTexImage2D _ _ _ _ _ _ _ _ _) => true
  | _ => false

/-- The number of sub-region uploads the transfer thread has performed. -/
def subUploads (gl : List (Nat × GLCall)) : Nat := (gl.filter isSubUpload).length

/-- The number of define-mode uploads the transfer thread has performed. -/
def defineUploads (gl : List (Nat × GLCall)) : Nat := (gl.filter isDefineUpload).length

/-- Whether the task was bound with the upload statistics of the delegate
when it is a sub-region upload. -/
def Task.hasStats : Task → Bool
  | .PerformAsyncTexSubImage2D _ _ _ _ texture_upload_stats => texture_upload_stats
  | _ => true

/-- Between two tasks of the transfer thread the upload count is the number
of sub-region uploads performed, and the posted sub-region uploads hold the
statistics. -/
def StatsInv (s : System) : Prop :=
  s.texture_upload_stats_.texture_upload_count_ = subUploads s.transfer_gl ∧
  ∀ t ∈ s.transfer_tasks, t.hasStats = true

/-- One define-mode upload, performed by the transfer thread. -/
def traceDefine : List Event :=
  [.CreatePixelTransferState 5 tex64, .AsyncTexImage2D 0 tex64 mem16k 70, .RunTransferTask]

/-! ## TransferThread -/

/-- The members of the class `TransferThread` that initialization sets; the
surface and the context are pointers, `0` when null. -/
structure TransferThread where
  initialized_ : Bool
  surface_ : Nat
  context_ : Nat
deriving DecidableEq, Repr

/-- The GL factory functions of `ui/gl` that initialization calls, taken as
parameters: what `CreateOffscreenGLSurface(false, gfx::Size(1, 1))` returns,
the share group of a context, and what `CreateGLContext` returns for a share
group and a surface with `PreferIntegratedGpu`; `0` is a failed creation. -/
structure GLFactory where
  CreateOffscreenGLSurface : Nat
  share_group : Nat → Nat
  CreateGLContext : Nat → Nat → Nat

/-- A `base::WaitableEvent`, with the number of `Signal()` calls made on it. -/
structure WaitableEvent where
  signaled : Bool
  signals : Nat
deriving DecidableEq, Repr

/-- `WaitableEvent::Signal`. -/
def WaitableEvent.Signal (e : WaitableEvent) : WaitableEvent :=
  { signaled := true, signals := e.signals + 1 }

/-- The three `LOG(ERROR)` lines of initialization. -/
inductive InitError
  /-- "No parent context provided." -/
  | no_parent_context
  /-- "Unable to create GLSurface" -/
  | no_surface
  /-- "Unable to create GLContext." -/
  | no_context
deriving DecidableEq, Repr

/-- What one run of `InitializeOnTransferThread` leaves: the thread members,
the event of the caller, the errors logged and the `MakeCurrent` call made,
as the context and the surface. -/
structure InitOutcome where
  thread : TransferThread
  caller_wait : WaitableEvent
  errors : List InitError
  made_current : Option (Nat × Nat)
deriving DecidableEq, Repr

/-- `TransferThread::InitializeOnTransferThread`. -/
def InitializeOnTransferThread (gl : GLFactory) (t : TransferThread) (parent_context : Nat)
    (caller_wait : WaitableEvent) : InitOutcome :=
  if parent_context = 0 then
    { thread := t, caller_wait := caller_wait.Signal,
      errors := [InitError.no_parent_context], made_current := none }
  else
    let t1 : TransferThread := { t with surface_ := gl.CreateOffscreenGLSurface }
    if t1.surface_ = 0 then
      { thread := t1, caller_wait := caller_wait.Signal,
        errors := [InitError.no_surface], made_current := none }
    else
      let t2 : TransferThread :=
        { t1 with context_ := gl.CreateGLContext (gl.share_group parent_context) t1.surface_ }
      if t2.context_ = 0 then
        { thread := t2, caller_wait := caller_wait.Signal,
          errors := [InitError.no_context], made_current := none }
      else
        { thread := { t2 with initialized_ := true }, caller_wait := caller_wait.Signal,
          errors := [], made_current := some (t2.context_, t2.surface_) }

/-- The transfer thread runs, in order, the tasks posted before a task that
the main thread waits for. -/
def drainTasks (env : Env) : List Task → System → Except Fault System
  | [], s => .ok s
  | t :: rest, s =>
    match runTask env { s with transfer_tasks := rest } t with
    | .error e => .error e
    | .ok s1 => drainTasks env rest s1

/-- What `InitializeOnMainThread` leaves when it returns: the system, the
thread members, the number of tasks the call posted, and the event it waited
on, if any. -/
structure MainInit where
  system : System
  thread : TransferThread
  posted : Nat
  wait_for_init : Option WaitableEvent
deriving DecidableEq, Repr

/-- `TransferThread::InitializeOnMainThread`: unless the thread is
initialized, the call posts the initialization task behind the tasks already
posted and blocks on a fresh event until the transfer thread, having run
those, runs the task and signals the event. -/
def InitializeOnMainThread (env : Env) (gl : GLFactory) (s : System) (t : TransferThread)
    (parent_context : Nat) : Except Fault MainInit :=
  if t.initialized_ then
    .ok { system := s, thread := t, posted := 0, wait_for_init := none }
  else
    let wait_for_init : WaitableEvent := { signaled := false, signals := 0 }
    match drainTasks env s.transfer_tasks s with
    | .error e => .error e
    | .ok s1 =>
      let r := InitializeOnTransferThread gl t parent_context wait_for_init
      if r.caller_wait.signaled then
        .ok { system := s1, thread := r.thread, posted := 1,
              wait_for_init := some r.caller_wait }
      else .error .blocked

/-- A GL implementation in which every creation succeeds. -/
def glWorking : GLFactory :=
  { CreateOffscreenGLSurface := 11, share_group := fun c => c + 100,
    CreateGLContext := fun g f => g + f }

/-- A GL implementation that creates surfaces and no context. -/
def glNoContext : GLFactory :=
  { CreateOffscreenGLSurface := 11, share_group := fun c => c + 100,
    CreateGLContext := fun _ _ => 0 }

/-- The transfer thread as constructed. -/
def threadNew : TransferThread := { initialized_ := false, surface_ := 0, context_ := 0 }

/-- Whether the step submits a transfer for the state `h`, by
`AsyncTexImage2D` or `AsyncTexSubImage2D`. -/
def Event.submits (h : Nat) : Event → Bool
  | .AsyncTexImage2D k _ _ _ => decide (k = h)
  | .AsyncTexSubImage2D k _ _ => decide (k = h)
  | _ => false

/-- Whether the step destroys the handle of the state `h`. -/
def Event.destroys (h : Nat) : Event → Bool
  | .DestroyTransferState k => decide (k = h)
  | _ => false

/-- The state `h` is alive, has the texture `t` and its completion event is
signaled. -/
def System.idle (s : System) (h t : Nat) : Prop :=
  ∃ o, s.heap[h]? = some o ∧ o.alive = true ∧ o.internal_.texture_id_ = t ∧
    o.internal_.transfer_completion_ = true

/-- What happens around the state `0` of `sysIdle` while it is never
submitted: a second state is created, defined, reconciled, uploaded to,
waited for and destroyed, the first state is waited for in between, and a
notification is posted and run. -/
def traceNever : List Event :=
  [.CreatePixelTransferState 6 tex64, .AsyncTexImage2D 1 tex64 mem16k 71,
   .WaitForTransferCompletion 0, .RunTransferTask, .BindCompletedAsyncTransfers,
   .AsyncTexSubImage2D 1 sub64 mem16k, .AsyncNotifyCompletion mem16k 9,
   .WaitForTransferCompletion 1, .DestroyTransferState 1, .RunTransferTask]

/-! ## Executions seen from inside a sub-region upload -/

/-- The system together with the place of the transfer thread: between two
tasks (`recording` is `none`), or inside `PerformAsyncTexSubImage2D` between
`MarkAsCompleted()` and `AddUpload`.  The main thread reads completion events
and the upload statistics without the upload lock, so it can make calls while
the transfer thread is at that place.  Up to `MarkAsCompleted()` a task writes
nothing that the main thread reads, so a task is one step up to there, and
the GL calls it makes enter the log with its signal. -/
structure Threads where
  system : System
  recording : Option Recording
deriving DecidableEq, Repr

/-- The threads right after the delegate is constructed. -/
def Threads.init (env : Env) : Threads :=
  { system := System.init env, recording := none }

/-- The system once the transfer thread has left the task it is inside. -/
def Threads.settle (x : Threads) : System :=
  PerformAsyncTexSubImage2D_record x.system x.recording

/-- `TransferThread::SetPriority`. -/
def Threads.SetPriority (x : Threads) (priority : ThreadPriority) : Threads :=
  { x with system := { x.system with transfer_priority := priority } }

/-- Runs one bound task on the transfer thread as far as the next place at
which the main thread can see it: to its end, or, for a sub-region upload, to
its `MarkAsCompleted()`, yielding the `AddUpload` that is still to come. -/
def beginTask (env : Env) (s : System) : Task → Except Fault (System × Option Recording)
  | .PerformAsyncTexImage2D h tex_params mem_params safe_shared_memory =>
    match PerformAsyncTexImage2D env s h tex_params mem_params safe_shared_memory with
    | .error e => .error e
    | .ok s1 => .ok (s1, none)
  | .PerformAsyncTexSubImage2D h tex_params mem_params safe_shared_memory stats =>
    PerformAsyncTexSubImage2D_upload env s h tex_params mem_params safe_shared_memory stats
  | .PerformNotifyCompletion mem_params safe_shared_memory callback =>
    match PerformNotifyCompletion s mem_params safe_shared_memory callback with
    | .error e => .error e
    | .ok s1 => .ok (s1, none)

/-- One turn of the transfer thread: inside a sub-region upload it makes the
call of `AddUpload` and leaves the task; between tasks it takes the task at
the head of its message loop and runs it to its end, or to its
`MarkAsCompleted()`; with no task posted it stays idle. -/
def Threads.RunTransferTask (env : Env) (x : Threads) : Except Fault Threads :=
  match x.recording with
  | some r =>
    .ok { system := PerformAsyncTexSubImage2D_record x.system (some r), recording := none }
  | none =>
    match x.system.transfer_tasks with
    | [] => .ok x
    | t :: rest =>
      match beginTask env { x.system with transfer_tasks := rest } t with
      | .error e => .error e
      | .ok (s1, recording) => .ok { system := s1, recording := recording }

/-- The destructor `~AsyncTransferStateImpl`, which takes the upload lock:
while the transfer thread is inside a task of the same state the destructor
waits for the lock, so it runs once that task has ended. -/
def Threads.DestroyTransferState (x : Threads) (h : Nat) : Except Fault Threads :=
  let x1 : Threads :=
    match x.recording with
    | some r => if r.state = h then { system := x.settle, recording := none } else x
    | none => x
  match gpu.DestroyTransferState x1.system h with
  | .error e => .error e
  | .ok s1 => .ok { x1 with system := s1 }

/-- The blocking `transfer_completion_.Wait()`: it returns as soon as the
event of state `h` is signaled; until then the transfer thread goes on, ending
the task it is inside and running the next one to its end or to its
`MarkAsCompleted()`. -/
def waitThreads (env : Env) (h : Nat) : List Task → Threads → Except Fault Threads
  | [], x =>
    match x.system.heap[h]? with
    | none => .error .bad_pointer
    | some o => if o.internal_.transfer_completion_ then .ok x else .error .blocked
  | t :: rest, x =>
    match x.system.heap[h]? with
    | none => .error .bad_pointer
    | some o =>
      if o.internal_.transfer_completion_ then .ok x
      else
        match beginTask env { x.settle with transfer_tasks := rest } t with
        | .error e => .error e
        | .ok (s1, recording) => waitThreads env h rest { system := s1, recording := recording }

/-- `AsyncPixelTransferDelegateShareGroup::WaitForTransferCompletion`, with
the transfer thread possibly inside a task. -/
def Threads.WaitForTransferCompletion (env : Env) (x : Threads) (h : Nat) :
    Except Fault Threads :=
  match x.system.get h with
  | none => .error .bad_pointer
  | some state =>
    if state.texture_id_ = 0 then .error (.dcheck .texture_id)
    else if state.TransferIsInProgress then
      let x1 := if env.android_or_linux then x.SetPriority ThreadPriority.Normal else x
      match waitThreads env h x1.system.transfer_tasks x1 with
      | .error e => .error e
      | .ok x2 =>
        match x2.system.heap[h]? with
        | none => .error .bad_pointer
        | some o =>
          if o.internal_.TransferIsInProgress then .error (.dcheck .not_in_progress)
          else .ok (if env.android_or_linux then x2.SetPriority ThreadPriority.Background
            else x2)
    else .ok x

/-- A call of the main thread that takes no lock and does not block, made
wherever the transfer thread is. -/
def Threads.call (env : Env) (x : Threads) (e : Event) : Except Fault Threads :=
  match gpu.step env x.system e with
  | .error f => .error f
  | .ok s1 => .ok { x with system := s1 }

/-- The effect of one step when the main thread can run while the transfer
thread is between `MarkAsCompleted()` and `AddUpload`: a call made on the main
thread, or one turn of the transfer thread. -/
def Threads.step (env : Env) (x : Threads) : Event → Except Fault Threads
  | .CreatePixelTransferState texture_id define_params =>
    x.call env (.CreatePixelTransferState texture_id define_params)
  | .DestroyTransferState h => x.DestroyTransferState h
  | .AsyncTexImage2D h tex_params mem_params bind_callback =>
    x.call env (.AsyncTexImage2D h tex_params mem_params bind_callback)
  | .AsyncTexSubImage2D h tex_params mem_params =>
    x.call env (.AsyncTexSubImage2D h tex_params mem_params)
  | .AsyncNotifyCompletion mem_params callback =>
    x.call env (.AsyncNotifyCompletion mem_params callback)
  | .WaitForTransferCompletion h => x.WaitForTransferCompletion env h
  | .BindCompletedAsyncTransfers => x.call env .BindCompletedAsyncTransfers
  | .RunTransferTask => x.RunTransferTask env

/-- Runs a sequence of such steps, stopping at the first fault. -/
def Threads.run (env : Env) : Threads → List Event → Except Fault Threads
  | x, [] => .ok x
  | x, e :: es =>
    match Threads.step env x e with
    | .error f => .error f
    | .ok x1 => Threads.run env x1 es

/-- The number of `AddUpload` calls the transfer thread is about to make. -/
def Threads.owed (x : Threads) : Nat :=
  match x.recording with
  | some _ => 1
  | none => 0

/-- A sub-region upload is submitted and waited for: the wait returns when
the transfer thread has signaled completion. -/
def traceLag : List Event :=
  [.CreatePixelTransferState 5 tex64, .AsyncTexSubImage2D 0 sub64 mem16k,
   .WaitForTransferCompletion 0]

/-- A define-mode upload is performed, a sub-region upload is waited for,
and a further sub-region upload is cancelled before its task runs. -/
def traceWindow : List Event :=
  [.CreatePixelTransferState 5 tex64, .CreatePixelTransferState 6 tex64,
   .AsyncTexImage2D 0 tex64 mem16k 70, .AsyncTexSubImage2D 1 sub64 mem16k,
   .RunTransferTask, .AsyncTexSubImage2D 0 sub64 mem16k, .DestroyTransferState 0,
   .WaitForTransferCompletion 1]

/-! # Properties -/

/-! ## Reconciliation loop -/

theorem get_of_heap_eq {s1 s2 : System} (hh : s1.heap = s2.heap) (h : Nat) :
    s1.get h = s2.get h := by
  simp [System.get, hh]

theorem BindTransfer_frame {s s1 : System} {h : Nat} {state : TransferStateInternal}
    (tb : Bool) (hb : BindTransfer (enterBinder s tb) h state = .ok s1) :
    s1.heap = s.heap ∧ s1.bind_runs = s.bind_runs ++ [(h, state.bind_callback_)]
      ∧ s1.transfer_tasks = s.transfer_tasks ∧ s1.transfer_gl = s.transfer_gl
      ∧ s1.notify_runs = s.notify_runs
      ∧ s1.texture_upload_stats_ = s.texture_upload_stats_
      ∧ s1.transfer_priority = s.transfer_priority := by
  unfold BindTransfer at hb
  split at hb
  · simp at hb
  · split at hb
    · simp at hb
    · simp only [Except.ok.injEq] at hb
      subst hb
      cases tb <;> simp [enterBinder]

/-- What one run of the loop over the queue `l` does, when it returns. -/
theorem bindLoop_spec : ∀ (l : List Nat) (s : System) (tb : Bool) (s' : System),
    bindLoop l s tb = .ok s' →
    ∃ taken, l = taken ++ s'.pending_allocations_ ∧
      (∀ h ∈ taken, s.ready h = true) ∧
      (∀ h ∈ s'.pending_allocations_.head?, s.ready h = false) ∧
      s'.bind_runs = s.bind_runs ++ taken.filterMap s.bound ∧
      s'.heap = s.heap ∧ s'.transfer_tasks = s.transfer_tasks ∧
      s'.transfer_gl = s.transfer_gl ∧ s'.notify_runs = s.notify_runs ∧
      s'.texture_upload_stats_ = s.texture_upload_stats_ ∧
      s'.transfer_priority = s.transfer_priority := by
  intro l
  induction l with
  | nil =>
    intro s tb s' hrun
    simp only [bindLoop, Except.ok.injEq] at hrun
    subst hrun
    refine ⟨[], ?_⟩
    cases tb <;> simp [leaveBinder]
  | cons h rest ih =>
    intro s tb s' hrun
    unfold bindLoop at hrun
    cases hg : s.get h with
    | none =>
      simp only [hg] at hrun
      obtain ⟨taken, h1, h2, h3, h4, h5⟩ := ih s tb s' hrun
      refine ⟨h :: taken, by simp [h1], ?_, h3, ?_, h5⟩
      · intro x hx
        rcases List.mem_cons.1 hx with rfl | hx
        · simp [System.ready, hg]
        · exact h2 x hx
      · simp [h4, System.bound, hg]
    | some state =>
      simp only [hg] at hrun
      by_cases hp : state.TransferIsInProgress = true
      · simp only [hp, if_true, Except.ok.injEq] at hrun
        subst hrun
        refine ⟨[], ?_⟩
        cases tb <;> simp [leaveBinder, System.ready, hg, hp]
      · simp only [hp] at hrun
        cases hb : BindTransfer (enterBinder s tb) h state with
        | error e => simp [hb] at hrun
        | ok s1 =>
          simp only [hb] at hrun
          obtain ⟨e1, e2, e3, e4, e5, e6, e7⟩ := BindTransfer_frame tb hb
          obtain ⟨taken, h1, h2, h3, h4, h5, h6, h7, h8, h9, h10⟩ := ih s1 true s' hrun
          have hready : ∀ x, s1.ready x = s.ready x := by
            intro x; simp [System.ready, get_of_heap_eq e1]
          have hbound : s1.bound = s.bound := by
            funext x; simp [System.bound, get_of_heap_eq e1]
          refine ⟨h :: taken, by simp [h1], ?_, ?_, ?_, by rw [h5, e1], by rw [h6, e3],
            by rw [h7, e4], by rw [h8, e5], by rw [h9, e6], by rw [h10, e7]⟩
          · intro x hx
            rcases List.mem_cons.1 hx with rfl | hx
            · simp [System.ready, hg, hp]
            · rw [← hready]; exact h2 x hx
          · intro x hx; rw [← hready]; exact h3 x hx
          · rw [h4, e2, hbound]
            simp [System.bound, hg]

/-- The loop returns when every live completed entry of the run it removes
has a texture and a stored callback. -/
theorem bindLoop_returns : ∀ (l : List Nat) (s : System) (tb : Bool),
    (∀ h ∈ l.takeWhile s.ready, s.bindable h = true) →
    ∃ s', bindLoop l s tb = .ok s' := by
  intro l
  induction l with
  | nil => intro s tb _; exact ⟨_, rfl⟩
  | cons h rest ih =>
    intro s tb hwf
    unfold bindLoop
    cases hg : s.get h with
    | none =>
      have hr : s.ready h = true := by simp [System.ready, hg]
      apply ih s tb
      intro x hx
      exact hwf x (by rw [List.takeWhile_cons, hr]; exact List.mem_cons_of_mem _ hx)
    | some state =>
      by_cases hp : state.TransferIsInProgress = true
      · simp [hp]
      · have hr : s.ready h = true := by simpa [System.ready, hg] using hp
        have hb := hwf h (by rw [List.takeWhile_cons, hr]; exact List.mem_cons_self _ _)
        have hb' : state.texture_id_ ≠ 0 ∧ state.bind_callback_ ≠ 0 := by
          simpa [System.bindable, hg, hp] using hb
        have hbt : ∃ s1, BindTransfer (enterBinder s tb) h state = .ok s1 := by
          simp [BindTransfer, hb'.1, hb'.2]
        obtain ⟨s1, hbt⟩ := hbt
        simp only [hp, hbt]
        obtain ⟨e1, -⟩ := BindTransfer_frame tb hbt
        have hready : s1.ready = s.ready := by
          funext x; simp [System.ready, get_of_heap_eq e1]
        apply ih s1 true
        intro x hx
        rw [hready] at hx
        have := hwf x (by rw [List.takeWhile_cons, hr]; exact List.mem_cons_of_mem _ hx)
        simpa [System.bindable, get_of_heap_eq e1] using this

/-- C2: one call of `BindCompletedAsyncTransfers`, on a queue whose live
completed entries at the head can be bound (texture and callback set),
removes from the head of the pending queue exactly the longest run of entries
that are released or live and completed, runs the bind callback once for each
live entry of that run in queue order and for no other entry, and leaves the
rest of the queue, the heap and the posted tasks unchanged; when the head is
live and still in progress the call changes nothing at all. -/
theorem C2_bind_completed_takes_longest_ready_run (s : System)
    (hwf : ∀ h ∈ s.pending_allocations_.takeWhile s.ready, s.bindable h = true) :
    ∃ s' taken, BindCompletedAsyncTransfers s = .ok s' ∧
      s.pending_allocations_ = taken ++ s'.pending_allocations_ ∧
      (∀ h ∈ taken, s.ready h = true) ∧
      (∀ h ∈ s'.pending_allocations_.head?, s.ready h = false) ∧
      s'.bind_runs = s.bind_runs ++ taken.filterMap s.bound ∧
      s'.heap = s.heap ∧ s'.transfer_tasks = s.transfer_tasks ∧
      (∀ h rest st, s.pending_allocations_ = h :: rest → s.get h = some st →
        st.TransferIsInProgress = true → s' = s) := by
  obtain ⟨s', hrun⟩ := bindLoop_returns s.pending_allocations_ s false hwf
  obtain ⟨taken, h1, h2, h3, h4, h5, h6, -⟩ := bindLoop_spec _ _ _ _ hrun
  refine ⟨s', taken, hrun, h1, h2, h3, h4, h5, h6, ?_⟩
  intro h rest st hq hg hp
  rw [hq] at hrun
  unfold bindLoop at hrun
  simp only [hg, hp, if_true, Except.ok.injEq, leaveBinder] at hrun
  rw [← hrun, ← hq]
  rfl

/-! ## Submission -/

theorem AsyncTexImage2D_ok_iff (env : Env) (s s' : System) (h : Nat)
    (tex_params : AsyncTexImage2DParams) (mem_params : AsyncMemoryParams) (bind_callback : Nat) :
    AsyncTexImage2D env s h tex_params mem_params bind_callback = .ok s' ↔
    ∃ o, s.heap[h]? = some o ∧ o.alive = true ∧ mem_params.shared_memory ≠ 0 ∧
      shm_range_ok env mem_params = true ∧ o.internal_.texture_id_ ≠ 0 ∧
      o.internal_.transfer_completion_ = true ∧ tex_params.target = GL_TEXTURE_2D ∧
      tex_params.level = 0 ∧
      s' = { s with
        pending_allocations_ := s.pending_allocations_ ++ [h],
        heap := s.heap.set h { o with internal_ :=
          { o.internal_ with bind_callback_ := bind_callback, transfer_completion_ := false } },
        transfer_tasks := s.transfer_tasks ++
          [Task.PerformAsyncTexImage2D h tex_params mem_params
            (new_ScopedSafeSharedMemory env mem_params)] } := by
  unfold AsyncTexImage2D
  cases ho : s.heap[h]? with
  | none => simp
  | some o =>
    simp only [Option.some.injEq, exists_eq_left']
    by_cases h1 : o.alive = true <;> simp [h1]
    by_cases h2 : mem_params.shared_memory = 0 <;> simp [h2]
    by_cases h3 : shm_range_ok env mem_params = true <;> simp [h3]
    by_cases h4 : o.internal_.texture_id_ = 0 <;> simp [h4]
    by_cases h5 : o.internal_.transfer_completion_ = true <;>
      simp [h5, TransferStateInternal.TransferIsInProgress]
    by_cases h6 : tex_params.target = GL_TEXTURE_2D <;> simp [h6]
    by_cases h7 : tex_params.level = 0 <;> simp [h7]
    simp [TransferStateInternal.SetBindCallback,
      TransferStateInternal.MarkAsTransferIsInProgress, eq_comm]

theorem AsyncTexSubImage2D_ok_iff (env : Env) (s s' : System) (h : Nat)
    (tex_params : AsyncTexSubImage2DParams) (mem_params : AsyncMemoryParams) :
    AsyncTexSubImage2D env s h tex_params mem_params = .ok s' ↔
    ∃ o, s.heap[h]? = some o ∧ o.alive = true ∧ mem_params.shared_memory ≠ 0 ∧
      shm_range_ok env mem_params = true ∧ o.internal_.texture_id_ ≠ 0 ∧
      o.internal_.transfer_completion_ = true ∧ tex_params.target = GL_TEXTURE_2D ∧
      tex_params.level = 0 ∧
      s' = { s with
        heap := s.heap.set h { o with internal_ :=
          { o.internal_ with transfer_completion_ := false } },
        transfer_tasks := s.transfer_tasks ++
          [Task.PerformAsyncTexSubImage2D h tex_params mem_params
            (new_ScopedSafeSharedMemory env mem_params) true] } := by
  unfold AsyncTexSubImage2D
  cases ho : s.heap[h]? with
  | none => simp
  | some o =>
    simp only [Option.some.injEq, exists_eq_left']
    by_cases h1 : o.alive = true <;> simp [h1]
    by_cases h4 : o.internal_.texture_id_ = 0 <;> simp [h4]
    by_cases h5 : o.internal_.transfer_completion_ = true <;>
      simp [h5, TransferStateInternal.TransferIsInProgress]
    by_cases h2 : mem_params.shared_memory = 0 <;> simp [h2]
    by_cases h3 : shm_range_ok env mem_params = true <;> simp [h3]
    by_cases h6 : tex_params.target = GL_TEXTURE_2D <;> simp [h6]
    by_cases h7 : tex_params.level = 0 <;> simp [h7]
    simp [TransferStateInternal.MarkAsTransferIsInProgress, eq_comm]

theorem get_eq_some_iff (s : System) (h : Nat) (st : TransferStateInternal) :
    s.get h = some st ↔ ∃ o, s.heap[h]? = some o ∧ o.alive = true ∧ o.internal_ = st := by
  unfold System.get
  cases ho : s.heap[h]? with
  | none => simp
  | some o => by_cases ha : o.alive = true <;> simp [ha]

/-- The witness of C2: on a queue holding a released entry, a completed one,
one in progress and a completed one behind it, the call removes the first two
and runs the callback of the second only. -/
theorem C2_bind_completed_takes_longest_ready_run_witness :
    (∀ h ∈ sysQueue.pending_allocations_.takeWhile sysQueue.ready,
      sysQueue.bindable h = true) ∧
    ∃ s' taken, BindCompletedAsyncTransfers sysQueue = .ok s' ∧
      sysQueue.pending_allocations_ = taken ++ s'.pending_allocations_ ∧
      (∀ h ∈ taken, sysQueue.ready h = true) ∧
      (∀ h ∈ s'.pending_allocations_.head?, sysQueue.ready h = false) ∧
      s'.bind_runs = sysQueue.bind_runs ++ taken.filterMap sysQueue.bound ∧
      s'.heap = sysQueue.heap ∧ s'.transfer_tasks = sysQueue.transfer_tasks ∧
      (∀ h rest st, sysQueue.pending_allocations_ = h :: rest → sysQueue.get h = some st →
        st.TransferIsInProgress = true → s' = sysQueue) :=
  ⟨by decide, C2_bind_completed_takes_longest_ready_run sysQueue (by decide)⟩

/-- C5, as stated, fails: a sub-region upload submitted on an idle state
appends nothing to the pending queue and stores no callback. -/
theorem C5_sub_image_leaves_queue_counterexample :
    ∃ s', AsyncTexSubImage2D env32 sysIdle 0 sub64 mem16k = .ok s' ∧
      s'.pending_allocations_ ≠ sysIdle.pending_allocations_ ++ [0] ∧
      s'.pending_allocations_ = [] ∧
      (s'.get 0).map (fun st => st.bind_callback_) = some 0 := by
  refine ⟨_, rfl, ?_, ?_, ?_⟩ <;> decide

/-- C5, amended: on an idle live state and with the other assertions
holding, `AsyncTexImage2D` appends one weak reference to the state at the
tail of the pending queue, stores the bind callback, makes the state in
progress and posts one task for it; `AsyncTexSubImage2D` makes the state in
progress and posts one task for it, leaving the pending queue and the stored
callback as they were.  Neither touches another state. -/
theorem C5_submission_effects (env : Env) (s : System) (h : Nat) (st : TransferStateInternal)
    (tex_params : AsyncTexImage2DParams) (sub_params : AsyncTexSubImage2DParams)
    (mem_params : AsyncMemoryParams) (bind_callback : Nat)
    (hget : s.get h = some st) (hidle : st.TransferIsInProgress = false)
    (htex : st.texture_id_ ≠ 0) (hmem : mem_params.shared_memory ≠ 0)
    (hrange : shm_range_ok env mem_params = true)
    (ht1 : tex_params.target = GL_TEXTURE_2D) (hl1 : tex_params.level = 0)
    (ht2 : sub_params.target = GL_TEXTURE_2D) (hl2 : sub_params.level = 0) :
    (∃ s', AsyncTexImage2D env s h tex_params mem_params bind_callback = .ok s' ∧
      s'.pending_allocations_ = s.pending_allocations_ ++ [h] ∧
      s'.get h = some { st with bind_callback_ := bind_callback, transfer_completion_ := false } ∧
      (s'.get h).map (fun x => x.TransferIsInProgress) = some true ∧
      s'.transfer_tasks = s.transfer_tasks ++
        [Task.PerformAsyncTexImage2D h tex_params mem_params
          (new_ScopedSafeSharedMemory env mem_params)] ∧
      (∀ h', h' ≠ h → s'.heap[h']? = s.heap[h']?)) ∧
    (∃ s', AsyncTexSubImage2D env s h sub_params mem_params = .ok s' ∧
      s'.pending_allocations_ = s.pending_allocations_ ∧
      s'.get h = some { st with transfer_completion_ := false } ∧
      (s'.get h).map (fun x => x.TransferIsInProgress) = some true ∧
      s'.transfer_tasks = s.transfer_tasks ++
        [Task.PerformAsyncTexSubImage2D h sub_params mem_params
          (new_ScopedSafeSharedMemory env mem_params) true] ∧
      (∀ h', h' ≠ h → s'.heap[h']? = s.heap[h']?)) := by
  obtain ⟨o, ho, ha, rfl⟩ := (get_eq_some_iff s h st).1 hget
  have hlt : h < s.heap.length := by
    by_contra hc
    rw [List.getElem?_eq_none (by omega)] at ho
    cases ho
  have hdone : o.internal_.transfer_completion_ = true := by
    simpa [TransferStateInternal.TransferIsInProgress] using hidle
  constructor
  · refine ⟨_, (AsyncTexImage2D_ok_iff ..).2
      ⟨o, ho, ha, hmem, hrange, htex, hdone, ht1, hl1, rfl⟩, rfl, ?_, ?_, rfl, ?_⟩
    · simp [System.get, hlt, ha]
    · simp [System.get, hlt, ha, TransferStateInternal.TransferIsInProgress]
    · intro h' hne
      simp [List.getElem?_set_ne (Ne.symm hne)]
  · refine ⟨_, (AsyncTexSubImage2D_ok_iff ..).2
      ⟨o, ho, ha, hmem, hrange, htex, hdone, ht2, hl2, rfl⟩, rfl, ?_, ?_, rfl, ?_⟩
    · simp [System.get, hlt, ha]
    · simp [System.get, hlt, ha, TransferStateInternal.TransferIsInProgress]
    · intro h' hne
      simp [List.getElem?_set_ne (Ne.symm hne)]

/-- The witness of C5: both submissions on the idle state `0` of `sysIdle`. -/
theorem C5_submission_effects_witness :
    sysIdle.get 0 = some (stateWith 5 0 true true).internal_ ∧
    (∃ s', AsyncTexImage2D env32 sysIdle 0 tex64 mem16k 7 = .ok s' ∧
      s'.pending_allocations_ = sysIdle.pending_allocations_ ++ [0] ∧
      s'.get 0 = some { (stateWith 5 0 true true).internal_ with
        bind_callback_ := 7, transfer_completion_ := false } ∧
      (s'.get 0).map (fun x => x.TransferIsInProgress) = some true ∧
      s'.transfer_tasks = sysIdle.transfer_tasks ++
        [Task.PerformAsyncTexImage2D 0 tex64 mem16k (new_ScopedSafeSharedMemory env32 mem16k)] ∧
      (∀ h', h' ≠ 0 → s'.heap[h']? = sysIdle.heap[h']?)) ∧
    (∃ s', AsyncTexSubImage2D env32 sysIdle 0 sub64 mem16k = .ok s' ∧
      s'.pending_allocations_ = sysIdle.pending_allocations_ ∧
      s'.get 0 = some { (stateWith 5 0 true true).internal_ with transfer_completion_ := false } ∧
      (s'.get 0).map (fun x => x.TransferIsInProgress) = some true ∧
      s'.transfer_tasks = sysIdle.transfer_tasks ++
        [Task.PerformAsyncTexSubImage2D 0 sub64 mem16k
          (new_ScopedSafeSharedMemory env32 mem16k) true] ∧
      (∀ h', h' ≠ 0 → s'.heap[h']? = sysIdle.heap[h']?)) :=
  ⟨by decide,
   C5_submission_effects env32 sysIdle 0 (stateWith 5 0 true true).internal_ tex64 sub64 mem16k 7
    (by decide) (by decide) (by decide) (by decide) (by decide) (by decide) (by decide)
    (by decide) (by decide)⟩

/-! ## Assertions at submission -/

/-- C7: on a state that is in progress neither `AsyncTexImage2D` nor
`AsyncTexSubImage2D` returns normally, whatever the arguments, and once the
assertions written before it hold the fault is the failed
`DCHECK(!state->TransferIsInProgress())`; on a state that is not in progress
that assertion never fails. -/
theorem C7_submit_while_in_progress_asserts (env : Env) (s : System) (h : Nat)
    (st : TransferStateInternal) (hget : s.get h = some st) :
    (st.TransferIsInProgress = true →
      (∀ tex_params mem_params bind_callback s',
        AsyncTexImage2D env s h tex_params mem_params bind_callback ≠ .ok s') ∧
      (∀ tex_params mem_params s',
        AsyncTexSubImage2D env s h tex_params mem_params ≠ .ok s') ∧
      (∀ tex_params mem_params bind_callback, mem_params.shared_memory ≠ 0 →
        shm_range_ok env mem_params = true → st.texture_id_ ≠ 0 →
        AsyncTexImage2D env s h tex_params mem_params bind_callback
          = .error (.dcheck .not_in_progress)) ∧
      (∀ tex_params mem_params, st.texture_id_ ≠ 0 →
        AsyncTexSubImage2D env s h tex_params mem_params
          = .error (.dcheck .not_in_progress))) ∧
    (st.TransferIsInProgress = false →
      (∀ tex_params mem_params bind_callback,
        AsyncTexImage2D env s h tex_params mem_params bind_callback
          ≠ .error (.dcheck .not_in_progress)) ∧
      (∀ tex_params mem_params,
        AsyncTexSubImage2D env s h tex_params mem_params
          ≠ .error (.dcheck .not_in_progress))) := by
  obtain ⟨o, ho, ha, rfl⟩ := (get_eq_some_iff s h st).1 hget
  constructor
  · intro hp
    have hnot : o.internal_.transfer_completion_ = false := by
      simpa [TransferStateInternal.TransferIsInProgress] using hp
    refine ⟨?_, ?_, ?_, ?_⟩
    · intro tex_params mem_params bind_callback s' hok
      obtain ⟨o', ho', -, -, -, -, hc, -⟩ := (AsyncTexImage2D_ok_iff ..).1 hok
      rw [ho] at ho'
      cases ho'
      rw [hnot] at hc
      cases hc
    · intro tex_params mem_params s' hok
      obtain ⟨o', ho', -, -, -, -, hc, -⟩ := (AsyncTexSubImage2D_ok_iff ..).1 hok
      rw [ho] at ho'
      cases ho'
      rw [hnot] at hc
      cases hc
    · intro tex_params mem_params bind_callback h1 h2 h3
      simp [AsyncTexImage2D, ho, ha, h1, h2, h3, hp]
    · intro tex_params mem_params h3
      simp [AsyncTexSubImage2D, ho, ha, h3, hp]
  · intro hp
    constructor
    · intro tex_params mem_params bind_callback
      unfold AsyncTexImage2D
      simp only [ho, ha, hp]
      repeat' split
      all_goals simp_all
    · intro tex_params mem_params
      unfold AsyncTexSubImage2D
      simp only [ho, ha, hp]
      repeat' split
      all_goals simp_all

/-- The witness of C7: the busy state `0` of `sysBusy`. -/
theorem C7_submit_while_in_progress_asserts_witness :
    sysBusy.get 0 = some (stateWith 5 70 false true).internal_ ∧
    (stateWith 5 70 false true).internal_.TransferIsInProgress = true ∧
    AsyncTexImage2D env32 sysBusy 0 tex64 mem16k 7 = .error (.dcheck .not_in_progress) ∧
    AsyncTexSubImage2D env32 sysBusy 0 sub64 mem16k = .error (.dcheck .not_in_progress) :=
  ⟨by decide, by decide,
   ((C7_submit_while_in_progress_asserts env32 sysBusy 0 (stateWith 5 70 false true).internal_
      (by decide)).1 (by decide)).2.2.1 tex64 mem16k 7 (by decide) (by decide) (by decide),
   ((C7_submit_while_in_progress_asserts env32 sysBusy 0 (stateWith 5 70 false true).internal_
      (by decide)).1 (by decide)).2.2.2 sub64 mem16k (by decide)⟩

/-- C8: the range assertion adds the offset and the size in the width of the
fields.  It passes when the two add up to the block size, and it agrees with
the comparison of the true sum whenever that sum fits the width; with 32-bit
fields the range of `memWrap`, whose true sum 4294967297 exceeds the block
size 10, passes it and all three submissions accept the parameters. -/
theorem C8_range_assertion_wraps :
    (∀ (env : Env) (m : AsyncMemoryParams),
      m.shm_data_offset + m.shm_data_size = m.shm_size → shm_range_ok env m = true) ∧
    (∀ (env : Env) (m : AsyncMemoryParams),
      m.shm_data_offset + m.shm_data_size < 2 ^ env.shm_bits →
      (shm_range_ok env m = true ↔ m.shm_data_offset + m.shm_data_size ≤ m.shm_size)) ∧
    memWrap.shm_data_offset < 2 ^ env32.shm_bits ∧
    memWrap.shm_data_size < 2 ^ env32.shm_bits ∧
    memWrap.shm_size < 2 ^ env32.shm_bits ∧
    memWrap.shm_size < memWrap.shm_data_offset + memWrap.shm_data_size ∧
    shm_range_ok env32 memWrap = true ∧
    (∃ s', AsyncTexImage2D env32 sysIdle 0 tex64 memWrap 7 = .ok s') ∧
    (∃ s', AsyncTexSubImage2D env32 sysIdle 0 sub64 memWrap = .ok s') ∧
    (∃ s', AsyncNotifyCompletion env32 sysIdle memWrap 9 = .ok s') := by
  refine ⟨?_, ?_, by decide, by decide, by decide, by decide, by decide,
    ⟨_, rfl⟩, ⟨_, rfl⟩, ⟨_, rfl⟩⟩
  · intro env m hm
    simp only [shm_range_ok, uint_add, decide_eq_true_eq]
    exact le_trans (Nat.mod_le _ _) (le_of_eq hm)
  · intro env m hm
    simp only [shm_range_ok, uint_add, decide_eq_true_eq, Nat.mod_eq_of_lt hm]

/-! ## Worker tasks -/

/-- The sub-region upload task as one function of the system it starts in. -/
theorem PerformAsyncTexSubImage2D_whole (env : Env) (s : System) (h : Nat)
    (tex_params : AsyncTexSubImage2DParams) (mem_params : AsyncMemoryParams)
    (safe_shared_memory : ScopedSafeSharedMemory) (texture_upload_stats : Bool) :
    PerformAsyncTexSubImage2D env s h tex_params mem_params safe_shared_memory
        texture_upload_stats =
      match s.heap[h]? with
      | none => .error .bad_pointer
      | some o =>
        if o.internal_.cancel_upload_flag_ then .ok s
        else if tex_params.level ≠ 0 then .error (.dcheck .level)
        else
          .ok { s with
            heap := s.heap.set h
              { o with internal_ := { o.internal_ with transfer_completion_ := true } },
            transfer_gl := s.transfer_gl ++
              [(h, GLCall.glBindTexture GL_TEXTURE_2D o.internal_.texture_id_),
               (h, GLCall.glTexSubImage2D GL_TEXTURE_2D tex_params.level tex_params.xoffset
                     tex_params.yoffset tex_params.width tex_params.height tex_params.format
                     tex_params.type (env.GetAddress safe_shared_memory mem_params)),
               (h, GLCall.glBindTexture GL_TEXTURE_2D 0),
               (h, GLCall.glFlush)],
            texture_upload_stats_ :=
              if texture_upload_stats then
                s.texture_upload_stats_.AddUpload (env.upload_ticks tex_params)
              else s.texture_upload_stats_ } := by
  unfold PerformAsyncTexSubImage2D PerformAsyncTexSubImage2D_upload
  cases ho : s.heap[h]? with
  | none => rfl
  | some o =>
    simp only
    split_ifs <;> rfl

theorem PerformAsyncTexImage2D_eq (env : Env) (s : System) (h : Nat) (o : AsyncTransferStateImpl)
    (tex_params : AsyncTexImage2DParams) (mem_params : AsyncMemoryParams)
    (safe_shared_memory : ScopedSafeSharedMemory) (ho : s.heap[h]? = some o)
    (hc : o.internal_.cancel_upload_flag_ = false) (hl : tex_params.level = 0) :
    PerformAsyncTexImage2D env s h tex_params mem_params safe_shared_memory =
      .ok { s with
        heap := s.heap.set h { o with internal_ := { o.internal_ with transfer_completion_ := true } },
        transfer_gl := s.transfer_gl ++
          [(h, GLCall.glBindTexture GL_TEXTURE_2D o.internal_.texture_id_),
           (h, GLCall.glTexImage2D GL_TEXTURE_2D tex_params.level tex_params.internal_format
                 tex_params.width tex_params.height tex_params.border tex_params.format
                 tex_params.type (env.GetAddress safe_shared_memory mem_params)),
           (h, GLCall.glBindTexture GL_TEXTURE_2D 0),
           (h, GLCall.glFlush)] } := by
  simp [PerformAsyncTexImage2D, ho, hc, hl]

theorem PerformAsyncTexSubImage2D_eq (env : Env) (s : System) (h : Nat)
    (o : AsyncTransferStateImpl) (tex_params : AsyncTexSubImage2DParams)
    (mem_params : AsyncMemoryParams) (safe_shared_memory : ScopedSafeSharedMemory)
    (stats : Bool) (ho : s.heap[h]? = some o)
    (hc : o.internal_.cancel_upload_flag_ = false) (hl : tex_params.level = 0) :
    PerformAsyncTexSubImage2D env s h tex_params mem_params safe_shared_memory stats =
      .ok { s with
        heap := s.heap.set h { o with internal_ := { o.internal_ with transfer_completion_ := true } },
        transfer_gl := s.transfer_gl ++
          [(h, GLCall.glBindTexture GL_TEXTURE_2D o.internal_.texture_id_),
           (h, GLCall.glTexSubImage2D GL_TEXTURE_2D tex_params.level tex_params.xoffset
                 tex_params.yoffset tex_params.width tex_params.height tex_params.format
                 tex_params.type (env.GetAddress safe_shared_memory mem_params)),
           (h, GLCall.glBindTexture GL_TEXTURE_2D 0),
           (h, GLCall.glFlush)],
        texture_upload_stats_ :=
          if stats then s.texture_upload_stats_.AddUpload (env.upload_ticks tex_params)
          else s.texture_upload_stats_ } := by
  simp [PerformAsyncTexSubImage2D_whole, ho, hc, hl]

/-- C9, as stated, fails: the task posted for the range of `memWrap`, which
ends past its block and for which `GetAddress` yields no valid address,
issues the upload call with the null address and signals completion. -/
theorem C9_task_ignores_range_counterexample :
    memWrap.shm_size < memWrap.shm_data_offset + memWrap.shm_data_size ∧
    env32.GetAddress (new_ScopedSafeSharedMemory env32 memWrap) memWrap = 0 ∧
    ∃ s', run env32 (System.init env32) traceWrap = .ok s' ∧
      (0, GLCall.glTexImage2D GL_TEXTURE_2D 0 6408 64 64 0 6408 5121 0) ∈ s'.transfer_gl ∧
      (s'.get 0).map (fun st => st.TransferIsInProgress) = some false := by
  refine ⟨by decide, by decide, _, rfl, by decide, by decide⟩

/-- C9, amended: a worker upload task whose state is not cancelled makes no
bounds check.  Whatever the declared range and whatever address `GetAddress`
yields for it, the task issues the GL upload call with that address and
signals completion, so the state is no longer in progress afterwards. -/
theorem C9_task_uploads_whatever_the_range (env : Env) (s : System) (h : Nat)
    (o : AsyncTransferStateImpl) (tex_params : AsyncTexImage2DParams)
    (sub_params : AsyncTexSubImage2DParams) (mem_params : AsyncMemoryParams)
    (safe_shared_memory : ScopedSafeSharedMemory) (stats : Bool)
    (ho : s.heap[h]? = some o) (hc : o.internal_.cancel_upload_flag_ = false)
    (hl1 : tex_params.level = 0) (hl2 : sub_params.level = 0) :
    (∃ s', PerformAsyncTexImage2D env s h tex_params mem_params safe_shared_memory = .ok s' ∧
      s'.transfer_gl = s.transfer_gl ++
        [(h, GLCall.glBindTexture GL_TEXTURE_2D o.internal_.texture_id_),
         (h, GLCall.glTexImage2D GL_TEXTURE_2D tex_params.level tex_params.internal_format
               tex_params.width tex_params.height tex_params.border tex_params.format
               tex_params.type (env.GetAddress safe_shared_memory mem_params)),
         (h, GLCall.glBindTexture GL_TEXTURE_2D 0),
         (h, GLCall.glFlush)] ∧
      (s'.heap[h]?).map (fun x => x.internal_.TransferIsInProgress) = some false) ∧
    (∃ s', PerformAsyncTexSubImage2D env s h sub_params mem_params safe_shared_memory stats
        = .ok s' ∧
      s'.transfer_gl = s.transfer_gl ++
        [(h, GLCall.glBindTexture GL_TEXTURE_2D o.internal_.texture_id_),
         (h, GLCall.glTexSubImage2D GL_TEXTURE_2D sub_params.level sub_params.xoffset
               sub_params.yoffset sub_params.width sub_params.height sub_params.format
               sub_params.type (env.GetAddress safe_shared_memory mem_params)),
         (h, GLCall.glBindTexture GL_TEXTURE_2D 0),
         (h, GLCall.glFlush)] ∧
      (s'.heap[h]?).map (fun x => x.internal_.TransferIsInProgress) = some false) := by
  have hlt : h < s.heap.length := by
    by_contra hcon
    rw [List.getElem?_eq_none (by omega)] at ho
    cases ho
  constructor
  · refine ⟨_, PerformAsyncTexImage2D_eq env s h o tex_params mem_params safe_shared_memory
      ho hc hl1, rfl, ?_⟩
    simp [hlt, TransferStateInternal.TransferIsInProgress]
  · refine ⟨_, PerformAsyncTexSubImage2D_eq env s h o sub_params mem_params safe_shared_memory
      stats ho hc hl2, rfl, ?_⟩
    simp [hlt, TransferStateInternal.TransferIsInProgress]

/-- The witness of C9: the two tasks on the busy state of `sysBusy` with the
out-of-block range of `memWrap`. -/
theorem C9_task_uploads_whatever_the_range_witness :
    sysBusy.heap[0]? = some (stateWith 5 70 false true) ∧
    memWrap.shm_size < memWrap.shm_data_offset + memWrap.shm_data_size ∧
    (∃ s', PerformAsyncTexImage2D env32 sysBusy 0 tex64 memWrap
        (new_ScopedSafeSharedMemory env32 memWrap) = .ok s' ∧
      s'.transfer_gl = sysBusy.transfer_gl ++
        [(0, GLCall.glBindTexture GL_TEXTURE_2D 5),
         (0, GLCall.glTexImage2D GL_TEXTURE_2D 0 6408 64 64 0 6408 5121 0),
         (0, GLCall.glBindTexture GL_TEXTURE_2D 0),
         (0, GLCall.glFlush)] ∧
      (s'.heap[0]?).map (fun x => x.internal_.TransferIsInProgress) = some false) ∧
    (∃ s', PerformAsyncTexSubImage2D env32 sysBusy 0 sub64 memWrap
        (new_ScopedSafeSharedMemory env32 memWrap) true = .ok s' ∧
      s'.transfer_gl = sysBusy.transfer_gl ++
        [(0, GLCall.glBindTexture GL_TEXTURE_2D 5),
         (0, GLCall.glTexSubImage2D GL_TEXTURE_2D 0 0 0 64 64 6408 5121 0),
         (0, GLCall.glBindTexture GL_TEXTURE_2D 0),
         (0, GLCall.glFlush)] ∧
      (s'.heap[0]?).map (fun x => x.internal_.TransferIsInProgress) = some false) :=
  ⟨by decide, by decide,
   C9_task_uploads_whatever_the_range env32 sysBusy 0 (stateWith 5 70 false true) tex64 sub64
    memWrap (new_ScopedSafeSharedMemory env32 memWrap) true (by decide) (by decide) (by decide)
    (by decide)⟩

/-! ## Steps and executions -/

theorem run_append (env : Env) : ∀ (es1 es2 : List Event) (s : System),
    run env s (es1 ++ es2) =
      match run env s es1 with
      | .error f => .error f
      | .ok s1 => run env s1 es2 := by
  intro es1
  induction es1 with
  | nil => intro es2 s; rfl
  | cons e es ih =>
    intro es2 s
    simp only [List.cons_append, run]
    cases step env s e with
    | error f => rfl
    | ok s1 => exact ih es2 s1

theorem run_snoc_ok (env : Env) (es : List Event) (e : Event) (s s' : System) :
    run env s (es ++ [e]) = .ok s' ↔ ∃ s1, run env s es = .ok s1 ∧ step env s1 e = .ok s' := by
  rw [run_append]
  cases hr : run env s es with
  | error f => simp
  | ok s1 =>
    simp only [run, Except.ok.injEq, exists_eq_left']
    cases step env s1 e <;> simp

theorem getElem?_lt_length {α : Type} {l : List α} {i : Nat} {a : α} (h : l[i]? = some a) :
    i < l.length := by
  by_contra hc
  rw [List.getElem?_eq_none (by omega)] at h
  cases h

theorem DestroyTransferState_ok_iff (s s' : System) (h : Nat) :
    DestroyTransferState s h = .ok s' ↔
    ∃ o, s.heap[h]? = some o ∧ o.alive = true ∧
      s' = { s with heap := s.heap.set h ({ internal_ :=
        { o.internal_ with cancel_upload_flag_ := true }, alive := false }) } := by
  unfold DestroyTransferState
  cases ho : s.heap[h]? with
  | none => simp
  | some o =>
    simp only [Option.some.injEq, exists_eq_left']
    by_cases ha : o.alive = true
    · simp only [ha, if_true, Except.ok.injEq, System.store, true_and]
      exact ⟨fun e => e.symm, fun e => e.symm⟩
    · simp [ha]

theorem AsyncNotifyCompletion_ok_iff (env : Env) (s s' : System) (mem_params : AsyncMemoryParams)
    (callback : Nat) :
    AsyncNotifyCompletion env s mem_params callback = .ok s' ↔
    mem_params.shared_memory ≠ 0 ∧ shm_range_ok env mem_params = true ∧
      s' = { s with transfer_tasks := s.transfer_tasks ++
        [Task.PerformNotifyCompletion mem_params (new_ScopedSafeSharedMemory env mem_params)
          callback] } := by
  unfold AsyncNotifyCompletion
  by_cases h2 : mem_params.shared_memory = 0 <;> simp [h2]
  by_cases h3 : shm_range_ok env mem_params = true <;> simp [h3, eq_comm]

/-- What running one task does, when it returns: a task of a cancelled state
changes nothing; an upload task of another state signals completion of its
state and logs GL calls of that state only; a notification logs its run. -/
theorem runTask_cases (env : Env) (s s' : System) (t : Task)
    (hrun : runTask env s t = .ok s') :
    (∃ h o, t.handle = some h ∧ s.heap[h]? = some o ∧
      ((o.internal_.cancel_upload_flag_ = true ∧ s' = s) ∨
       (o.internal_.cancel_upload_flag_ = false ∧ ∃ gl stats,
          (∀ c ∈ gl, c.1 = h) ∧ gl ≠ [] ∧
          s' = { s with heap := s.heap.set h o.completed,
                        transfer_gl := s.transfer_gl ++ gl,
                        texture_upload_stats_ := stats }))) ∨
    (t.handle = none ∧ ∃ runs, s' = { s with notify_runs := runs }) := by
  cases t with
  | PerformAsyncTexImage2D h tex_params mem_params safe_shared_memory =>
    left
    simp only [runTask, PerformAsyncTexImage2D] at hrun
    cases ho : s.heap[h]? with
    | none => simp [ho] at hrun
    | some o =>
      simp only [ho] at hrun
      refine ⟨h, o, rfl, ho, ?_⟩
      split at hrun
      · left
        simp only [Except.ok.injEq] at hrun
        exact ⟨by assumption, hrun.symm⟩
      · right
        have hc' : o.internal_.cancel_upload_flag_ = false := by simp_all
        split at hrun
        · simp at hrun
        · simp only [Except.ok.injEq] at hrun
          refine ⟨hc', _, s.texture_upload_stats_, ?_, ?_, hrun.symm⟩
          · intro c hcm
            simp at hcm
            rcases hcm with rfl | rfl | rfl | rfl <;> rfl
          · simp
  | PerformAsyncTexSubImage2D h tex_params mem_params safe_shared_memory stats =>
    left
    simp only [runTask, PerformAsyncTexSubImage2D_whole] at hrun
    cases ho : s.heap[h]? with
    | none => simp [ho] at hrun
    | some o =>
      simp only [ho] at hrun
      refine ⟨h, o, rfl, ho, ?_⟩
      split at hrun
      · left
        simp only [Except.ok.injEq] at hrun
        exact ⟨by assumption, hrun.symm⟩
      · right
        have hc' : o.internal_.cancel_upload_flag_ = false := by simp_all
        split at hrun
        · simp at hrun
        · simp only [Except.ok.injEq] at hrun
          refine ⟨hc', _, _, ?_, ?_, hrun.symm⟩
          · intro c hcm
            simp at hcm
            rcases hcm with rfl | rfl | rfl | rfl <;> rfl
          · simp
  | PerformNotifyCompletion mem_params safe_shared_memory callback =>
    right
    simp only [runTask, PerformNotifyCompletion] at hrun
    split at hrun
    · simp at hrun
    · simp only [Except.ok.injEq] at hrun
      exact ⟨rfl, _, hrun.symm⟩

theorem RunTransferTask_cases (env : Env) (s s' : System)
    (hrun : RunTransferTask env s = .ok s') :
    (s.transfer_tasks = [] ∧ s' = s) ∨
    ∃ t rest, s.transfer_tasks = t :: rest ∧
      runTask env { s with transfer_tasks := rest } t = .ok s' := by
  unfold RunTransferTask at hrun
  cases ht : s.transfer_tasks with
  | nil =>
    left
    simp only [ht, Except.ok.injEq] at hrun
    exact ⟨rfl, hrun.symm⟩
  | cons t rest =>
    right
    simp only [ht] at hrun
    exact ⟨t, rest, rfl, hrun⟩

theorem runTask_frame (env : Env) (s s' : System) (t : Task)
    (hrun : runTask env s t = .ok s') :
    s'.transfer_tasks = s.transfer_tasks ∧ s'.pending_allocations_ = s.pending_allocations_ ∧
    s'.bind_runs = s.bind_runs ∧ s'.heap.length = s.heap.length := by
  rcases runTask_cases env s s' t hrun with ⟨h, o, -, -, ⟨-, rfl⟩ | ⟨-, gl, stats, -, -, rfl⟩⟩ |
    ⟨-, runs, rfl⟩
  · simp
  · simp
  · simp

/-- A property kept by every task run is kept by the blocking wait loop. -/
theorem waitLoop_preserves (env : Env) (P : System → Prop) (h : Nat)
    (hrun : ∀ s s', P s → RunTransferTask env s = .ok s' → P s') :
    ∀ (tasks : List Task) (s s' : System), s.transfer_tasks = tasks → P s →
      waitLoop env h tasks s = .ok s' → P s' := by
  intro tasks
  induction tasks with
  | nil =>
    intro s s' _ hP hw
    unfold waitLoop at hw
    split at hw
    · simp at hw
    · split at hw
      · simp only [Except.ok.injEq] at hw
        rw [← hw]; exact hP
      · simp at hw
  | cons t rest ih =>
    intro s s' hts hP hw
    unfold waitLoop at hw
    split at hw
    · simp at hw
    · split at hw
      · simp only [Except.ok.injEq] at hw
        rw [← hw]; exact hP
      · cases ht : runTask env { s with transfer_tasks := rest } t with
        | error e => simp [ht] at hw
        | ok s1 =>
          simp only [ht] at hw
          have hstep : RunTransferTask env s = .ok s1 := by
            unfold RunTransferTask
            rw [hts]
            exact ht
          have hq : s1.transfer_tasks = rest := (runTask_frame env _ _ _ ht).1
          exact ih s1 s' hq (hrun s s1 hP hstep) hw

/-- A property kept by every task run and by a change of the thread priority
is kept by `WaitForTransferCompletion`. -/
theorem Wait_preserves (env : Env) (P : System → Prop)
    (hprio : ∀ s p, P s → P { s with transfer_priority := p })
    (hrun : ∀ s s', P s → RunTransferTask env s = .ok s' → P s')
    (s s' : System) (h : Nat) (hP : P s)
    (hw : WaitForTransferCompletion env s h = .ok s') : P s' := by
  unfold WaitForTransferCompletion at hw
  split at hw
  · simp at hw
  · split at hw
    · simp at hw
    · split at hw
      · simp only at hw
        split at hw
        · simp at hw
        · rename_i s2 hloop
          split at hw
          · simp at hw
          · split at hw
            · simp at hw
            · simp only [Except.ok.injEq] at hw
              have hP2 : P s2 := by
                refine waitLoop_preserves env P h hrun _ _ s2 rfl ?_ hloop
                split
                · exact hprio s _ hP
                · exact hP
              rw [← hw]
              split
              · exact hprio s2 _ hP2
              · exact hP2
      · simp only [Except.ok.injEq] at hw
        rw [← hw]; exact hP

/-! ## Cancellation -/

theorem filterMap_bound_of_dead (s : System) (h : Nat) (hd : s.get h = none) (l : List Nat) :
    (l.filterMap s.bound).filter (fun r => decide (r.1 = h)) = [] := by
  induction l with
  | nil => rfl
  | cons x xs ih =>
    unfold System.bound at ih ⊢
    cases hx : s.get x with
    | none => simpa [List.filterMap_cons, hx] using ih
    | some st =>
      have hne : x ≠ h := by
        intro e; rw [e, hd] at hx; cases hx
      simpa [List.filterMap_cons, hx, hne] using ih

/-- A state cancelled in flight stays so through every step, and no step
adds a GL call or a bind callback run for it. -/
theorem step_keeps_cancelled (env : Env) (h : Nat) (s s' : System) (e : Event)
    (hc : s.cancelledInFlight h) (hstep : step env s e = .ok s') :
    s'.cancelledInFlight h ∧ s'.transferCallsOf h = s.transferCallsOf h ∧
      s'.bindRunsOf h = s.bindRunsOf h := by
  have hrunTask : ∀ s s' : System, s.cancelledInFlight h → RunTransferTask env s = .ok s' →
      s'.cancelledInFlight h ∧ s'.transferCallsOf h = s.transferCallsOf h ∧
        s'.bindRunsOf h = s.bindRunsOf h := by
    intro s s' hc hr
    obtain ⟨o, ho, ha, hcf, hcomp⟩ := hc
    rcases RunTransferTask_cases env s s' hr with ⟨-, rfl⟩ | ⟨t, rest, -, ht⟩
    · exact ⟨⟨o, ho, ha, hcf, hcomp⟩, rfl, rfl⟩
    · rcases runTask_cases env _ s' t ht with
        ⟨k, ok, -, hk, ⟨-, rfl⟩ | ⟨hkc, gl, stats, hgl, -, rfl⟩⟩ | ⟨-, runs, rfl⟩
      · exact ⟨⟨o, ho, ha, hcf, hcomp⟩, rfl, rfl⟩
      · have hne : k ≠ h := by
          rintro rfl
          simp only at hk
          rw [ho] at hk
          cases hk
          rw [hcf] at hkc
          cases hkc
        refine ⟨⟨o, ?_, ha, hcf, hcomp⟩, ?_, rfl⟩
        · simp [List.getElem?_set_ne hne, ho]
        · simp only [System.transferCallsOf, List.filter_append]
          have : gl.filter (fun c => decide (c.1 = h)) = [] := by
            rw [List.filter_eq_nil_iff]
            intro c hcm
            simp [hgl c hcm, hne]
          simp [this]
      · exact ⟨⟨o, ho, ha, hcf, hcomp⟩, rfl, rfl⟩
  cases e with
  | CreatePixelTransferState texture_id define_params =>
    simp only [step, Except.ok.injEq] at hstep
    subst hstep
    obtain ⟨o, ho, ha, hcf, hcomp⟩ := hc
    refine ⟨⟨o, ?_, ha, hcf, hcomp⟩, rfl, rfl⟩
    simp [CreatePixelTransferState, List.getElem?_append_left (getElem?_lt_length ho), ho]
  | DestroyTransferState k =>
    obtain ⟨o, ho, ha, hcf, hcomp⟩ := hc
    obtain ⟨ok, hk, hka, rfl⟩ := (DestroyTransferState_ok_iff s s' k).1 hstep
    have hne : k ≠ h := by
      rintro rfl
      rw [ho] at hk; cases hk
      rw [ha] at hka; cases hka
    refine ⟨⟨o, ?_, ha, hcf, hcomp⟩, rfl, rfl⟩
    simp [List.getElem?_set_ne hne, ho]
  | AsyncTexImage2D k tex_params mem_params bind_callback =>
    obtain ⟨o, ho, ha, hcf, hcomp⟩ := hc
    obtain ⟨ok, hk, hka, -, -, -, -, -, -, rfl⟩ := (AsyncTexImage2D_ok_iff ..).1 hstep
    have hne : k ≠ h := by
      rintro rfl
      rw [ho] at hk; cases hk
      rw [ha] at hka; cases hka
    refine ⟨⟨o, ?_, ha, hcf, hcomp⟩, rfl, rfl⟩
    simp [List.getElem?_set_ne hne, ho]
  | AsyncTexSubImage2D k tex_params mem_params =>
    obtain ⟨o, ho, ha, hcf, hcomp⟩ := hc
    obtain ⟨ok, hk, hka, -, -, -, -, -, -, rfl⟩ := (AsyncTexSubImage2D_ok_iff ..).1 hstep
    have hne : k ≠ h := by
      rintro rfl
      rw [ho] at hk; cases hk
      rw [ha] at hka; cases hka
    refine ⟨⟨o, ?_, ha, hcf, hcomp⟩, rfl, rfl⟩
    simp [List.getElem?_set_ne hne, ho]
  | AsyncNotifyCompletion mem_params callback =>
    obtain ⟨-, -, rfl⟩ := (AsyncNotifyCompletion_ok_iff ..).1 hstep
    exact ⟨hc, rfl, rfl⟩
  | WaitForTransferCompletion k =>
    have hP := Wait_preserves env
      (fun x => x.cancelledInFlight h ∧ x.transferCallsOf h = s.transferCallsOf h ∧
        x.bindRunsOf h = s.bindRunsOf h)
      (fun x p hx => hx)
      (fun x x' hx hr => by
        obtain ⟨h1, h2, h3⟩ := hrunTask x x' hx.1 hr
        exact ⟨h1, h2.trans hx.2.1, h3.trans hx.2.2⟩)
      s s' k ⟨hc, rfl, rfl⟩ hstep
    exact hP
  | BindCompletedAsyncTransfers =>
    obtain ⟨o, ho, ha, hcf, hcomp⟩ := hc
    obtain ⟨taken, -, -, -, hruns, hheap, -, hgl, -⟩ := bindLoop_spec _ _ _ _ hstep
    have hdead : s.get h = none := by
      simp [System.get, ho, ha]
    refine ⟨⟨o, by rw [hheap]; exact ho, ha, hcf, hcomp⟩, ?_, ?_⟩
    · simp [System.transferCallsOf, hgl]
    · simp only [System.bindRunsOf, hruns, List.filter_append,
        filterMap_bound_of_dead s h hdead taken, List.append_nil]
  | RunTransferTask => exact hrunTask s s' hc hstep

theorem run_keeps_cancelled (env : Env) (h : Nat) : ∀ (es : List Event) (s s' : System),
    s.cancelledInFlight h → run env s es = .ok s' →
    s'.cancelledInFlight h ∧ s'.transferCallsOf h = s.transferCallsOf h ∧
      s'.bindRunsOf h = s.bindRunsOf h := by
  intro es
  induction es with
  | nil =>
    intro s s' hc hr
    simp only [run, Except.ok.injEq] at hr
    subst hr
    exact ⟨hc, rfl, rfl⟩
  | cons e es ih =>
    intro s s' hc hr
    simp only [run] at hr
    cases hs : step env s e with
    | error f => simp [hs] at hr
    | ok s1 =>
      simp only [hs] at hr
      obtain ⟨h1, h2, h3⟩ := step_keeps_cancelled env h s s1 e hc hs
      obtain ⟨k1, k2, k3⟩ := ih s1 s' h1 hr
      exact ⟨k1, k2.trans h2, k3.trans h3⟩

/-- C3: when the handle of a state is destroyed while its transfer is in
progress, then through every later execution the transfer thread makes no GL
call for that state, its completion event is never signaled, and no call of
`BindCompletedAsyncTransfers` runs its bind callback. -/
theorem C3_destroyed_in_flight_never_uploads_nor_binds (env : Env) (s s' : System) (h : Nat)
    (st : TransferStateInternal) (es : List Event)
    (hlive : s.get h = some st) (hprog : st.TransferIsInProgress = true)
    (hrun : run env s (Event.DestroyTransferState h :: es) = .ok s') :
    s'.transferCallsOf h = s.transferCallsOf h ∧
    (s'.heap[h]?).map (fun o => o.internal_.transfer_completion_) = some false ∧
    s'.bindRunsOf h = s.bindRunsOf h := by
  simp only [run, step] at hrun
  cases hd : DestroyTransferState s h with
  | error f => simp [hd] at hrun
  | ok s1 =>
    simp only [hd] at hrun
    obtain ⟨o, ho, ha, rfl⟩ := (DestroyTransferState_ok_iff s s1 h).1 hd
    obtain ⟨o', ho', -, hst⟩ := (get_eq_some_iff s h st).1 hlive
    rw [ho] at ho'
    cases ho'
    subst hst
    have hlt := getElem?_lt_length ho
    have hc : System.cancelledInFlight
        { s with heap := s.heap.set h ({ internal_ :=
          { o.internal_ with cancel_upload_flag_ := true }, alive := false }) } h := by
      refine ⟨{ internal_ := { o.internal_ with cancel_upload_flag_ := true }, alive := false },
        by simp [hlt], rfl, rfl, ?_⟩
      simpa [TransferStateInternal.TransferIsInProgress] using hprog
    obtain ⟨⟨o2, ho2, -, -, hcomp⟩, h2, h3⟩ := run_keeps_cancelled env h es _ s' hc hrun
    refine ⟨h2, ?_, h3⟩
    simp [ho2, hcomp]

/-- The witness of C3: the busy state of `sysBusy` is destroyed, then the
transfer thread runs its task and reconciliation runs. -/
theorem C3_destroyed_in_flight_never_uploads_nor_binds_witness :
    sysBusy.get 0 = some (stateWith 5 70 false true).internal_ ∧
    (stateWith 5 70 false true).internal_.TransferIsInProgress = true ∧
    ∃ s', run env32 sysBusy (Event.DestroyTransferState 0 :: traceAfterCancel) = .ok s' ∧
      s'.transferCallsOf 0 = sysBusy.transferCallsOf 0 ∧
      (s'.heap[0]?).map (fun o => o.internal_.transfer_completion_) = some false ∧
      s'.bindRunsOf 0 = sysBusy.bindRunsOf 0 :=
  ⟨by decide, by decide, _, rfl,
   C3_destroyed_in_flight_never_uploads_nor_binds env32 sysBusy _ 0
    (stateWith 5 70 false true).internal_ traceAfterCancel (by decide) (by decide) rfl⟩

/-! ## Order of the bind callbacks -/

theorem defines_append (es1 es2 : List Event) :
    defines (es1 ++ es2) = defines es1 ++ defines es2 := by
  induction es1 with
  | nil => rfl
  | cons e es ih => cases e <;> simp [defines, ih]

theorem bound_congr {s s' : System} {h : Nat}
    (hh : ∀ o, s.heap[h]? = some o → ∃ o', s'.heap[h]? = some o' ∧ o'.alive = o.alive ∧
      o'.internal_.bind_callback_ = o.internal_.bind_callback_)
    (hlt : h < s.heap.length) : s'.bound h = s.bound h := by
  obtain ⟨o, ho⟩ : ∃ o, s.heap[h]? = some o := ⟨s.heap[h], by simp [hlt]⟩
  obtain ⟨o', ho', ha, hc⟩ := hh o ho
  simp only [System.bound, System.get, ho, ho', ha, hc]
  cases o.alive <;> simp [hc]

/-- The effect of one turn of the transfer thread, field by field: it is
idle, or it drops a task that changes no state (a notification, or the task
of a cancelled state), or it runs an upload task, which signals completion of
its state and logs GL calls of that state only. -/
theorem RunTransferTask_effect (env : Env) (s s' : System)
    (hr : RunTransferTask env s = .ok s') :
    s'.pending_allocations_ = s.pending_allocations_ ∧ s'.bind_runs = s.bind_runs ∧
    ((s.transfer_tasks = [] ∧ s' = s) ∨
     (∃ t, s.transfer_tasks = t :: s'.transfer_tasks ∧ s'.heap = s.heap ∧
        s'.transfer_gl = s.transfer_gl ∧
        (t.handle = none ∨ ∃ k o, t.handle = some k ∧ s.heap[k]? = some o ∧
          o.internal_.cancel_upload_flag_ = true)) ∨
     (∃ t k o gl, s.transfer_tasks = t :: s'.transfer_tasks ∧ t.handle = some k ∧
        s.heap[k]? = some o ∧ o.internal_.cancel_upload_flag_ = false ∧
        s'.heap = s.heap.set k o.completed ∧ s'.transfer_gl = s.transfer_gl ++ gl ∧
        ∀ c ∈ gl, c.1 = k)) := by
  rcases RunTransferTask_cases env s s' hr with ⟨hnil, rfl⟩ | ⟨t, rest, hts, ht⟩
  · exact ⟨rfl, rfl, Or.inl ⟨hnil, rfl⟩⟩
  · rcases runTask_cases env _ s' t ht with
      ⟨k, o, hth, hk, ⟨hc, rfl⟩ | ⟨hc, gl, stats, hgl, -, rfl⟩⟩ | ⟨hth, runs, rfl⟩
    · exact ⟨rfl, rfl, Or.inr (Or.inl ⟨t, hts, rfl, rfl, Or.inr ⟨k, o, hth, hk, hc⟩⟩)⟩
    · exact ⟨rfl, rfl, Or.inr (Or.inr ⟨t, k, o, gl, hts, hth, hk, hc, rfl, rfl, hgl⟩)⟩
    · exact ⟨rfl, rfl, Or.inr (Or.inl ⟨t, hts, rfl, rfl, Or.inl hth⟩)⟩

/-- Running a task changes no weak pointer and no stored callback. -/
theorem RunTransferTask_bound (env : Env) (s s' : System)
    (hr : RunTransferTask env s = .ok s') :
    s'.pending_allocations_ = s.pending_allocations_ ∧ s'.bind_runs = s.bind_runs ∧
    s'.heap.length = s.heap.length ∧ ∀ h, h < s.heap.length → s'.bound h = s.bound h := by
  obtain ⟨hp, hb, hcase⟩ := RunTransferTask_effect env s s' hr
  refine ⟨hp, hb, ?_⟩
  rcases hcase with ⟨-, rfl⟩ | ⟨t, -, hheap, -, -⟩ | ⟨t, k, ok, gl, -, -, hk, -, hheap, -, -⟩
  · exact ⟨rfl, fun _ _ => rfl⟩
  · refine ⟨by rw [hheap], fun h _ => ?_⟩
    simp [System.bound, System.get, hheap]
  · refine ⟨by rw [hheap]; simp, ?_⟩
    intro h hlt
    apply bound_congr _ hlt
    intro o ho
    rw [hheap]
    by_cases hkh : k = h
    · subst hkh
      rw [ho] at hk
      cases hk
      exact ⟨ok.completed, by simp [hlt], rfl, rfl⟩
    · exact ⟨o, by simp [List.getElem?_set_ne hkh, ho], rfl, rfl⟩

theorem OrderInv_of_frame {s s' : System} {subs : List (Nat × Nat)} (hinv : OrderInv s subs)
    (hp : s'.pending_allocations_ = s.pending_allocations_) (hb : s'.bind_runs = s.bind_runs)
    (hl : s.heap.length ≤ s'.heap.length)
    (hbound : ∀ h, h < s.heap.length → s'.bound h = s.bound h) : OrderInv s' subs := by
  obtain ⟨h1, h2, h3⟩ := hinv
  refine ⟨?_, ?_, ?_⟩
  · rw [hp, hb, ← h1]
    congr 1
    exact List.filterMap_congr (fun h hh => hbound h (h2 h hh))
  · intro h hh
    rw [hp] at hh
    exact lt_of_lt_of_le (h2 h hh) hl
  · intro h hh
    rw [hp] at hh
    exact h3 h hh

/-- Every step other than a destruction keeps the order invariant, a
define-mode submission to a state not submitted before extending the
submissions by its own. -/
theorem step_keeps_order (env : Env) (s s' : System) (e : Event) (subs : List (Nat × Nat))
    (hinv : OrderInv s subs) (hnd : e.isDestroy = false)
    (hdist : ((subs ++ defines [e]).map Prod.fst).Nodup)
    (hstep : step env s e = .ok s') : OrderInv s' (subs ++ defines [e]) := by
  have hrunTask : ∀ x x' : System, OrderInv x subs → RunTransferTask env x = .ok x' →
      OrderInv x' subs := by
    intro x x' hx hr
    obtain ⟨hp, hb, hl, hbd⟩ := RunTransferTask_bound env x x' hr
    exact OrderInv_of_frame hx hp hb (le_of_eq hl.symm) hbd
  cases e with
  | CreatePixelTransferState texture_id define_params =>
    simp only [step, Except.ok.injEq] at hstep
    subst hstep
    simp only [defines, List.append_nil]
    refine OrderInv_of_frame hinv rfl rfl (by simp [CreatePixelTransferState]) ?_
    intro h hlt
    simp [System.bound, System.get, CreatePixelTransferState, List.getElem?_append_left hlt]
  | DestroyTransferState k => simp [Event.isDestroy] at hnd
  | AsyncTexImage2D k tex_params mem_params bind_callback =>
    obtain ⟨o, ho, ha, -, -, -, -, -, -, rfl⟩ := (AsyncTexImage2D_ok_iff ..).1 hstep
    obtain ⟨h1, h2, h3⟩ := hinv
    have hlt := getElem?_lt_length ho
    simp only [defines, List.map_append, List.map_cons, List.map_nil] at hdist ⊢
    have hk : k ∉ subs.map Prod.fst := by
      intro hmem
      have := List.nodup_append.1 hdist
      exact this.2.2 hmem (List.mem_singleton_self k)
    have hkp : k ∉ s.pending_allocations_ := fun hmem => hk (h3 k hmem)
    refine ⟨?_, ?_, ?_⟩
    · simp only [List.filterMap_append, ← List.append_assoc]
      rw [← h1]
      congr 1
      · congr 1
        apply List.filterMap_congr
        intro h hh
        have hne : k ≠ h := fun e => hkp (e ▸ hh)
        simp [System.bound, System.get, List.getElem?_set_ne hne]
      · simp [System.bound, System.get, hlt, ha]
    · intro h hh
      simp only [List.mem_append, List.mem_singleton, List.length_set] at hh ⊢
      rcases hh with hh | rfl
      · exact h2 h hh
      · exact hlt
    · intro h hh
      simp only [List.mem_append, List.mem_singleton, List.map_append, List.map_cons,
        List.map_nil] at hh ⊢
      rcases hh with hh | rfl
      · exact Or.inl (by simpa using h3 h hh)
      · exact Or.inr rfl
  | AsyncTexSubImage2D k tex_params mem_params =>
    obtain ⟨o, ho, ha, -, -, -, -, -, -, rfl⟩ := (AsyncTexSubImage2D_ok_iff ..).1 hstep
    simp only [defines, List.append_nil]
    refine OrderInv_of_frame hinv rfl rfl (by simp) ?_
    intro h hlt
    apply bound_congr _ hlt
    intro o' ho'
    by_cases hkh : k = h
    · subst hkh
      rw [ho] at ho'
      cases ho'
      exact ⟨{ o with internal_ := { o.internal_ with transfer_completion_ := false } },
        by simp [hlt], rfl, rfl⟩
    · exact ⟨o', by simp [List.getElem?_set_ne hkh, ho'], rfl, rfl⟩
  | AsyncNotifyCompletion mem_params callback =>
    obtain ⟨-, -, rfl⟩ := (AsyncNotifyCompletion_ok_iff ..).1 hstep
    simp only [defines, List.append_nil]
    exact OrderInv_of_frame hinv rfl rfl (le_refl _) (fun _ _ => rfl)
  | WaitForTransferCompletion k =>
    simp only [defines, List.append_nil]
    exact Wait_preserves env (fun x => OrderInv x subs)
      (fun x p hx => OrderInv_of_frame hx rfl rfl (le_refl _) (fun _ _ => rfl))
      hrunTask s s' k hinv hstep
  | BindCompletedAsyncTransfers =>
    simp only [defines, List.append_nil]
    obtain ⟨taken, hq, -, -, hruns, hheap, -⟩ := bindLoop_spec _ _ _ _ hstep
    obtain ⟨h1, h2, h3⟩ := hinv
    have hbound : s'.bound = s.bound := by
      funext x; simp [System.bound, get_of_heap_eq hheap]
    refine ⟨?_, ?_, ?_⟩
    · rw [hruns, hbound, List.append_assoc, ← List.filterMap_append, ← hq]
      exact h1
    · intro h hh
      rw [hheap]
      exact h2 h (by rw [hq]; exact List.mem_append_right _ hh)
    · intro h hh
      exact h3 h (by rw [hq]; exact List.mem_append_right _ hh)
  | RunTransferTask =>
    simp only [defines, List.append_nil]
    exact hrunTask s s' hinv hstep

theorem run_keeps_order (env : Env) : ∀ (es : List Event) (s : System),
    (∀ e ∈ es, e.isDestroy = false) → ((defines es).map Prod.fst).Nodup →
    run env (System.init env) es = .ok s → OrderInv s (defines es) := by
  intro es
  induction es using List.reverseRecOn with
  | nil =>
    intro s _ _ hr
    simp only [run, Except.ok.injEq] at hr
    subst hr
    exact ⟨rfl, by simp [System.init], by simp [System.init]⟩
  | append_singleton es e ih =>
    intro s hnd hdist hr
    obtain ⟨s1, hr1, hstep⟩ := (run_snoc_ok env es e _ s).1 hr
    rw [defines_append] at hdist ⊢
    have hdist1 : ((defines es).map Prod.fst).Nodup := by
      rw [List.map_append] at hdist
      exact (List.nodup_append.1 hdist).1
    have hinv := ih s1 (fun x hx => hnd x (List.mem_append_left _ hx)) hdist1 hr1
    exact step_keeps_order env s1 s e (defines es) hinv
      (hnd e (List.mem_append_right _ (List.mem_singleton_self e))) hdist hstep

/-- C1: in every execution from the initial system made of state creations,
submissions, transfer thread task runs, waits and reconciliation calls, in
which the define-mode uploads go to pairwise distinct states and no state is
destroyed, the bind callbacks run over all reconciliation calls are, in
order, an initial segment of the submission sequence. -/
theorem C1_bind_callbacks_in_submission_order (env : Env) (es : List Event) (s : System)
    (hnd : ∀ e ∈ es, e.isDestroy = false)
    (hdist : ((defines es).map Prod.fst).Nodup)
    (hrun : run env (System.init env) es = .ok s) :
    s.bind_runs <+: defines es := by
  obtain ⟨h1, -, -⟩ := run_keeps_order env es s hnd hdist hrun
  exact ⟨_, h1⟩

/-- The witness of C1: textures A then B with A delayed; nothing is bound
before A completes, then A, then B. -/
theorem C1_bind_callbacks_in_submission_order_witness :
    (∀ e ∈ traceAB, e.isDestroy = false) ∧ ((defines traceAB).map Prod.fst).Nodup ∧
    ∃ s, run env32 (System.init env32) traceAB = .ok s ∧ s.bind_runs <+: defines traceAB ∧
      s.bind_runs = [(0, 70), (1, 71)] :=
  ⟨by decide, by decide, _, rfl,
   C1_bind_callbacks_in_submission_order env32 traceAB _ (by decide) (by decide) rfl,
   by decide⟩

/-! ## The transfer thread and the pending queue -/

theorem consumedFirst_snoc (env : Env) : ∀ (es : List Event) (e : Event) (s s1 : System),
    consumedFirst env s (es ++ [e]) = true → run env s es = .ok s1 →
    consumedFirst env s es = true ∧ e.resubmitsQueued s1 = false := by
  intro es
  induction es with
  | nil =>
    intro e s s1 hc hr
    simp only [run, Except.ok.injEq] at hr
    subst hr
    simp only [List.nil_append, consumedFirst, Bool.and_eq_true, Bool.not_eq_true'] at hc
    exact ⟨rfl, hc.1⟩
  | cons x xs ih =>
    intro e s s1 hc hr
    simp only [List.cons_append, consumedFirst, Bool.and_eq_true, Bool.not_eq_true'] at hc
    simp only [run] at hr
    cases hs : step env s x with
    | error f => simp [hs] at hr
    | ok s2 =>
      simp only [hs] at hr hc
      obtain ⟨h1, h2⟩ := ih e s2 s1 hc.2 hr
      refine ⟨?_, h2⟩
      simp only [consumedFirst, Bool.and_eq_true, Bool.not_eq_true', hs]
      exact ⟨hc.1, h1⟩

theorem ready_iff (s : System) (x : Nat) :
    s.ready x = true ↔ ∀ o, s.heap[x]? = some o → o.alive = true →
      o.internal_.transfer_completion_ = true := by
  unfold System.ready System.get
  cases ho : s.heap[x]? with
  | none => simp
  | some o =>
    by_cases ha : o.alive = true <;>
      simp [ha, TransferStateInternal.TransferIsInProgress]

theorem ready_of_set {s s' : System} {k x : Nat} {o' : AsyncTransferStateImpl}
    (hheap : s'.heap = s.heap.set k o')
    (hk : x = k → o'.alive = false ∨ o'.internal_.transfer_completion_ = true)
    (hr : x ≠ k → s.ready x = true) : s'.ready x = true := by
  rw [ready_iff]
  intro o ho ha
  rw [hheap] at ho
  by_cases hxk : k = x
  · subst hxk
    have hlt : k < s.heap.length := by simpa using getElem?_lt_length ho
    rw [List.getElem?_set_self hlt] at ho
    cases ho
    rcases hk rfl with h | h
    · rw [h] at ha; cases ha
    · exact h
  · rw [List.getElem?_set_ne hxk] at ho
    exact (ready_iff s x).1 (hr (fun e => hxk e.symm)) o ho ha

theorem ready_of_heap_eq {s s' : System} (hheap : s'.heap = s.heap) (x : Nat) :
    s'.ready x = s.ready x := by
  simp [System.ready, get_of_heap_eq hheap]

theorem fifo_create (s : System) (texture_id : Nat) (define_params : AsyncTexImage2DParams)
    (hinv : FifoInv s) : FifoInv (CreatePixelTransferState s texture_id define_params) := by
  obtain ⟨⟨done, todo, hq, hsuf, hdone⟩, h2, h3, h4⟩ := hinv
  refine ⟨⟨done, todo, hq, hsuf, ?_⟩, ?_, h3, ?_⟩
  · intro x hx
    rw [ready_iff]
    intro o ho ha
    simp only [CreatePixelTransferState] at ho
    by_cases hlt : x < s.heap.length
    · rw [List.getElem?_append_left hlt] at ho
      exact (ready_iff s x).1 (hdone x hx) o ho ha
    · rw [List.getElem?_append_right (by omega)] at ho
      cases hsub : x - s.heap.length with
      | zero => rw [hsub] at ho; simp at ho; rw [← ho]
      | succ n => rw [hsub] at ho; simp at ho
  · intro x hx
    obtain ⟨o, ho, hc⟩ := h2 x hx
    refine ⟨o, ?_, hc⟩
    simp only [CreatePixelTransferState]
    rw [List.getElem?_append_left (getElem?_lt_length ho)]
    exact ho
  · intro x o ho ha
    simp only [CreatePixelTransferState] at ho
    by_cases hlt : x < s.heap.length
    · rw [List.getElem?_append_left hlt] at ho
      exact h4 x o ho ha
    · rw [List.getElem?_append_right (by omega)] at ho
      cases hsub : x - s.heap.length with
      | zero => rw [hsub] at ho; simp at ho; rw [← ho]
      | succ n => rw [hsub] at ho; simp at ho

theorem fifo_destroy (s s' : System) (k : Nat) (hinv : FifoInv s)
    (hstep : DestroyTransferState s k = .ok s') : FifoInv s' := by
  obtain ⟨o, ho, ha, rfl⟩ := (DestroyTransferState_ok_iff s s' k).1 hstep
  obtain ⟨⟨done, todo, hq, hsuf, hdone⟩, h2, h3, h4⟩ := hinv
  have hlt := getElem?_lt_length ho
  refine ⟨⟨done, todo, hq, hsuf, ?_⟩, ?_, h3, ?_⟩
  · intro x hx
    exact ready_of_set (s := s) rfl (fun _ => Or.inl rfl) (fun _ => hdone x hx)
  · intro x hx
    obtain ⟨o2, ho2, hc⟩ := h2 x hx
    by_cases hkx : k = x
    · subst hkx
      rw [ho] at ho2
      cases ho2
      exact ⟨_, List.getElem?_set_self hlt, hc⟩
    · exact ⟨o2, by simp only [List.getElem?_set_ne hkx]; exact ho2, hc⟩
  · intro x o2 ho2 ha2
    by_cases hkx : k = x
    · subst hkx
      simp only [List.getElem?_set_self hlt, Option.some.injEq] at ho2
      rw [← ho2] at ha2
      cases ha2
    · simp only [List.getElem?_set_ne hkx] at ho2
      exact h4 x o2 ho2 ha2

theorem fifo_submit_heap {s : System} {k : Nat} {o : AsyncTransferStateImpl}
    (o' : AsyncTransferStateImpl) (hinv : FifoInv s) (ho : s.heap[k]? = some o) (hdone : o.internal_.transfer_completion_ = true)
    (ha' : o'.alive = o.alive)
    (hc' : o'.internal_.cancel_upload_flag_ = o.internal_.cancel_upload_flag_)
    (hcomp' : o'.internal_.transfer_completion_ = false) :
    k ∉ uploadHandles s.transfer_tasks ∧
    (∀ h ∈ uploadHandles s.transfer_tasks ++ [k],
      ∃ o2, (s.heap.set k o')[h]? = some o2 ∧ o2.internal_.transfer_completion_ = false) ∧
    (∀ (h : Nat) (o2 : AsyncTransferStateImpl), (s.heap.set k o')[h]? = some o2 →
      o2.alive = true → o2.internal_.cancel_upload_flag_ = false) := by
  obtain ⟨-, h2, -, h4⟩ := hinv
  have hlt := getElem?_lt_length ho
  have hk : k ∉ uploadHandles s.transfer_tasks := by
    intro hmem
    obtain ⟨o2, ho2, hc⟩ := h2 k hmem
    rw [ho] at ho2
    cases ho2
    rw [hdone] at hc
    cases hc
  refine ⟨hk, ?_, ?_⟩
  · intro h hh
    rcases List.mem_append.1 hh with hh | hh
    · obtain ⟨o2, ho2, hc⟩ := h2 h hh
      have hne : k ≠ h := fun e => hk (e ▸ hh)
      exact ⟨o2, by rw [List.getElem?_set_ne hne]; exact ho2, hc⟩
    · rw [List.mem_singleton] at hh
      subst hh
      exact ⟨o', List.getElem?_set_self hlt, hcomp'⟩
  · intro h o2 ho2 ha2
    by_cases hkh : k = h
    · subst hkh
      rw [List.getElem?_set_self hlt] at ho2
      cases ho2
      rw [hc']
      exact h4 k o ho (by rw [← ha']; exact ha2)
    · rw [List.getElem?_set_ne hkh] at ho2
      exact h4 h o2 ho2 ha2

theorem fifo_define (env : Env) (s s' : System) (k : Nat) (tex_params : AsyncTexImage2DParams)
    (mem_params : AsyncMemoryParams) (bind_callback : Nat) (hinv : FifoInv s)
    (hguard : k ∉ s.pending_allocations_)
    (hstep : AsyncTexImage2D env s k tex_params mem_params bind_callback = .ok s') :
    FifoInv s' := by
  obtain ⟨o, ho, ha, -, -, -, hdn, -, -, rfl⟩ := (AsyncTexImage2D_ok_iff ..).1 hstep
  obtain ⟨hk, g2, g4⟩ := fifo_submit_heap
    { o with internal_ :=
      { o.internal_ with bind_callback_ := bind_callback, transfer_completion_ := false } }
    hinv ho hdn rfl rfl rfl
  obtain ⟨⟨done, todo, hq, hsuf, hdone⟩, h2, h3, h4⟩ := hinv
  refine ⟨⟨done, todo ++ [k], ?_, ?_, ?_⟩, ?_, ?_, g4⟩
  · simp only [hq, List.append_assoc]
  · obtain ⟨pre, hpre⟩ := hsuf
    refine ⟨pre, ?_⟩
    simp only [defineHandles, List.filterMap_append, List.filterMap_cons, Task.defineHandle,
      List.filterMap_nil] at hpre ⊢
    rw [← List.append_assoc, hpre]
  · intro x hx
    have hne : x ≠ k := fun e => hguard (by rw [hq]; exact List.mem_append_left _ (e ▸ hx))
    exact ready_of_set (s := s) rfl (fun e => absurd e hne) (fun _ => hdone x hx)
  · simpa [uploadHandles, Task.handle] using g2
  · simp only [uploadHandles, List.filterMap_append, List.filterMap_cons, Task.handle,
      List.filterMap_nil]
    rw [List.nodup_append]
    refine ⟨h3, List.nodup_singleton k, ?_⟩
    intro a ha1 ha2
    rw [List.mem_singleton] at ha2
    subst ha2
    exact hk ha1

theorem fifo_sub (env : Env) (s s' : System) (k : Nat) (tex_params : AsyncTexSubImage2DParams)
    (mem_params : AsyncMemoryParams) (hinv : FifoInv s)
    (hguard : k ∉ s.pending_allocations_)
    (hstep : AsyncTexSubImage2D env s k tex_params mem_params = .ok s') :
    FifoInv s' := by
  obtain ⟨o, ho, ha, -, -, -, hdn, -, -, rfl⟩ := (AsyncTexSubImage2D_ok_iff ..).1 hstep
  obtain ⟨hk, g2, g4⟩ := fifo_submit_heap
    { o with internal_ := { o.internal_ with transfer_completion_ := false } }
    hinv ho hdn rfl rfl rfl
  obtain ⟨⟨done, todo, hq, hsuf, hdone⟩, h2, h3, h4⟩ := hinv
  refine ⟨⟨done, todo, hq, ?_, ?_⟩, ?_, ?_, g4⟩
  · simpa [defineHandles, Task.defineHandle] using hsuf
  · intro x hx
    have hne : x ≠ k := fun e => hguard (by rw [hq]; exact List.mem_append_left _ (e ▸ hx))
    exact ready_of_set (s := s) rfl (fun e => absurd e hne) (fun _ => hdone x hx)
  · simpa [uploadHandles, Task.handle] using g2
  · simp only [uploadHandles, List.filterMap_append, List.filterMap_cons, Task.handle,
      List.filterMap_nil]
    rw [List.nodup_append]
    refine ⟨h3, List.nodup_singleton k, ?_⟩
    intro a ha1 ha2
    rw [List.mem_singleton] at ha2
    subst ha2
    exact hk ha1

theorem fifo_notify (env : Env) (s s' : System) (mem_params : AsyncMemoryParams)
    (callback : Nat) (hinv : FifoInv s)
    (hstep : AsyncNotifyCompletion env s mem_params callback = .ok s') : FifoInv s' := by
  obtain ⟨-, -, rfl⟩ := (AsyncNotifyCompletion_ok_iff ..).1 hstep
  obtain ⟨⟨done, todo, hq, hsuf, hdone⟩, h2, h3, h4⟩ := hinv
  refine ⟨⟨done, todo, hq, ?_, hdone⟩, ?_, ?_, h4⟩
  · simpa [defineHandles, Task.defineHandle] using hsuf
  · simpa [uploadHandles, Task.handle] using h2
  · simpa [uploadHandles, Task.handle] using h3

theorem handle_of_defineHandle {t : Task} {k : Nat} (h : t.defineHandle = some k) :
    t.handle = some k := by
  cases t <;> simp_all [Task.defineHandle, Task.handle]

/-- The queue part of the invariant after the task `t` of state `k` left the
message loop, when reconciliation passes over `k` from then on. -/
theorem fifo_queue_pop {s s' : System} {t : Task} {k : Nat}
    (hq' : s'.pending_allocations_ = s.pending_allocations_)
    (hts : s.transfer_tasks = t :: s'.transfer_tasks)
    (hth : t.handle = some k)
    (hready : ∀ x, (x ≠ k → s.ready x = true) → s'.ready x = true)
    (hg1 : ∃ done todo, s.pending_allocations_ = done ++ todo ∧
      todo <:+ defineHandles s.transfer_tasks ∧ ∀ h ∈ done, s.ready h = true) :
    ∃ done todo, s'.pending_allocations_ = done ++ todo ∧
      todo <:+ defineHandles s'.transfer_tasks ∧ ∀ h ∈ done, s'.ready h = true := by
  obtain ⟨done, todo, hq, hsuf, hdone⟩ := hg1
  rw [hts] at hsuf
  cases hd : t.defineHandle with
  | none =>
    refine ⟨done, todo, by rw [hq', hq], ?_, fun x hx => hready x (fun _ => hdone x hx)⟩
    simpa [defineHandles, List.filterMap_cons, hd] using hsuf
  | some k' =>
    have hk' : k' = k := by
      have := handle_of_defineHandle hd
      rw [hth] at this
      exact (Option.some.inj this).symm
    subst hk'
    simp only [defineHandles, List.filterMap_cons, hd] at hsuf
    rcases List.suffix_cons_iff.1 hsuf with heq | hsuf'
    · refine ⟨done ++ [k'], List.filterMap Task.defineHandle s'.transfer_tasks, ?_,
        List.suffix_refl _, ?_⟩
      · rw [hq', hq, heq, List.append_assoc]
        rfl
      · intro x hx
        rcases List.mem_append.1 hx with hx | hx
        · exact hready x (fun _ => hdone x hx)
        · rw [List.mem_singleton] at hx
          subst hx
          exact hready x (fun hne => absurd rfl hne)
    · exact ⟨done, todo, by rw [hq', hq], hsuf', fun x hx => hready x (fun _ => hdone x hx)⟩

theorem fifo_runTask (env : Env) (s s' : System) (hinv : FifoInv s)
    (hr : RunTransferTask env s = .ok s') : FifoInv s' := by
  obtain ⟨hp, -, hcase⟩ := RunTransferTask_effect env s s' hr
  rcases hcase with ⟨-, rfl⟩ | ⟨t, hts, hheap, -, hskip⟩ |
    ⟨t, k, o, gl, hts, hth, hk, hc, hheap, -, -⟩
  · exact hinv
  · obtain ⟨g1, h2, h3, h4⟩ := hinv
    rcases hskip with hnone | ⟨k, o, hth, hk, hc⟩
    · have hdn : t.defineHandle = none := by
        cases t <;> simp_all [Task.defineHandle, Task.handle]
      obtain ⟨done, todo, hq, hsuf, hdone⟩ := g1
      rw [hts] at hsuf h2 h3
      simp only [uploadHandles, defineHandles, List.filterMap_cons, hnone, hdn] at hsuf h2 h3
      refine ⟨⟨done, todo, by rw [hp, hq], hsuf, ?_⟩, ?_, h3, ?_⟩
      · intro x hx; rw [ready_of_heap_eq hheap]; exact hdone x hx
      · intro x hx; rw [hheap]; exact h2 x hx
      · intro x o2 ho2; rw [hheap] at ho2; exact h4 x o2 ho2
    · have hrk : s.ready k = true := by
        rw [ready_iff]
        intro o2 ho2 ha2
        rw [hk] at ho2
        cases ho2
        have := h4 k o hk ha2
        rw [hc] at this
        cases this
      refine ⟨fifo_queue_pop hp hts hth ?_ g1, ?_, ?_, ?_⟩
      · intro x hx
        rw [ready_of_heap_eq hheap]
        by_cases hxk : x = k
        · rw [hxk]; exact hrk
        · exact hx hxk
      · intro x hx
        rw [hheap]
        apply h2 x
        rw [hts]
        simp only [uploadHandles, List.filterMap_cons, hth]
        exact List.mem_cons_of_mem _ hx
      · rw [hts] at h3
        simp only [uploadHandles, List.filterMap_cons, hth] at h3
        exact (List.nodup_cons.1 h3).2
      · intro x o2 ho2; rw [hheap] at ho2; exact h4 x o2 ho2
  · obtain ⟨g1, h2, h3, h4⟩ := hinv
    have hlt := getElem?_lt_length hk
    rw [hts] at h2 h3
    simp only [uploadHandles, List.filterMap_cons, hth] at h2 h3
    obtain ⟨hknot, hnd⟩ := List.nodup_cons.1 h3
    refine ⟨fifo_queue_pop hp hts hth ?_ g1, ?_, hnd, ?_⟩
    · intro x hx
      exact ready_of_set hheap (fun _ => Or.inr rfl) hx
    · intro x hx
      obtain ⟨o2, ho2, hc2⟩ := h2 x (List.mem_cons_of_mem _ hx)
      have hne : k ≠ x := fun e => hknot (e ▸ hx)
      exact ⟨o2, by rw [hheap, List.getElem?_set_ne hne]; exact ho2, hc2⟩
    · intro x o2 ho2 ha2
      rw [hheap] at ho2
      by_cases hkx : k = x
      · subst hkx
        rw [List.getElem?_set_self hlt] at ho2
        cases ho2
        exact hc
      · rw [List.getElem?_set_ne hkx] at ho2
        exact h4 x o2 ho2 ha2

theorem fifo_bind (s s' : System) (hinv : FifoInv s)
    (hstep : BindCompletedAsyncTransfers s = .ok s') : FifoInv s' := by
  obtain ⟨taken, hq, -, -, -, hheap, htasks, -⟩ := bindLoop_spec _ _ _ _ hstep
  obtain ⟨⟨done, todo, hq0, hsuf, hdone⟩, h2, h3, h4⟩ := hinv
  refine ⟨?_, ?_, ?_, ?_⟩
  · rw [hq] at hq0
    rw [htasks]
    rcases List.append_eq_append_iff.1 hq0 with ⟨a', h1, h2'⟩ | ⟨c', h1, h2'⟩
    · refine ⟨a', todo, h2', hsuf, ?_⟩
      intro x hx
      rw [ready_of_heap_eq hheap]
      exact hdone x (by rw [h1]; exact List.mem_append_right _ hx)
    · refine ⟨[], s'.pending_allocations_, rfl, ?_, by simp⟩
      exact List.IsSuffix.trans ⟨c', h2'.symm⟩ hsuf
  · intro x hx
    rw [htasks] at hx
    rw [hheap]
    exact h2 x hx
  · rw [htasks]; exact h3
  · intro x o ho
    rw [hheap] at ho
    exact h4 x o ho

/-- Every step that submits no upload on a state still queued keeps the
invariant. -/
theorem step_keeps_fifo (env : Env) (s s' : System) (e : Event) (hinv : FifoInv s)
    (hguard : e.resubmitsQueued s = false) (hstep : step env s e = .ok s') : FifoInv s' := by
  cases e with
  | CreatePixelTransferState texture_id define_params =>
    simp only [step, Except.ok.injEq] at hstep
    subst hstep
    exact fifo_create s texture_id define_params hinv
  | DestroyTransferState k => exact fifo_destroy s s' k hinv hstep
  | AsyncTexImage2D k tex_params mem_params bind_callback =>
    exact fifo_define env s s' k tex_params mem_params bind_callback hinv
      (by simpa [Event.resubmitsQueued] using hguard) hstep
  | AsyncTexSubImage2D k tex_params mem_params =>
    exact fifo_sub env s s' k tex_params mem_params hinv
      (by simpa [Event.resubmitsQueued] using hguard) hstep
  | AsyncNotifyCompletion mem_params callback =>
    exact fifo_notify env s s' mem_params callback hinv hstep
  | WaitForTransferCompletion k =>
    exact Wait_preserves env FifoInv (fun x p hx => hx) (fifo_runTask env) s s' k hinv hstep
  | BindCompletedAsyncTransfers => exact fifo_bind s s' hinv hstep
  | RunTransferTask => exact fifo_runTask env s s' hinv hstep

theorem run_keeps_fifo (env : Env) : ∀ (es : List Event) (s : System),
    consumedFirst env (System.init env) es = true →
    run env (System.init env) es = .ok s → FifoInv s := by
  intro es
  induction es using List.reverseRecOn with
  | nil =>
    intro s _ hr
    simp only [run, Except.ok.injEq] at hr
    subst hr
    refine ⟨⟨[], [], rfl, ?_, by simp⟩, ?_, ?_, ?_⟩ <;>
      simp [System.init, defineHandles, uploadHandles]
  | append_singleton es e ih =>
    intro s hc hr
    obtain ⟨s1, hr1, hstep⟩ := (run_snoc_ok env es e _ s).1 hr
    obtain ⟨hc1, hg⟩ := consumedFirst_snoc env es e _ s1 hc hr1
    exact step_keeps_fifo env s1 s e (ih s1 hc1 hr1) hg hstep

theorem defineHandles_subset {tasks : List Task} {x : Nat} (hx : x ∈ defineHandles tasks) :
    x ∈ uploadHandles tasks := by
  simp only [defineHandles, uploadHandles, List.mem_filterMap] at hx ⊢
  obtain ⟨t, ht, hd⟩ := hx
  exact ⟨t, ht, handle_of_defineHandle hd⟩

theorem liveCompleted_false_of_posted {s : System} {b : Nat} (hinv : FifoInv s)
    (hb : b ∈ uploadHandles s.transfer_tasks) : s.liveCompleted b = false := by
  obtain ⟨o, ho, hc⟩ := hinv.2.1 b hb
  unfold System.liveCompleted System.get
  rw [ho]
  by_cases ha : o.alive = true <;> simp [ha, TransferStateInternal.TransferIsInProgress, hc]

theorem fifo_queueInOrder {s : System} (hinv : FifoInv s) : s.queueInOrder := by
  obtain ⟨done, todo, hq, hsuf, hdone⟩ := hinv.1
  intro i j a b hij hi hj hra
  rw [hq] at hi hj
  by_cases hlt : i < done.length
  · rw [List.getElem?_append_left hlt] at hi
    have hmem : a ∈ done := List.getElem?_mem hi
    rw [hdone a hmem] at hra
    cases hra
  · rw [List.getElem?_append_right (by omega)] at hj
    have hmem : b ∈ todo := List.getElem?_mem hj
    exact liveCompleted_false_of_posted hinv (defineHandles_subset (hsuf.mem hmem))

/-- After a reconciliation call in a state that satisfies the invariant, no
live completed entry is left in the pending queue. -/
theorem fifo_bind_leaves_none {s s' : System} (hinv : FifoInv s)
    (hstep : BindCompletedAsyncTransfers s = .ok s') :
    ∀ b ∈ s'.pending_allocations_, s'.liveCompleted b = false := by
  have hinv' := fifo_bind s s' hinv hstep
  obtain ⟨taken, -, -, hhead, -, hheap, -⟩ := bindLoop_spec _ _ _ _ hstep
  obtain ⟨done, todo, hq, hsuf, hdone⟩ := hinv'.1
  intro b hb
  cases done with
  | nil =>
    rw [hq, List.nil_append] at hb
    exact liveCompleted_false_of_posted hinv' (defineHandles_subset (hsuf.mem hb))
  | cons d ds =>
    have h1 : s.ready d = false := hhead d (by rw [hq]; rfl)
    have h2 : s'.ready d = true := hdone d (List.mem_cons_self _ _)
    rw [ready_of_heap_eq hheap, h1] at h2
    cases h2

/-- C6, as stated, fails: a state that completed and is submitted again
before reconciliation is a live in-progress entry at the head of the pending
queue; the completed transfer queued behind it is left unreconciled. -/
theorem C6_resubmitted_head_blocks_counterexample :
    ∃ s, run env32 (System.init env32) traceResubmit = .ok s ∧
      s.pending_allocations_ = [0, 1] ∧ s.ready 0 = false ∧ s.liveCompleted 1 = true ∧
      ¬ s.queueInOrder ∧
      ∃ s', BindCompletedAsyncTransfers s = .ok s' ∧ s'.bind_runs = [] ∧
        s'.pending_allocations_ = [0, 1] := by
  refine ⟨_, rfl, by decide, by decide, by decide, ?_, _, rfl, by decide, by decide⟩
  intro hord
  have := hord 0 1 0 1 (by decide) (by decide) (by decide) (by decide)
  revert this
  decide

/-- C6, amended: in every state reached from the initial system by
creations, destructions, task runs of the transfer thread, waits,
reconciliation calls and submissions that are each made on a state that is
not in progress and has no entry left in the pending queue, the pending queue
holds no live completed entry behind a live in-progress entry, and a
reconciliation call leaves no live completed entry in the queue. -/
theorem C6_queue_in_order_when_consumed_first (env : Env) (es : List Event) (s : System)
    (hcons : consumedFirst env (System.init env) es = true)
    (hrun : run env (System.init env) es = .ok s) :
    s.queueInOrder ∧
    ∀ s', BindCompletedAsyncTransfers s = .ok s' →
      ∀ b ∈ s'.pending_allocations_, s'.liveCompleted b = false := by
  have hinv := run_keeps_fifo env es s hcons hrun
  exact ⟨fifo_queueInOrder hinv, fun s' hstep => fifo_bind_leaves_none hinv hstep⟩

/-- The witness of C6: A is reconciled before it is submitted again, so B
completes behind an entry that was already removed. -/
theorem C6_queue_in_order_when_consumed_first_witness :
    consumedFirst env32 (System.init env32) traceConsumed = true ∧
    ∃ s, run env32 (System.init env32) traceConsumed = .ok s ∧
      s.pending_allocations_ = [1] ∧ s.queueInOrder ∧
      ∀ s', BindCompletedAsyncTransfers s = .ok s' →
        ∀ b ∈ s'.pending_allocations_, s'.liveCompleted b = false :=
  ⟨by decide, _, rfl, by decide,
   C6_queue_in_order_when_consumed_first env32 traceConsumed _ (by decide) rfl⟩

/-! ## One run per supplied callback -/

theorem filterMap_bound_of_live (s : System) (h : Nat) (st : TransferStateInternal)
    (hl : s.get h = some st) (l : List Nat) :
    (l.filterMap s.bound).filter (fun r => decide (r.1 = h)) =
      (l.filter fun x => decide (x = h)).map fun _ => (h, st.bind_callback_) := by
  induction l with
  | nil => rfl
  | cons x xs ih =>
    by_cases hx : x = h
    · subst hx
      simp only [List.filterMap_cons, System.bound, hl, Option.map_some', List.filter_cons,
        decide_True, if_true, List.map_cons]
      rw [← ih]
    · cases hg : s.get x with
      | none =>
        simp only [List.filterMap_cons, System.bound, hg, Option.map_none', List.filter_cons,
          hx, decide_False]
        exact ih
      | some st' =>
        simp only [List.filterMap_cons, System.bound, hg, Option.map_some', List.filter_cons,
          hx, decide_False]
        exact ih

theorem bound_eq_some {s : System} {h : Nat} {st : TransferStateInternal}
    (hg : s.get h = some st) : s.bound h = some (h, st.bind_callback_) := by
  simp [System.bound, hg]

theorem BindInv_of_frame {s s' : System} {subs : List (Nat × Nat)} (hinv : BindInv s subs)
    (hp : s'.pending_allocations_ = s.pending_allocations_) (hb : s'.bind_runs = s.bind_runs)
    (hl : s.heap.length ≤ s'.heap.length)
    (hbound : ∀ h, h < s.heap.length → s'.bound h = s.bound h ∨ s'.get h = none) :
    BindInv s' subs := by
  intro h
  obtain ⟨h1, rest, h2, h3⟩ := hinv h
  refine ⟨fun hge => ?_, rest, ?_, ?_⟩
  · rw [hp]; exact h1 (le_trans hl hge)
  · simp only [System.bindRunsOf, hb]; exact h2
  · intro st' hst'
    rw [hp]
    by_cases hlt : h < s.heap.length
    · rcases hbound h hlt with hbd | hnone
      · rw [bound_eq_some hst'] at hbd
        unfold System.bound at hbd
        cases hg : s.get h with
        | none => rw [hg] at hbd; cases hbd
        | some st =>
          rw [hg] at hbd
          simp only [Option.map_some', Option.some.injEq, Prod.mk.injEq, true_and] at hbd
          rw [hbd]
          exact h3 st hg
      · rw [hnone] at hst'; cases hst'
    · obtain ⟨hnp, hnil⟩ := h1 (by omega)
      rw [hnil] at h2
      have hrest : rest = [] := (List.append_eq_nil.1 h2.symm).2
      rw [hrest, List.filter_eq_nil_iff.2]
      · rfl
      · intro a ha hd
        have : a = h := by simpa using hd
        exact hnp (this ▸ ha)

theorem submissionsOf_append (a b : List (Nat × Nat)) (h : Nat) :
    submissionsOf (a ++ b) h = submissionsOf a h ++ submissionsOf b h := by
  simp [submissionsOf]

theorem bind_define (env : Env) (s s' : System) (k : Nat) (tex_params : AsyncTexImage2DParams)
    (mem_params : AsyncMemoryParams) (bind_callback : Nat) (subs : List (Nat × Nat))
    (hinv : BindInv s subs) (hguard : k ∉ s.pending_allocations_)
    (hstep : AsyncTexImage2D env s k tex_params mem_params bind_callback = .ok s') :
    BindInv s' (subs ++ [(k, bind_callback)]) := by
  obtain ⟨o, ho, ha, -, -, -, -, -, -, rfl⟩ := (AsyncTexImage2D_ok_iff ..).1 hstep
  have hlt := getElem?_lt_length ho
  intro h
  obtain ⟨h1, rest, h2, h3⟩ := hinv h
  by_cases hkh : k = h
  · subst hkh
    have hget : s.get k = some o.internal_ := by simp [System.get, ho, ha]
    have hrest : rest = [] := by
      rw [h3 _ hget, List.filter_eq_nil_iff.2]
      · rfl
      · intro a ha' hd
        have : a = k := by simpa using hd
        exact hguard (this ▸ ha')
    refine ⟨fun hge => ?_, [(k, bind_callback)], ?_, ?_⟩
    · simp only [List.length_set] at hge
      omega
    · rw [submissionsOf_append, h2, hrest, List.append_nil]
      simp [submissionsOf, System.bindRunsOf]
    · intro st' hst'
      have hst : st' = { o.internal_ with
          bind_callback_ := bind_callback, transfer_completion_ := false } := by
        simp only [System.get, List.getElem?_set_self hlt, ha, if_true, Option.some.injEq]
          at hst'
        exact hst'.symm
      subst hst
      rw [List.filter_append, List.filter_eq_nil_iff.2]
      · simp
      · intro a ha' hd
        have : a = k := by simpa using hd
        exact hguard (this ▸ ha')
  · have hsub : submissionsOf (subs ++ [(k, bind_callback)]) h = submissionsOf subs h := by
      rw [submissionsOf_append]
      simp [submissionsOf, hkh]
    refine ⟨fun hge => ?_, rest, ?_, ?_⟩
    · simp only [List.length_set] at hge
      obtain ⟨hnp, hnil⟩ := h1 hge
      refine ⟨?_, by rw [hsub]; exact hnil⟩
      intro hmem
      rcases List.mem_append.1 hmem with hm | hm
      · exact hnp hm
      · rw [List.mem_singleton] at hm
        exact hkh hm.symm
    · rw [hsub]
      exact h2
    · intro st' hst'
      have hst : s.get h = some st' := by
        simpa [System.get, List.getElem?_set_ne hkh] using hst'
      rw [h3 st' hst, List.filter_append]
      simp [hkh]

theorem bind_bind (s s' : System) (subs : List (Nat × Nat)) (hinv : BindInv s subs)
    (hstep : BindCompletedAsyncTransfers s = .ok s') : BindInv s' subs := by
  obtain ⟨taken, hq, -, -, hruns, hheap, -⟩ := bindLoop_spec _ _ _ _ hstep
  intro h
  obtain ⟨h1, rest, h2, h3⟩ := hinv h
  refine ⟨fun hge => ?_, ?_⟩
  · rw [hheap] at hge
    obtain ⟨hnp, hnil⟩ := h1 hge
    exact ⟨fun hm => hnp (by rw [hq]; exact List.mem_append_right _ hm), hnil⟩
  · cases hg : s.get h with
    | none =>
      refine ⟨rest, ?_, ?_⟩
      · simp only [System.bindRunsOf, hruns, List.filter_append,
          filterMap_bound_of_dead s h hg taken, List.append_nil]
        exact h2
      · intro st' hst'
        rw [get_of_heap_eq hheap, hg] at hst'
        cases hst'
    | some st =>
      refine ⟨(s'.pending_allocations_.filter fun x => decide (x = h)).map
        fun _ => (h, st.bind_callback_), ?_, ?_⟩
      · rw [h2, h3 st hg, hq]
        simp only [System.bindRunsOf, hruns, List.filter_append, List.map_append,
          filterMap_bound_of_live s h st hg taken, List.append_assoc]
      · intro st' hst'
        rw [get_of_heap_eq hheap, hg] at hst'
        cases hst'
        rfl

/-- Every step that submits no upload on a state still queued keeps the
invariant, a define-mode submission extending the submissions by its own. -/
theorem step_keeps_bind (env : Env) (s s' : System) (e : Event) (subs : List (Nat × Nat))
    (hinv : BindInv s subs) (hguard : e.resubmitsQueued s = false)
    (hstep : step env s e = .ok s') : BindInv s' (subs ++ defines [e]) := by
  have hrunTask : ∀ x x' : System, BindInv x subs → RunTransferTask env x = .ok x' →
      BindInv x' subs := by
    intro x x' hx hr
    obtain ⟨hp, hb, hl, hbd⟩ := RunTransferTask_bound env x x' hr
    exact BindInv_of_frame hx hp hb (le_of_eq hl.symm) (fun h hlt => Or.inl (hbd h hlt))
  cases e with
  | CreatePixelTransferState texture_id define_params =>
    simp only [step, Except.ok.injEq] at hstep
    subst hstep
    simp only [defines, List.append_nil]
    refine BindInv_of_frame hinv rfl rfl (by simp [CreatePixelTransferState]) ?_
    intro h hlt
    left
    simp [System.bound, System.get, CreatePixelTransferState, List.getElem?_append_left hlt]
  | DestroyTransferState k =>
    obtain ⟨o, ho, ha, rfl⟩ := (DestroyTransferState_ok_iff s s' k).1 hstep
    simp only [defines, List.append_nil]
    refine BindInv_of_frame hinv rfl rfl (by simp) ?_
    intro h hlt
    by_cases hkh : k = h
    · subst hkh
      right
      simp [System.get, hlt]
    · left
      simp [System.bound, System.get, List.getElem?_set_ne hkh]
  | AsyncTexImage2D k tex_params mem_params bind_callback =>
    exact bind_define env s s' k tex_params mem_params bind_callback subs hinv
      (by simpa [Event.resubmitsQueued] using hguard) hstep
  | AsyncTexSubImage2D k tex_params mem_params =>
    obtain ⟨o, ho, ha, -, -, -, -, -, -, rfl⟩ := (AsyncTexSubImage2D_ok_iff ..).1 hstep
    simp only [defines, List.append_nil]
    refine BindInv_of_frame hinv rfl rfl (by simp) ?_
    intro h hlt
    left
    apply bound_congr _ hlt
    intro o' ho'
    by_cases hkh : k = h
    · subst hkh
      rw [ho] at ho'
      cases ho'
      exact ⟨{ o with internal_ := { o.internal_ with transfer_completion_ := false } },
        by simp [hlt], rfl, rfl⟩
    · exact ⟨o', by simp [List.getElem?_set_ne hkh, ho'], rfl, rfl⟩
  | AsyncNotifyCompletion mem_params callback =>
    obtain ⟨-, -, rfl⟩ := (AsyncNotifyCompletion_ok_iff ..).1 hstep
    simp only [defines, List.append_nil]
    exact BindInv_of_frame hinv rfl rfl (le_refl _) (fun _ _ => Or.inl rfl)
  | WaitForTransferCompletion k =>
    simp only [defines, List.append_nil]
    exact Wait_preserves env (fun x => BindInv x subs)
      (fun x p hx => BindInv_of_frame hx rfl rfl (le_refl _) (fun _ _ => Or.inl rfl))
      hrunTask s s' k hinv hstep
  | BindCompletedAsyncTransfers =>
    simp only [defines, List.append_nil]
    exact bind_bind s s' subs hinv hstep
  | RunTransferTask =>
    simp only [defines, List.append_nil]
    exact hrunTask s s' hinv hstep

theorem run_keeps_bind (env : Env) : ∀ (es : List Event) (s : System),
    consumedFirst env (System.init env) es = true →
    run env (System.init env) es = .ok s → BindInv s (defines es) := by
  intro es
  induction es using List.reverseRecOn with
  | nil =>
    intro s _ hr
    simp only [run, Except.ok.injEq] at hr
    subst hr
    intro h
    refine ⟨fun _ => ⟨by simp [System.init], rfl⟩, [], rfl, ?_⟩
    intro st hst
    simp [System.init]
  | append_singleton es e ih =>
    intro s hc hr
    obtain ⟨s1, hr1, hstep⟩ := (run_snoc_ok env es e _ s).1 hr
    obtain ⟨hc1, hg⟩ := consumedFirst_snoc env es e _ s1 hc hr1
    rw [defines_append]
    exact step_keeps_bind env s1 s e (defines es) (ih s1 hc1 hr1) hg hstep

/-- C4, as stated, fails: a state that completed is submitted again, as the
assertions allow, before reconciliation; the second callback replaces the
first, and reconciliation runs the second callback twice and the first one
never. -/
theorem C4_resubmitted_callback_runs_twice_counterexample :
    ∃ s, run env32 (System.init env32) traceTwice = .ok s ∧
      defines traceTwice = [(0, 70), (0, 71)] ∧
      s.bind_runs = [(0, 71), (0, 71)] ∧
      s.bind_runs.count (0, 71) = 2 ∧ s.bind_runs.count (0, 70) = 0 := by
  refine ⟨_, rfl, by decide, by decide, by decide, by decide⟩

/-- C4, amended: in every execution from the initial system made of
creations, destructions, task runs of the transfer thread, waits,
reconciliation calls and submissions that are each made on a state that is
not in progress and has no entry left in the pending queue, the bind
callbacks run for a state are, in order, an initial segment of the callbacks
supplied for it to `AsyncTexImage2D`, so that no supplied callback runs a
second time and nothing else runs; and right after a reconciliation call
every callback supplied for a live state that is not in progress has run
exactly once. -/
theorem C4_each_supplied_callback_runs_once (env : Env) (es : List Event) (s : System)
    (hcons : consumedFirst env (System.init env) es = true)
    (hrun : run env (System.init env) es = .ok s) :
    (∀ h, s.bindRunsOf h <+: submissionsOf (defines es) h) ∧
    ∀ s', BindCompletedAsyncTransfers s = .ok s' →
      ∀ h st, s'.get h = some st → st.TransferIsInProgress = false →
        s'.bindRunsOf h = submissionsOf (defines es) h := by
  have hfifo := run_keeps_fifo env es s hcons hrun
  have hbind := run_keeps_bind env es s hcons hrun
  constructor
  · intro h
    obtain ⟨-, rest, h2, -⟩ := hbind h
    exact ⟨rest, h2.symm⟩
  · intro s' hstep h st hst hp
    obtain ⟨-, rest, h2, h3⟩ := bind_bind s s' (defines es) hbind hstep h
    have hnone := fifo_bind_leaves_none hfifo hstep
    have hnp : h ∉ s'.pending_allocations_ := by
      intro hm
      have := hnone h hm
      simp [System.liveCompleted, hst, hp] at this
    have hrest : rest = [] := by
      rw [h3 st hst, List.filter_eq_nil_iff.2]
      · rfl
      · intro a ha hd
        have : a = h := by simpa using hd
        exact hnp (this ▸ ha)
    rw [h2, hrest, List.append_nil]

/-- The witness of C4: the state is reconciled before it is submitted again;
each of the two callbacks runs once, in the order supplied. -/
theorem C4_each_supplied_callback_runs_once_witness :
    consumedFirst env32 (System.init env32) traceTwiceConsumed = true ∧
    ∃ s, run env32 (System.init env32) traceTwiceConsumed = .ok s ∧
      ((∀ h, s.bindRunsOf h <+: submissionsOf (defines traceTwiceConsumed) h) ∧
       ∀ s', BindCompletedAsyncTransfers s = .ok s' →
        ∀ h st, s'.get h = some st → st.TransferIsInProgress = false →
          s'.bindRunsOf h = submissionsOf (defines traceTwiceConsumed) h) ∧
      ∃ s', BindCompletedAsyncTransfers s = .ok s' ∧ s'.bind_runs = [(0, 70), (0, 71)] :=
  ⟨by decide, _, rfl,
   C4_each_supplied_callback_runs_once env32 traceTwiceConsumed _ (by decide) rfl,
   _, rfl, by decide⟩

/-! ## Waiting for a transfer -/

theorem runTask_returns (env : Env) (s : System) (t : Task) (hwf : t.wellFormed = true)
    (hex : ∀ h, t.handle = some h → h < s.heap.length) : ∃ s', runTask env s t = .ok s' := by
  cases t with
  | PerformAsyncTexImage2D h tex_params mem_params safe_shared_memory =>
    have hlt := hex h rfl
    have hl : tex_params.level = 0 := by simpa [Task.wellFormed] using hwf
    have ho : s.heap[h]? = some s.heap[h] := by simp [hlt]
    simp only [runTask, PerformAsyncTexImage2D, ho]
    split
    · exact ⟨_, rfl⟩
    · simp [hl]
  | PerformAsyncTexSubImage2D h tex_params mem_params safe_shared_memory stats =>
    have hlt := hex h rfl
    have hl : tex_params.level = 0 := by simpa [Task.wellFormed] using hwf
    have ho : s.heap[h]? = some s.heap[h] := by simp [hlt]
    simp only [runTask, PerformAsyncTexSubImage2D_whole, ho]
    split
    · exact ⟨_, rfl⟩
    · simp [hl]
  | PerformNotifyCompletion mem_params safe_shared_memory callback =>
    have hc : callback ≠ 0 := by simpa [Task.wellFormed] using hwf
    simp [runTask, PerformNotifyCompletion, hc]

theorem wait_create (s : System) (texture_id : Nat) (define_params : AsyncTexImage2DParams)
    (hinv : WaitInv s) : WaitInv (CreatePixelTransferState s texture_id define_params) := by
  obtain ⟨w1, w2, w3, w4⟩ := hinv
  refine ⟨w1, ?_, ?_, ?_⟩
  · intro h hh
    have := w2 h hh
    simp only [CreatePixelTransferState, List.length_append, List.length_singleton]
    omega
  · intro h o ho ha hc
    simp only [CreatePixelTransferState] at ho
    by_cases hlt : h < s.heap.length
    · rw [List.getElem?_append_left hlt] at ho
      exact w3 h o ho ha hc
    · rw [List.getElem?_append_right (by omega)] at ho
      cases hsub : h - s.heap.length with
      | zero => rw [hsub] at ho; simp at ho; rw [← ho] at hc; cases hc
      | succ n => rw [hsub] at ho; simp at ho
  · intro h o ho ha
    simp only [CreatePixelTransferState] at ho
    by_cases hlt : h < s.heap.length
    · rw [List.getElem?_append_left hlt] at ho
      exact w4 h o ho ha
    · rw [List.getElem?_append_right (by omega)] at ho
      cases hsub : h - s.heap.length with
      | zero => rw [hsub] at ho; simp at ho; rw [← ho]
      | succ n => rw [hsub] at ho; simp at ho

theorem wait_destroy (s s' : System) (k : Nat) (hinv : WaitInv s)
    (hstep : DestroyTransferState s k = .ok s') : WaitInv s' := by
  obtain ⟨o, ho, ha, rfl⟩ := (DestroyTransferState_ok_iff s s' k).1 hstep
  obtain ⟨w1, w2, w3, w4⟩ := hinv
  have hlt := getElem?_lt_length ho
  refine ⟨w1, ?_, ?_, ?_⟩
  · intro h hh
    simpa using w2 h hh
  · intro h o2 ho2 ha2 hc2
    by_cases hkh : k = h
    · subst hkh
      simp only [List.getElem?_set_self hlt, Option.some.injEq] at ho2
      rw [← ho2] at ha2
      cases ha2
    · simp only [List.getElem?_set_ne hkh] at ho2
      exact w3 h o2 ho2 ha2 hc2
  · intro h o2 ho2 ha2
    by_cases hkh : k = h
    · subst hkh
      simp only [List.getElem?_set_self hlt, Option.some.injEq] at ho2
      rw [← ho2] at ha2
      cases ha2
    · simp only [List.getElem?_set_ne hkh] at ho2
      exact w4 h o2 ho2 ha2

/-- The invariant after a submission: the state `k` gets the entry `o'`,
which is as alive and as cancelled as before, and the task `t` of `k` is
posted. -/
theorem wait_submit {s s' : System} {k : Nat} {o : AsyncTransferStateImpl}
    (o' : AsyncTransferStateImpl) (t : Task) (hinv : WaitInv s) (ho : s.heap[k]? = some o)
    (ha' : o'.alive = o.alive)
    (hc' : o'.internal_.cancel_upload_flag_ = o.internal_.cancel_upload_flag_)
    (hwf : t.wellFormed = true) (hth : t.handle = some k)
    (hheap : s'.heap = s.heap.set k o')
    (htasks : s'.transfer_tasks = s.transfer_tasks ++ [t]) : WaitInv s' := by
  obtain ⟨w1, w2, w3, w4⟩ := hinv
  have hlt := getElem?_lt_length ho
  have huh : uploadHandles s'.transfer_tasks = uploadHandles s.transfer_tasks ++ [k] := by
    simp [uploadHandles, htasks, List.filterMap_append, hth]
  refine ⟨?_, ?_, ?_, ?_⟩
  · intro x hx
    rw [htasks] at hx
    rcases List.mem_append.1 hx with hx | hx
    · exact w1 x hx
    · rw [List.mem_singleton] at hx
      rw [hx]; exact hwf
  · intro h hh
    rw [huh] at hh
    rw [hheap, List.length_set]
    rcases List.mem_append.1 hh with hh | hh
    · exact w2 h hh
    · rw [List.mem_singleton] at hh
      rw [hh]; exact hlt
  · intro h o2 ho2 ha2 hc2
    rw [huh]
    by_cases hkh : k = h
    · exact List.mem_append_right _ (by rw [hkh]; exact List.mem_singleton_self h)
    · rw [hheap, List.getElem?_set_ne hkh] at ho2
      exact List.mem_append_left _ (w3 h o2 ho2 ha2 hc2)
  · intro h o2 ho2 ha2
    rw [hheap] at ho2
    by_cases hkh : k = h
    · subst hkh
      rw [List.getElem?_set_self hlt] at ho2
      cases ho2
      rw [hc']
      exact w4 k o ho (by rw [← ha']; exact ha2)
    · rw [List.getElem?_set_ne hkh] at ho2
      exact w4 h o2 ho2 ha2

theorem wait_runTask (env : Env) (s s' : System) (hinv : WaitInv s)
    (hr : RunTransferTask env s = .ok s') : WaitInv s' := by
  obtain ⟨-, -, hcase⟩ := RunTransferTask_effect env s s' hr
  obtain ⟨w1, w2, w3, w4⟩ := hinv
  rcases hcase with ⟨-, rfl⟩ | ⟨t, hts, hheap, -, hskip⟩ |
    ⟨t, k, o, gl, hts, hth, hk, hc, hheap, -, -⟩
  · exact ⟨w1, w2, w3, w4⟩
  · have hsub : ∀ h ∈ uploadHandles s'.transfer_tasks, h ∈ uploadHandles s.transfer_tasks := by
      intro h hh
      rw [hts]
      simp only [uploadHandles, List.mem_filterMap] at hh ⊢
      obtain ⟨x, hx, hxh⟩ := hh
      exact ⟨x, List.mem_cons_of_mem _ hx, hxh⟩
    refine ⟨?_, ?_, ?_, ?_⟩
    · intro x hx
      exact w1 x (by rw [hts]; exact List.mem_cons_of_mem _ hx)
    · intro h hh
      rw [hheap]
      exact w2 h (hsub h hh)
    · intro h o2 ho2 ha2 hc2
      rw [hheap] at ho2
      have hmem := w3 h o2 ho2 ha2 hc2
      rw [hts] at hmem
      rcases hskip with hnone | ⟨k, o, hth, hk, hkc⟩
      · simpa [uploadHandles, List.filterMap_cons, hnone] using hmem
      · simp only [uploadHandles, List.filterMap_cons, hth, List.mem_cons] at hmem
        rcases hmem with rfl | hmem
        · rw [ho2] at hk
          cases hk
          have := w4 h o2 ho2 ha2
          rw [hkc] at this
          cases this
        · exact hmem
    · intro h o2 ho2
      rw [hheap] at ho2
      exact w4 h o2 ho2
  · have hlt := getElem?_lt_length hk
    refine ⟨?_, ?_, ?_, ?_⟩
    · intro x hx
      exact w1 x (by rw [hts]; exact List.mem_cons_of_mem _ hx)
    · intro h hh
      rw [hheap, List.length_set]
      apply w2 h
      rw [hts]
      simp only [uploadHandles, List.mem_filterMap] at hh ⊢
      obtain ⟨x, hx, hxh⟩ := hh
      exact ⟨x, List.mem_cons_of_mem _ hx, hxh⟩
    · intro h o2 ho2 ha2 hc2
      rw [hheap] at ho2
      by_cases hkh : k = h
      · subst hkh
        rw [List.getElem?_set_self hlt] at ho2
        cases ho2
        cases hc2
      · rw [List.getElem?_set_ne hkh] at ho2
        have hmem := w3 h o2 ho2 ha2 hc2
        rw [hts] at hmem
        simp only [uploadHandles, List.filterMap_cons, hth, List.mem_cons] at hmem
        rcases hmem with rfl | hmem
        · exact absurd rfl hkh
        · exact hmem
    · intro h o2 ho2 ha2
      rw [hheap] at ho2
      by_cases hkh : k = h
      · subst hkh
        rw [List.getElem?_set_self hlt] at ho2
        cases ho2
        exact hc
      · rw [List.getElem?_set_ne hkh] at ho2
        exact w4 h o2 ho2 ha2

/-- Every step that posts no null completion callback keeps the invariant. -/
theorem step_keeps_wait (env : Env) (s s' : System) (e : Event) (hinv : WaitInv s)
    (hcb : e.postsNullCallback = false) (hstep : step env s e = .ok s') : WaitInv s' := by
  cases e with
  | CreatePixelTransferState texture_id define_params =>
    simp only [step, Except.ok.injEq] at hstep
    subst hstep
    exact wait_create s texture_id define_params hinv
  | DestroyTransferState k => exact wait_destroy s s' k hinv hstep
  | AsyncTexImage2D k tex_params mem_params bind_callback =>
    obtain ⟨o, ho, -, -, -, -, -, -, hl, rfl⟩ := (AsyncTexImage2D_ok_iff ..).1 hstep
    exact wait_submit
      { o with internal_ :=
        { o.internal_ with bind_callback_ := bind_callback, transfer_completion_ := false } }
      (Task.PerformAsyncTexImage2D k tex_params mem_params
        (new_ScopedSafeSharedMemory env mem_params))
      hinv ho rfl rfl (by simp [Task.wellFormed, hl]) rfl rfl rfl
  | AsyncTexSubImage2D k tex_params mem_params =>
    obtain ⟨o, ho, -, -, -, -, -, -, hl, rfl⟩ := (AsyncTexSubImage2D_ok_iff ..).1 hstep
    exact wait_submit
      { o with internal_ := { o.internal_ with transfer_completion_ := false } }
      (Task.PerformAsyncTexSubImage2D k tex_params mem_params
        (new_ScopedSafeSharedMemory env mem_params) true)
      hinv ho rfl rfl (by simp [Task.wellFormed, hl]) rfl rfl rfl
  | AsyncNotifyCompletion mem_params callback =>
    obtain ⟨-, -, rfl⟩ := (AsyncNotifyCompletion_ok_iff ..).1 hstep
    obtain ⟨w1, w2, w3, w4⟩ := hinv
    have hc : callback ≠ 0 := by simpa [Event.postsNullCallback] using hcb
    refine ⟨?_, ?_, ?_, w4⟩
    · intro x hx
      rcases List.mem_append.1 hx with hx | hx
      · exact w1 x hx
      · rw [List.mem_singleton] at hx
        rw [hx]
        simp [Task.wellFormed, hc]
    · simpa [uploadHandles, Task.handle] using w2
    · simpa [uploadHandles, Task.handle] using w3
  | WaitForTransferCompletion k =>
    exact Wait_preserves env WaitInv (fun x p hx => hx) (wait_runTask env) s s' k hinv hstep
  | BindCompletedAsyncTransfers =>
    obtain ⟨taken, -, -, -, -, hheap, htasks, -⟩ := bindLoop_spec _ _ _ _ hstep
    obtain ⟨w1, w2, w3, w4⟩ := hinv
    refine ⟨?_, ?_, ?_, ?_⟩
    · rw [htasks]; exact w1
    · rw [htasks, hheap]; exact w2
    · rw [htasks, hheap]; exact w3
    · rw [hheap]; exact w4
  | RunTransferTask => exact wait_runTask env s s' hinv hstep

theorem run_keeps_wait (env : Env) : ∀ (es : List Event) (s : System),
    (∀ e ∈ es, e.postsNullCallback = false) →
    run env (System.init env) es = .ok s → WaitInv s := by
  intro es
  induction es using List.reverseRecOn with
  | nil =>
    intro s _ hr
    simp only [run, Except.ok.injEq] at hr
    subst hr
    refine ⟨?_, ?_, ?_, ?_⟩ <;> simp [System.init, uploadHandles]
  | append_singleton es e ih =>
    intro s hcb hr
    obtain ⟨s1, hr1, hstep⟩ := (run_snoc_ok env es e _ s).1 hr
    exact step_keeps_wait env s1 s e
      (ih s1 (fun x hx => hcb x (List.mem_append_left _ hx)) hr1)
      (hcb e (List.mem_append_right _ (List.mem_singleton_self e))) hstep

/-- A step that neither submits a transfer for the state `h` nor destroys it
keeps it alive, with its texture and with its completion event signaled. -/
theorem step_keeps_idle (env : Env) (h t : Nat) (s s' : System) (e : Event)
    (hP : s.idle h t) (hsub : e.submits h = false) (hdes : e.destroys h = false)
    (hstep : step env s e = .ok s') : s'.idle h t := by
  have hrunTask : ∀ x x' : System, x.idle h t → RunTransferTask env x = .ok x' →
      x'.idle h t := by
    intro x x' hx hr
    obtain ⟨o, ho, ha, ht, hc⟩ := hx
    obtain ⟨-, -, hcase⟩ := RunTransferTask_effect env x x' hr
    rcases hcase with ⟨-, rfl⟩ | ⟨-, -, hheap, -, -⟩ | ⟨-, k, ok, -, -, -, hk, -, hheap, -, -⟩
    · exact ⟨o, ho, ha, ht, hc⟩
    · exact ⟨o, by rw [hheap]; exact ho, ha, ht, hc⟩
    · by_cases hkh : k = h
      · subst hkh
        rw [ho] at hk
        cases hk
        exact ⟨o.completed, by rw [hheap]; exact List.getElem?_set_self (getElem?_lt_length ho),
          ha, ht, rfl⟩
      · exact ⟨o, by rw [hheap, List.getElem?_set_ne hkh]; exact ho, ha, ht, hc⟩
  cases e with
  | CreatePixelTransferState texture_id define_params =>
    simp only [step, Except.ok.injEq] at hstep
    subst hstep
    obtain ⟨o, ho, ha, ht, hc⟩ := hP
    refine ⟨o, ?_, ha, ht, hc⟩
    simp [CreatePixelTransferState, List.getElem?_append_left (getElem?_lt_length ho), ho]
  | DestroyTransferState k =>
    obtain ⟨o, ho, ha, ht, hc⟩ := hP
    obtain ⟨ok, hk, hka, rfl⟩ := (DestroyTransferState_ok_iff s s' k).1 hstep
    have hne : k ≠ h := by simpa [Event.destroys] using hdes
    refine ⟨o, ?_, ha, ht, hc⟩
    simp [List.getElem?_set_ne hne, ho]
  | AsyncTexImage2D k tex_params mem_params bind_callback =>
    obtain ⟨o, ho, ha, ht, hc⟩ := hP
    obtain ⟨ok, hk, hka, -, -, -, -, -, -, rfl⟩ := (AsyncTexImage2D_ok_iff ..).1 hstep
    have hne : k ≠ h := by simpa [Event.submits] using hsub
    refine ⟨o, ?_, ha, ht, hc⟩
    simp [List.getElem?_set_ne hne, ho]
  | AsyncTexSubImage2D k tex_params mem_params =>
    obtain ⟨o, ho, ha, ht, hc⟩ := hP
    obtain ⟨ok, hk, hka, -, -, -, -, -, -, rfl⟩ := (AsyncTexSubImage2D_ok_iff ..).1 hstep
    have hne : k ≠ h := by simpa [Event.submits] using hsub
    refine ⟨o, ?_, ha, ht, hc⟩
    simp [List.getElem?_set_ne hne, ho]
  | AsyncNotifyCompletion mem_params callback =>
    obtain ⟨-, -, rfl⟩ := (AsyncNotifyCompletion_ok_iff ..).1 hstep
    exact hP
  | WaitForTransferCompletion k =>
    exact Wait_preserves env (fun x => x.idle h t) (fun x p hx => hx) hrunTask s s' k hP hstep
  | BindCompletedAsyncTransfers =>
    obtain ⟨o, ho, ha, ht, hc⟩ := hP
    obtain ⟨taken, -, -, -, -, hheap, -, -, -⟩ := bindLoop_spec _ _ _ _ hstep
    exact ⟨o, by rw [hheap]; exact ho, ha, ht, hc⟩
  | RunTransferTask => exact hrunTask s s' hP hstep

/-- An execution in which the state `h` is neither submitted nor destroyed
keeps it alive, with its texture and with its completion event signaled. -/
theorem run_keeps_idle (env : Env) (h t : Nat) : ∀ (es : List Event) (s s' : System),
    s.idle h t → (∀ e ∈ es, e.submits h = false ∧ e.destroys h = false) →
    run env s es = .ok s' → s'.idle h t := by
  intro es
  induction es with
  | nil =>
    intro s s' hP _ hr
    simp only [run, Except.ok.injEq] at hr
    subst hr
    exact hP
  | cons e es ih =>
    intro s s' hP hes hr
    simp only [run] at hr
    cases hs : step env s e with
    | error f => simp [hs] at hr
    | ok s1 =>
      simp only [hs] at hr
      have he := hes e (List.mem_cons_self _ _)
      exact ih s1 s' (step_keeps_idle env h t s s1 e hP he.1 he.2 hs)
        (fun e' he' => hes e' (List.mem_cons_of_mem _ he')) hr

/-- C10, as stated, fails: waiting on a state that was created and never
submitted returns normally and changes nothing. -/
theorem C10_wait_on_fresh_state_counterexample :
    sysIdle = CreatePixelTransferState (System.init env32) 5 tex64 ∧
    sysIdle.pending_allocations_ = [] ∧ sysIdle.transfer_tasks = [] ∧
    WaitForTransferCompletion env32 sysIdle 0 = .ok sysIdle := by
  refine ⟨rfl, rfl, rfl, ?_⟩
  decide

/-- C10, amended: a created state starts with its completion event signaled,
so it is not in progress, and it stays so through every execution in which
it is never submitted: whatever else is created, submitted, run by the
transfer thread, reconciled, waited for or destroyed after
`CreatePixelTransferState` made the state, as long as no `AsyncTexImage2D`
and no `AsyncTexSubImage2D` is called on it and its handle is not destroyed,
the state is alive and not in progress, and with a non-zero texture id
`WaitForTransferCompletion` on it returns normally at once and changes
nothing.  So does waiting on any live state that is not in progress. -/
theorem C10_wait_on_never_submitted_state_returns (env : Env) (s0 s : System)
    (texture_id : Nat) (define_params : AsyncTexImage2DParams) (es : List Event)
    (hid : texture_id ≠ 0)
    (hnever : ∀ e ∈ es, e.submits s0.heap.length = false ∧ e.destroys s0.heap.length = false)
    (hrun : run env (CreatePixelTransferState s0 texture_id define_params) es = .ok s) :
    (CreatePixelTransferState s0 texture_id define_params).get s0.heap.length =
      some { cancel_upload_flag_ := false, texture_id_ := texture_id,
             define_params_ := define_params, transfer_completion_ := true,
             bind_callback_ := 0 } ∧
    WaitForTransferCompletion env (CreatePixelTransferState s0 texture_id define_params)
        s0.heap.length
      = .ok (CreatePixelTransferState s0 texture_id define_params) ∧
    (s.get s0.heap.length).map (fun st => (st.TransferIsInProgress, st.texture_id_))
      = some (false, texture_id) ∧
    WaitForTransferCompletion env s s0.heap.length = .ok s ∧
    (∀ (s1 : System) (h : Nat) (st : TransferStateInternal), s1.get h = some st →
      st.TransferIsInProgress = false → st.texture_id_ ≠ 0 →
      WaitForTransferCompletion env s1 h = .ok s1) := by
  have hg : (CreatePixelTransferState s0 texture_id define_params).get s0.heap.length =
      some { cancel_upload_flag_ := false, texture_id_ := texture_id,
             define_params_ := define_params, transfer_completion_ := true,
             bind_callback_ := 0 } := by
    simp [CreatePixelTransferState, System.get]
  have hidle0 : (CreatePixelTransferState s0 texture_id define_params).idle s0.heap.length
      texture_id := by
    refine ⟨AsyncTransferStateImpl.mk
        { cancel_upload_flag_ := false, texture_id_ := texture_id,
          define_params_ := define_params, transfer_completion_ := true,
          bind_callback_ := 0 } true, ?_, rfl, rfl, rfl⟩
    simp [CreatePixelTransferState]
  obtain ⟨o, ho, ha, ht, hc⟩ := run_keeps_idle env _ _ es _ s hidle0 hnever hrun
  have hgs : s.get s0.heap.length = some o.internal_ := by
    simp [System.get, ho, ha]
  refine ⟨hg, ?_, ?_, ?_, ?_⟩
  · simp [WaitForTransferCompletion, hg, hid, TransferStateInternal.TransferIsInProgress]
  · simp [hgs, TransferStateInternal.TransferIsInProgress, hc, ht]
  · simp [WaitForTransferCompletion, hgs, ht, hid, TransferStateInternal.TransferIsInProgress, hc]
  · intro s1 h st hg1 hp ht1
    simp [WaitForTransferCompletion, hg1, ht1, hp]

/-- The witness of C10: the state `0` is created with texture `5`; then a
second state is defined, uploaded to, waited for and destroyed and a
notification runs, and waiting on the state `0` still returns at once. -/
theorem C10_wait_on_never_submitted_state_returns_witness :
    (5 : Nat) ≠ 0 ∧
    (∀ e ∈ traceNever, e.submits (System.init env32).heap.length = false ∧
      e.destroys (System.init env32).heap.length = false) ∧
    ∃ s, run env32 (CreatePixelTransferState (System.init env32) 5 tex64) traceNever = .ok s ∧
      s.heap.length = 2 ∧ s.transfer_gl.length = 8 ∧ s.bind_runs = [(1, 71)] ∧
      ((CreatePixelTransferState (System.init env32) 5 tex64).get
          (System.init env32).heap.length =
        some { cancel_upload_flag_ := false, texture_id_ := 5,
               define_params_ := tex64, transfer_completion_ := true,
               bind_callback_ := 0 } ∧
       WaitForTransferCompletion env32 (CreatePixelTransferState (System.init env32) 5 tex64)
          (System.init env32).heap.length
        = .ok (CreatePixelTransferState (System.init env32) 5 tex64) ∧
       (s.get (System.init env32).heap.length).map
          (fun st => (st.TransferIsInProgress, st.texture_id_)) = some (false, 5) ∧
       WaitForTransferCompletion env32 s (System.init env32).heap.length = .ok s ∧
       (∀ (s1 : System) (h : Nat) (st : TransferStateInternal), s1.get h = some st →
          st.TransferIsInProgress = false → st.texture_id_ ≠ 0 →
          WaitForTransferCompletion env32 s1 h = .ok s1)) :=
  ⟨by decide, by decide, _, rfl, by decide, by decide, by decide,
   C10_wait_on_never_submitted_state_returns env32 (System.init env32) _ 5 tex64 traceNever
     (by decide) (by decide) rfl⟩

/-! ## Notification of completion -/

/-- Turns of the transfer thread consume the message loop from its head. -/
theorem run_turns_tasks (env : Env) : ∀ (j : Nat) (x y : System),
    run env x (List.replicate j Event.RunTransferTask) = .ok y →
    y.transfer_tasks = x.transfer_tasks.drop j := by
  intro j
  induction j with
  | zero =>
    intro x y hr
    simp only [List.replicate, run, Except.ok.injEq] at hr
    subst hr
    rfl
  | succ n ih =>
    intro x y hr
    simp only [List.replicate, run, step] at hr
    cases hs : RunTransferTask env x with
    | error f => simp [hs] at hr
    | ok x1 =>
      simp only [hs] at hr
      rw [ih x1 y hr]
      rcases RunTransferTask_cases env x x1 hs with ⟨hnil, rfl⟩ | ⟨t, rest, hts, ht⟩
      · simp [hnil]
      · rw [(runTask_frame env _ _ _ ht).1, hts]
        rfl

theorem PerformNotifyCompletion_turn (env : Env) (x : System) (mem_params : AsyncMemoryParams)
    (callback : Nat) (rest : List Task) (hc : callback ≠ 0)
    (hts : x.transfer_tasks =
      Task.PerformNotifyCompletion mem_params (new_ScopedSafeSharedMemory env mem_params)
        callback :: rest) :
    RunTransferTask env x = .ok { x with
      transfer_tasks := rest,
      notify_runs := x.notify_runs ++ [(callback, safeParams env mem_params)] } := by
  unfold RunTransferTask
  rw [hts]
  simp [runTask, PerformNotifyCompletion, hc, safeParams]

/-- Every step leaves in the message loop a tail of what was posted, followed
by what it posts itself: tasks leave the loop from its head only. -/
theorem step_tasks (env : Env) (x x' : System) (e : Event) (hstep : step env x e = .ok x') :
    ∃ j added, x'.transfer_tasks = x.transfer_tasks.drop j ++ added := by
  have hturn : ∀ y y' : System, RunTransferTask env y = .ok y' →
      ∃ j, y'.transfer_tasks = y.transfer_tasks.drop j := by
    intro y y' hr
    rcases RunTransferTask_cases env y y' hr with ⟨-, rfl⟩ | ⟨t, rest, hts, ht⟩
    · exact ⟨0, rfl⟩
    · exact ⟨1, by rw [(runTask_frame env _ _ _ ht).1, hts]; rfl⟩
  cases e with
  | CreatePixelTransferState texture_id define_params =>
    simp only [step, Except.ok.injEq] at hstep
    subst hstep
    exact ⟨0, [], by simp [CreatePixelTransferState]⟩
  | DestroyTransferState k =>
    obtain ⟨o, -, -, rfl⟩ := (DestroyTransferState_ok_iff x x' k).1 hstep
    exact ⟨0, [], by simp⟩
  | AsyncTexImage2D k tex_params mem_params bind_callback =>
    obtain ⟨o, -, -, -, -, -, -, -, -, rfl⟩ := (AsyncTexImage2D_ok_iff ..).1 hstep
    exact ⟨0, _, rfl⟩
  | AsyncTexSubImage2D k tex_params mem_params =>
    obtain ⟨o, -, -, -, -, -, -, -, -, rfl⟩ := (AsyncTexSubImage2D_ok_iff ..).1 hstep
    exact ⟨0, _, rfl⟩
  | AsyncNotifyCompletion mem_params callback =>
    obtain ⟨-, -, rfl⟩ := (AsyncNotifyCompletion_ok_iff ..).1 hstep
    exact ⟨0, _, rfl⟩
  | WaitForTransferCompletion k =>
    obtain ⟨j, hj⟩ := Wait_preserves env
      (fun y => ∃ j, y.transfer_tasks = x.transfer_tasks.drop j)
      (fun y p hy => hy)
      (fun y y' hy hr => by
        obtain ⟨j1, h1⟩ := hy
        obtain ⟨j2, h2⟩ := hturn y y' hr
        exact ⟨j1 + j2, by rw [h2, h1, List.drop_drop, Nat.add_comm]⟩)
      x x' k ⟨0, rfl⟩ hstep
    exact ⟨j, [], by simp [hj]⟩
  | BindCompletedAsyncTransfers =>
    obtain ⟨taken, -, -, -, -, -, htasks, -⟩ := bindLoop_spec _ _ _ _ hstep
    exact ⟨0, [], by simp [htasks]⟩
  | RunTransferTask =>
    obtain ⟨j, hj⟩ := hturn x x' hstep
    exact ⟨j, [], by simp [hj]⟩

theorem run_tasks (env : Env) : ∀ (es : List Event) (x y : System),
    run env x es = .ok y → ∃ j added, y.transfer_tasks = x.transfer_tasks.drop j ++ added := by
  intro es
  induction es with
  | nil =>
    intro x y hr
    simp only [run, Except.ok.injEq] at hr
    subst hr
    exact ⟨0, [], by simp⟩
  | cons e es ih =>
    intro x y hr
    simp only [run] at hr
    cases hs : step env x e with
    | error f => simp [hs] at hr
    | ok x1 =>
      simp only [hs] at hr
      obtain ⟨j1, a1, h1⟩ := step_tasks env x x1 e hs
      obtain ⟨j2, a2, h2⟩ := ih x1 y hr
      rw [h2, h1, List.drop_append_eq_append_drop, List.drop_drop, List.append_assoc]
      exact ⟨j1 + j2, _, by rw [Nat.add_comm]⟩

/-- C12: a call of `AsyncNotifyCompletion` whose assertions hold and whose
callback is not null appends exactly one task to the tail of the message
loop of the transfer thread and changes nothing else.  The loop is consumed
from its head only: after any later execution it holds a tail of the tasks
posted before followed by the notification, then newer tasks, and after `j`
turns of the transfer thread, `j` at most the number of tasks posted before,
the notification is still posted behind the earlier tasks not run yet.  When
its turn comes the transfer thread runs the callback once, with the memory
parameters of the call in which only the shared memory is replaced, by the
mapping of the task. -/
theorem C12_notification_is_posted_last_and_runs_once (env : Env) (s : System)
    (mem_params : AsyncMemoryParams) (callback : Nat)
    (hmem : mem_params.shared_memory ≠ 0) (hrange : shm_range_ok env mem_params = true)
    (hc : callback ≠ 0) :
    ∃ s', AsyncNotifyCompletion env s mem_params callback = .ok s' ∧
      s' = { s with transfer_tasks := s.transfer_tasks ++
        [Task.PerformNotifyCompletion mem_params (new_ScopedSafeSharedMemory env mem_params)
          callback] } ∧
      (∀ es y, run env s' es = .ok y → ∃ j added, y.transfer_tasks =
        (s.transfer_tasks ++ [Task.PerformNotifyCompletion mem_params
          (new_ScopedSafeSharedMemory env mem_params) callback]).drop j ++ added) ∧
      (∀ j y, j ≤ s.transfer_tasks.length →
        run env s' (List.replicate j Event.RunTransferTask) = .ok y →
        y.transfer_tasks = s.transfer_tasks.drop j ++
          [Task.PerformNotifyCompletion mem_params (new_ScopedSafeSharedMemory env mem_params)
            callback]) ∧
      (∀ x rest, x.transfer_tasks =
          Task.PerformNotifyCompletion mem_params (new_ScopedSafeSharedMemory env mem_params)
            callback :: rest →
        RunTransferTask env x = .ok { x with
          transfer_tasks := rest,
          notify_runs := x.notify_runs ++ [(callback, safeParams env mem_params)] }) ∧
      (safeParams env mem_params).shm_data_offset = mem_params.shm_data_offset ∧
      (safeParams env mem_params).shm_data_size = mem_params.shm_data_size ∧
      (safeParams env mem_params).shm_size = mem_params.shm_size ∧
      (safeParams env mem_params).shared_memory =
        env.AcquireSafeSharedMemory mem_params.shared_memory mem_params.shm_size := by
  refine ⟨_, (AsyncNotifyCompletion_ok_iff ..).2 ⟨hmem, hrange, rfl⟩, rfl, ?_, ?_, ?_,
    rfl, rfl, rfl, rfl⟩
  · intro es y hr
    exact run_tasks env es _ y hr
  · intro j y hj hr
    rw [run_turns_tasks env j _ y hr]
    simp only
    rw [List.drop_append_of_le_length hj]
  · intro x rest hts
    exact PerformNotifyCompletion_turn env x mem_params callback rest hc hts

/-- The witness of C12: a notification requested while two uploads are
posted is still behind them after one turn of the transfer thread, and runs
at the third turn. -/
theorem C12_notification_is_posted_last_and_runs_once_witness :
    mem16k.shared_memory ≠ 0 ∧ shm_range_ok env32 mem16k = true ∧ (9 : Nat) ≠ 0 ∧
    sysTwoTasks.transfer_tasks.length = 2 ∧
    (∃ y, run env32 sysTwoTasks
        [.AsyncNotifyCompletion mem16k 9, .RunTransferTask, .RunTransferTask] = .ok y ∧
      y.notify_runs = [] ∧ y.transfer_tasks.length = 1) ∧
    (∃ y, run env32 sysTwoTasks
        [.AsyncNotifyCompletion mem16k 9, .RunTransferTask, .RunTransferTask,
         .RunTransferTask] = .ok y ∧
      y.notify_runs = [(9, { mem16k with shared_memory := 1001 })] ∧ y.transfer_tasks = []) ∧
    ∃ s', AsyncNotifyCompletion env32 sysTwoTasks mem16k 9 = .ok s' ∧
      s' = { sysTwoTasks with transfer_tasks := sysTwoTasks.transfer_tasks ++
        [Task.PerformNotifyCompletion mem16k (new_ScopedSafeSharedMemory env32 mem16k) 9] } ∧
      (∀ es y, run env32 s' es = .ok y → ∃ j added, y.transfer_tasks =
        (sysTwoTasks.transfer_tasks ++ [Task.PerformNotifyCompletion mem16k
          (new_ScopedSafeSharedMemory env32 mem16k) 9]).drop j ++ added) ∧
      (∀ j y, j ≤ sysTwoTasks.transfer_tasks.length →
        run env32 s' (List.replicate j Event.RunTransferTask) = .ok y →
        y.transfer_tasks = sysTwoTasks.transfer_tasks.drop j ++
          [Task.PerformNotifyCompletion mem16k (new_ScopedSafeSharedMemory env32 mem16k) 9]) ∧
      (∀ x rest, x.transfer_tasks =
          Task.PerformNotifyCompletion mem16k (new_ScopedSafeSharedMemory env32 mem16k)
            9 :: rest →
        RunTransferTask env32 x = .ok { x with
          transfer_tasks := rest,
          notify_runs := x.notify_runs ++ [(9, safeParams env32 mem16k)] }) ∧
      (safeParams env32 mem16k).shm_data_offset = mem16k.shm_data_offset ∧
      (safeParams env32 mem16k).shm_data_size = mem16k.shm_data_size ∧
      (safeParams env32 mem16k).shm_size = mem16k.shm_size ∧
      (safeParams env32 mem16k).shared_memory =
        env32.AcquireSafeSharedMemory mem16k.shared_memory mem16k.shm_size :=
  ⟨by decide, by decide, by decide, by decide,
   ⟨_, rfl, by decide, by decide⟩, ⟨_, rfl, by decide, by decide⟩,
   C12_notification_is_posted_last_and_runs_once env32 sysTwoTasks mem16k 9
    (by decide) (by decide) (by decide)⟩

/-! ## Upload statistics -/

theorem PerformAsyncTexImage2D_stats (env : Env) (x x' : System) (h : Nat)
    (tex_params : AsyncTexImage2DParams) (mem_params : AsyncMemoryParams)
    (safe_shared_memory : ScopedSafeSharedMemory)
    (hr : PerformAsyncTexImage2D env x h tex_params mem_params safe_shared_memory = .ok x') :
    x'.texture_upload_stats_ = x.texture_upload_stats_ ∧
    subUploads x'.transfer_gl = subUploads x.transfer_gl := by
  unfold PerformAsyncTexImage2D at hr
  split at hr
  · simp at hr
  · split at hr
    · simp only [Except.ok.injEq] at hr
      subst hr
      exact ⟨rfl, rfl⟩
    · split at hr
      · simp at hr
      · simp only [Except.ok.injEq] at hr
        subst hr
        exact ⟨rfl, by simp [subUploads, List.filter_append, isSubUpload]⟩

theorem PerformAsyncTexSubImage2D_stats (env : Env) (x x' : System) (h : Nat)
    (tex_params : AsyncTexSubImage2DParams) (mem_params : AsyncMemoryParams)
    (safe_shared_memory : ScopedSafeSharedMemory) (stats : Bool)
    (hr : PerformAsyncTexSubImage2D env x h tex_params mem_params safe_shared_memory stats
      = .ok x') :
    ∃ o, x.heap[h]? = some o ∧
      (o.internal_.cancel_upload_flag_ = true → x' = x) ∧
      (o.internal_.cancel_upload_flag_ = false →
        subUploads x'.transfer_gl = subUploads x.transfer_gl + 1 ∧
        x'.texture_upload_stats_ =
          if stats then x.texture_upload_stats_.AddUpload (env.upload_ticks tex_params)
          else x.texture_upload_stats_) := by
  rw [PerformAsyncTexSubImage2D_whole] at hr
  split at hr
  · simp at hr
  · rename_i o ho
    refine ⟨o, ho, ?_, ?_⟩
    · intro hc
      simp only [hc, if_true, Except.ok.injEq] at hr
      exact hr.symm
    · intro hc
      split at hr
      · rename_i hc'
        rw [hc] at hc'
        cases hc'
      · split at hr
        · simp at hr
        · simp only [Except.ok.injEq] at hr
          subst hr
          exact ⟨by simp [subUploads, List.filter_append, isSubUpload], rfl⟩

/-- A task run raises the upload count by one or leaves it as it is. -/
theorem runTask_count (env : Env) (x x' : System) (t : Task)
    (hr : runTask env x t = .ok x') :
    x.texture_upload_stats_.texture_upload_count_ ≤
      x'.texture_upload_stats_.texture_upload_count_ ∧
    x'.texture_upload_stats_.texture_upload_count_ ≤
      x.texture_upload_stats_.texture_upload_count_ + 1 := by
  cases t with
  | PerformAsyncTexImage2D h tex_params mem_params safe_shared_memory =>
    rw [(PerformAsyncTexImage2D_stats env x x' h _ _ _ hr).1]
    omega
  | PerformAsyncTexSubImage2D h tex_params mem_params safe_shared_memory stats =>
    obtain ⟨o, -, h1, h2⟩ := PerformAsyncTexSubImage2D_stats env x x' h _ _ _ stats hr
    cases hc : o.internal_.cancel_upload_flag_ with
    | true => rw [h1 hc]; omega
    | false =>
      rw [(h2 hc).2]
      cases stats <;> simp [AsyncPixelTransferUploadStats.AddUpload]
  | PerformNotifyCompletion mem_params safe_shared_memory callback =>
    simp only [runTask, PerformNotifyCompletion] at hr
    split at hr
    · simp at hr
    · simp only [Except.ok.injEq] at hr
      subst hr
      simp

theorem RunTransferTask_count (env : Env) (x x' : System)
    (hr : RunTransferTask env x = .ok x') :
    x.texture_upload_stats_.texture_upload_count_ ≤
      x'.texture_upload_stats_.texture_upload_count_ := by
  rcases RunTransferTask_cases env x x' hr with ⟨-, rfl⟩ | ⟨t, rest, -, ht⟩
  · exact le_refl _
  · exact (runTask_count env _ x' t ht).1

/-- No step lowers the upload count. -/
theorem step_count (env : Env) (x x' : System) (e : Event) (hstep : step env x e = .ok x') :
    x.texture_upload_stats_.texture_upload_count_ ≤
      x'.texture_upload_stats_.texture_upload_count_ := by
  cases e with
  | CreatePixelTransferState texture_id define_params =>
    simp only [step, Except.ok.injEq] at hstep
    subst hstep
    exact le_refl _
  | DestroyTransferState k =>
    obtain ⟨o, -, -, rfl⟩ := (DestroyTransferState_ok_iff x x' k).1 hstep
    exact le_refl _
  | AsyncTexImage2D k tex_params mem_params bind_callback =>
    obtain ⟨o, -, -, -, -, -, -, -, -, rfl⟩ := (AsyncTexImage2D_ok_iff ..).1 hstep
    exact le_refl _
  | AsyncTexSubImage2D k tex_params mem_params =>
    obtain ⟨o, -, -, -, -, -, -, -, -, rfl⟩ := (AsyncTexSubImage2D_ok_iff ..).1 hstep
    exact le_refl _
  | AsyncNotifyCompletion mem_params callback =>
    obtain ⟨-, -, rfl⟩ := (AsyncNotifyCompletion_ok_iff ..).1 hstep
    exact le_refl _
  | WaitForTransferCompletion k =>
    exact Wait_preserves env
      (fun y => x.texture_upload_stats_.texture_upload_count_ ≤
        y.texture_upload_stats_.texture_upload_count_)
      (fun y p hy => hy)
      (fun y y' hy hr => le_trans hy (RunTransferTask_count env y y' hr))
      x x' k (le_refl _) hstep
  | BindCompletedAsyncTransfers =>
    obtain ⟨taken, -, -, -, -, -, -, -, -, hstats, -⟩ := bindLoop_spec _ _ _ _ hstep
    rw [hstats]
  | RunTransferTask => exact RunTransferTask_count env x x' hstep

theorem stats_runTask (env : Env) (s s' : System) (hinv : StatsInv s)
    (hr : RunTransferTask env s = .ok s') : StatsInv s' := by
  obtain ⟨hcount, htasks⟩ := hinv
  rcases RunTransferTask_cases env s s' hr with ⟨-, rfl⟩ | ⟨t, rest, hts, ht⟩
  · exact ⟨hcount, htasks⟩
  · have hrest : ∀ x ∈ s'.transfer_tasks, x.hasStats = true := by
      intro x hx
      rw [(runTask_frame env _ _ _ ht).1] at hx
      exact htasks x (by rw [hts]; exact List.mem_cons_of_mem _ hx)
    have hst : t.hasStats = true := htasks t (by rw [hts]; exact List.mem_cons_self _ _)
    refine ⟨?_, hrest⟩
    cases t with
    | PerformAsyncTexImage2D h tex_params mem_params safe_shared_memory =>
      obtain ⟨h1, h2⟩ := PerformAsyncTexImage2D_stats env _ s' h _ _ _ ht
      rw [h1, h2]
      exact hcount
    | PerformAsyncTexSubImage2D h tex_params mem_params safe_shared_memory stats =>
      obtain ⟨o, -, h1, h2⟩ := PerformAsyncTexSubImage2D_stats env _ s' h _ _ _ stats ht
      have hflag : stats = true := by simpa [Task.hasStats] using hst
      cases hc : o.internal_.cancel_upload_flag_ with
      | true => rw [h1 hc]; exact hcount
      | false =>
        obtain ⟨h3, h4⟩ := h2 hc
        rw [h3, h4, hflag]
        simp only [if_true, AsyncPixelTransferUploadStats.AddUpload]
        exact congrArg (· + 1) hcount
    | PerformNotifyCompletion mem_params safe_shared_memory callback =>
      simp only [runTask, PerformNotifyCompletion] at ht
      split at ht
      · simp at ht
      · simp only [Except.ok.injEq] at ht
        subst ht
        exact hcount

/-- Every step of `step`, in which a task is run to its end, keeps the
upload count equal to the number of sub-region uploads performed. -/
theorem step_keeps_stats (env : Env) (s s' : System) (e : Event) (hinv : StatsInv s)
    (hstep : step env s e = .ok s') : StatsInv s' := by
  cases e with
  | CreatePixelTransferState texture_id define_params =>
    simp only [step, Except.ok.injEq] at hstep
    subst hstep
    exact hinv
  | DestroyTransferState k =>
    obtain ⟨o, -, -, rfl⟩ := (DestroyTransferState_ok_iff s s' k).1 hstep
    exact hinv
  | AsyncTexImage2D k tex_params mem_params bind_callback =>
    obtain ⟨o, -, -, -, -, -, -, -, -, rfl⟩ := (AsyncTexImage2D_ok_iff ..).1 hstep
    refine ⟨hinv.1, ?_⟩
    intro x hx
    rcases List.mem_append.1 hx with hx | hx
    · exact hinv.2 x hx
    · rw [List.mem_singleton] at hx
      rw [hx]; rfl
  | AsyncTexSubImage2D k tex_params mem_params =>
    obtain ⟨o, -, -, -, -, -, -, -, -, rfl⟩ := (AsyncTexSubImage2D_ok_iff ..).1 hstep
    refine ⟨hinv.1, ?_⟩
    intro x hx
    rcases List.mem_append.1 hx with hx | hx
    · exact hinv.2 x hx
    · rw [List.mem_singleton] at hx
      rw [hx]; rfl
  | AsyncNotifyCompletion mem_params callback =>
    obtain ⟨-, -, rfl⟩ := (AsyncNotifyCompletion_ok_iff ..).1 hstep
    refine ⟨hinv.1, ?_⟩
    intro x hx
    rcases List.mem_append.1 hx with hx | hx
    · exact hinv.2 x hx
    · rw [List.mem_singleton] at hx
      rw [hx]; rfl
  | WaitForTransferCompletion k =>
    exact Wait_preserves env StatsInv (fun x p hx => hx) (stats_runTask env) s s' k hinv hstep
  | BindCompletedAsyncTransfers =>
    obtain ⟨taken, -, -, -, -, -, htasks, hgl, -, hstats, -⟩ := bindLoop_spec _ _ _ _ hstep
    refine ⟨by rw [hstats, hgl]; exact hinv.1, by rw [htasks]; exact hinv.2⟩
  | RunTransferTask => exact stats_runTask env s s' hinv hstep

theorem run_keeps_stats (env : Env) : ∀ (es : List Event) (s : System),
    run env (System.init env) es = .ok s → StatsInv s := by
  intro es
  induction es using List.reverseRecOn with
  | nil =>
    intro s hr
    simp only [run, Except.ok.injEq] at hr
    subst hr
    exact ⟨rfl, by simp [System.init]⟩
  | append_singleton es e ih =>
    intro s hr
    obtain ⟨s1, hr1, hstep⟩ := (run_snoc_ok env es e _ s).1 hr
    exact step_keeps_stats env s1 s e (ih s1 hr1) hstep

/-! ### The transfer thread between `MarkAsCompleted()` and `AddUpload` -/

theorem record_heap (s : System) (r : Option Recording) :
    (PerformAsyncTexSubImage2D_record s r).heap = s.heap := by
  cases r <;> rfl

theorem record_tasks (s : System) (r : Option Recording) :
    (PerformAsyncTexSubImage2D_record s r).transfer_tasks = s.transfer_tasks := by
  cases r <;> rfl

theorem record_transfer_gl (s : System) (r : Option Recording) :
    (PerformAsyncTexSubImage2D_record s r).transfer_gl = s.transfer_gl := by
  cases r <;> rfl

theorem record_get (s : System) (r : Option Recording) (h : Nat) :
    (PerformAsyncTexSubImage2D_record s r).get h = s.get h := by
  cases r <;> rfl

/-- A whole task is its run up to the place the main thread can see, followed
by the `AddUpload` still to come. -/
theorem runTask_eq_beginTask (env : Env) (s : System) (t : Task) :
    runTask env s t =
      match beginTask env s t with
      | .error e => .error e
      | .ok (s1, recording) => .ok (PerformAsyncTexSubImage2D_record s1 recording) := by
  cases t with
  | PerformAsyncTexImage2D h tex_params mem_params safe_shared_memory =>
    simp only [runTask, beginTask]
    cases PerformAsyncTexImage2D env s h tex_params mem_params safe_shared_memory <;> rfl
  | PerformAsyncTexSubImage2D h tex_params mem_params safe_shared_memory stats => rfl
  | PerformNotifyCompletion mem_params safe_shared_memory callback =>
    simp only [runTask, beginTask]
    cases PerformNotifyCompletion s mem_params safe_shared_memory callback <;> rfl

/-- The part of a task that runs before the main thread can see it leaves the
upload statistics as they are. -/
theorem beginTask_stats (env : Env) (s s1 : System) (t : Task) (r : Option Recording)
    (hb : beginTask env s t = .ok (s1, r)) :
    s1.texture_upload_stats_ = s.texture_upload_stats_ ∧
    s1.transfer_tasks = s.transfer_tasks := by
  cases t with
  | PerformAsyncTexImage2D h tex_params mem_params safe_shared_memory =>
    simp only [beginTask] at hb
    cases hp : PerformAsyncTexImage2D env s h tex_params mem_params safe_shared_memory with
    | error e => simp [hp] at hb
    | ok s2 =>
      simp only [hp, Except.ok.injEq, Prod.mk.injEq] at hb
      obtain ⟨rfl, -⟩ := hb
      exact ⟨(PerformAsyncTexImage2D_stats env s s2 h _ _ _ hp).1,
        (runTask_frame env s s2 (.PerformAsyncTexImage2D h tex_params mem_params
          safe_shared_memory) hp).1⟩
  | PerformAsyncTexSubImage2D h tex_params mem_params safe_shared_memory stats =>
    simp only [beginTask, PerformAsyncTexSubImage2D_upload] at hb
    split at hb
    · simp at hb
    · split at hb
      · simp only [Except.ok.injEq, Prod.mk.injEq] at hb
        obtain ⟨rfl, -⟩ := hb
        exact ⟨rfl, rfl⟩
      · split at hb
        · simp at hb
        · simp only [Except.ok.injEq, Prod.mk.injEq] at hb
          obtain ⟨rfl, -⟩ := hb
          exact ⟨rfl, rfl⟩
  | PerformNotifyCompletion mem_params safe_shared_memory callback =>
    simp only [beginTask] at hb
    cases hp : PerformNotifyCompletion s mem_params safe_shared_memory callback with
    | error e => simp [hp] at hb
    | ok s2 =>
      simp only [hp, Except.ok.injEq, Prod.mk.injEq] at hb
      obtain ⟨rfl, -⟩ := hb
      obtain ⟨h1, -⟩ := runTask_frame env s s2 (.PerformNotifyCompletion mem_params
        safe_shared_memory callback) hp
      refine ⟨?_, h1⟩
      simp only [PerformNotifyCompletion] at hp
      split at hp
      · simp at hp
      · simp only [Except.ok.injEq] at hp
        subst hp
        rfl

/-- The reconciliation loop neither reads nor writes the upload statistics. -/
theorem bindLoop_record (r : Option Recording) : ∀ (l : List Nat) (s : System) (tb : Bool)
    (s' : System), bindLoop l s tb = .ok s' →
    bindLoop l (PerformAsyncTexSubImage2D_record s r) tb =
      .ok (PerformAsyncTexSubImage2D_record s' r) := by
  intro l
  induction l with
  | nil =>
    intro s tb s' hrun
    simp only [bindLoop, Except.ok.injEq] at hrun ⊢
    subst hrun
    cases r <;> cases tb <;> rfl
  | cons h rest ih =>
    intro s tb s' hrun
    unfold bindLoop at hrun ⊢
    rw [record_get]
    cases hg : s.get h with
    | none =>
      simp only [hg] at hrun ⊢
      exact ih s tb s' hrun
    | some state =>
      simp only [hg] at hrun ⊢
      by_cases hp : state.TransferIsInProgress = true
      · simp only [hp, if_true, Except.ok.injEq] at hrun ⊢
        subst hrun
        cases r <;> cases tb <;> rfl
      · simp only [hp, if_false] at hrun ⊢
        cases hb : BindTransfer (enterBinder s tb) h state with
        | error e => simp [hb] at hrun
        | ok s1 =>
          simp only [hb] at hrun
          have hb' : BindTransfer (enterBinder (PerformAsyncTexSubImage2D_record s r) tb) h state
              = .ok (PerformAsyncTexSubImage2D_record s1 r) := by
            unfold BindTransfer at hb ⊢
            split at hb
            · simp at hb
            · split at hb
              · simp at hb
              · rename_i h1 h2
                simp only [Except.ok.injEq] at hb
                subst hb
                simp only [h1, h2, if_false, Except.ok.injEq]
                cases r <;> cases tb <;> rfl
          simp only [hb']
          exact ih s1 true s' hrun

/-- A call of the main thread other than a wait neither reads nor writes the
upload statistics: it does the same whether the transfer thread has made its
call of `AddUpload` or not. -/
theorem step_record (env : Env) (s s' : System) (e : Event) (r : Option Recording)
    (hw : ∀ h, e ≠ .WaitForTransferCompletion h) (hr : e ≠ .RunTransferTask)
    (hstep : step env s e = .ok s') :
    step env (PerformAsyncTexSubImage2D_record s r) e =
      .ok (PerformAsyncTexSubImage2D_record s' r) := by
  cases e with
  | CreatePixelTransferState texture_id define_params =>
    simp only [step, Except.ok.injEq] at hstep ⊢
    subst hstep
    cases r <;> rfl
  | DestroyTransferState k =>
    obtain ⟨o, ho, ha, rfl⟩ := (DestroyTransferState_ok_iff s s' k).1 hstep
    refine (DestroyTransferState_ok_iff _ _ k).2 ⟨o, by rw [record_heap]; exact ho, ha, ?_⟩
    cases r <;> rfl
  | AsyncTexImage2D k tex_params mem_params bind_callback =>
    obtain ⟨o, ho, c1, c2, c3, c4, c5, c6, c7, rfl⟩ := (AsyncTexImage2D_ok_iff ..).1 hstep
    refine (AsyncTexImage2D_ok_iff ..).2
      ⟨o, by rw [record_heap]; exact ho, c1, c2, c3, c4, c5, c6, c7, ?_⟩
    cases r <;> rfl
  | AsyncTexSubImage2D k tex_params mem_params =>
    obtain ⟨o, ho, c1, c2, c3, c4, c5, c6, c7, rfl⟩ := (AsyncTexSubImage2D_ok_iff ..).1 hstep
    refine (AsyncTexSubImage2D_ok_iff ..).2
      ⟨o, by rw [record_heap]; exact ho, c1, c2, c3, c4, c5, c6, c7, ?_⟩
    cases r <;> rfl
  | AsyncNotifyCompletion mem_params callback =>
    obtain ⟨c1, c2, rfl⟩ := (AsyncNotifyCompletion_ok_iff ..).1 hstep
    refine (AsyncNotifyCompletion_ok_iff ..).2 ⟨c1, c2, ?_⟩
    cases r <;> rfl
  | WaitForTransferCompletion k => exact absurd rfl (hw k)
  | BindCompletedAsyncTransfers =>
    simp only [step, BindCompletedAsyncTransfers] at hstep ⊢
    have hq : (PerformAsyncTexSubImage2D_record s r).pending_allocations_ =
        s.pending_allocations_ := by cases r <;> rfl
    rw [hq]
    exact bindLoop_record r _ s false s' hstep
  | RunTransferTask => exact absurd rfl hr

/-- The wait that returns at the signal leaves the transfer thread where the
wait over whole tasks leaves it, up to the `AddUpload` still to come. -/
theorem waitThreads_settle (env : Env) (h : Nat) : ∀ (tasks : List Task) (x x' : Threads),
    waitThreads env h tasks x = .ok x' → waitLoop env h tasks x.settle = .ok x'.settle := by
  intro tasks
  induction tasks with
  | nil =>
    intro x x' hw
    unfold waitThreads at hw
    unfold waitLoop
    rw [Threads.settle, record_heap]
    cases ho : x.system.heap[h]? with
    | none => simp [ho] at hw
    | some o =>
      simp only [ho] at hw ⊢
      cases hc : o.internal_.transfer_completion_ with
      | true =>
        simp only [hc, if_true, Except.ok.injEq] at hw ⊢
        subst hw
        rfl
      | false => simp [hc] at hw
  | cons t rest ih =>
    intro x x' hw
    unfold waitThreads at hw
    unfold waitLoop
    have ho' : x.settle.heap[h]? = x.system.heap[h]? := by
      rw [Threads.settle, record_heap]
    cases ho : x.system.heap[h]? with
    | none => simp [ho] at hw
    | some o =>
      rw [ho] at ho'
      simp only [ho] at hw
      simp only [ho']
      cases hc : o.internal_.transfer_completion_ with
      | true =>
        simp only [hc, if_true, Except.ok.injEq] at hw ⊢
        subst hw
        rfl
      | false =>
        simp only [hc, Bool.false_eq_true, if_false] at hw ⊢
        rw [runTask_eq_beginTask]
        cases hb : beginTask env { x.settle with transfer_tasks := rest } t with
        | error e =>
          simp only [hb] at hw
          cases hw
        | ok p =>
          obtain ⟨s1, r⟩ := p
          simp only [hb] at hw
          exact ih { system := s1, recording := r } x' hw

theorem settle_SetPriority (x : Threads) (p : ThreadPriority) :
    (x.SetPriority p).settle = { x.settle with transfer_priority := p } := by
  obtain ⟨s, r⟩ := x
  cases r <;> rfl

/-- Every step seen from inside a sub-region upload is, once the transfer
thread has left the task it is inside, the same step of `step`, or no step at
all when it is the transfer thread making its call of `AddUpload`. -/
theorem Threads.step_settle (env : Env) (x x' : Threads) (e : Event)
    (hstep : Threads.step env x e = .ok x') :
    x'.settle = x.settle ∨ gpu.step env x.settle e = .ok x'.settle := by
  have hcall : ∀ e' : Event, (∀ h, e' ≠ .WaitForTransferCompletion h) → e' ≠ .RunTransferTask →
      Threads.call env x e' = .ok x' → gpu.step env x.settle e' = .ok x'.settle := by
    intro e' hw hr hc
    unfold Threads.call at hc
    cases hs : gpu.step env x.system e' with
    | error f => simp [hs] at hc
    | ok s1 =>
      simp only [hs, Except.ok.injEq] at hc
      subst hc
      exact step_record env x.system s1 e' x.recording hw hr hs
  cases e with
  | CreatePixelTransferState texture_id define_params =>
    exact Or.inr (hcall _ (by intro h; simp) (by simp) hstep)
  | DestroyTransferState k =>
    right
    simp only [Threads.step, Threads.DestroyTransferState] at hstep
    split at hstep
    · simp at hstep
    · rename_i s1 hd
      simp only [Except.ok.injEq] at hstep
      subst hstep
      obtain ⟨s, r⟩ := x
      cases r with
      | none => exact hd
      | some r =>
        by_cases hk : r.state = k
        · simp only [hk, if_true] at hd ⊢
          exact hd
        · simp only [hk, if_false] at hd ⊢
          exact step_record env s s1 (.DestroyTransferState k) (some r) (by intro h; simp)
            (by simp) hd
  | AsyncTexImage2D k tex_params mem_params bind_callback =>
    exact Or.inr (hcall _ (by intro h; simp) (by simp) hstep)
  | AsyncTexSubImage2D k tex_params mem_params =>
    exact Or.inr (hcall _ (by intro h; simp) (by simp) hstep)
  | AsyncNotifyCompletion mem_params callback =>
    exact Or.inr (hcall _ (by intro h; simp) (by simp) hstep)
  | WaitForTransferCompletion k =>
    right
    simp only [Threads.step, Threads.WaitForTransferCompletion] at hstep
    simp only [gpu.step, gpu.WaitForTransferCompletion, Threads.settle, record_get]
    cases hg : x.system.get k with
    | none => simp [hg] at hstep
    | some state =>
      simp only [hg] at hstep ⊢
      by_cases ht : state.texture_id_ = 0
      · simp [ht] at hstep
      · simp only [ht, if_false] at hstep ⊢
        by_cases hp : state.TransferIsInProgress = true
        · simp only [hp, if_true] at hstep ⊢
          split at hstep
          · simp at hstep
          · rename_i x2 hloop
            have hloop' := waitThreads_settle env k _ _ x2 hloop
            have hs1 : (if env.android_or_linux = true then
                  x.SetPriority ThreadPriority.Normal else x).settle =
                (if env.android_or_linux = true then
                  { PerformAsyncTexSubImage2D_record x.system x.recording with
                    transfer_priority := ThreadPriority.Normal }
                 else PerformAsyncTexSubImage2D_record x.system x.recording) := by
              split
              · exact settle_SetPriority x _
              · rfl
            have ht1 : (if env.android_or_linux = true then
                  x.SetPriority ThreadPriority.Normal else x).system.transfer_tasks =
                (if env.android_or_linux = true then
                  { PerformAsyncTexSubImage2D_record x.system x.recording with
                    transfer_priority := ThreadPriority.Normal }
                 else PerformAsyncTexSubImage2D_record x.system x.recording).transfer_tasks := by
              split
              · simp [Threads.SetPriority, record_tasks]
              · simp [record_tasks]
            rw [hs1, ht1] at hloop'
            simp only [hloop']
            rw [Threads.settle, record_heap]
            cases ho : x2.system.heap[k]? with
            | none => simp [ho] at hstep
            | some o =>
              simp only [ho] at hstep ⊢
              cases hq : o.internal_.TransferIsInProgress with
              | true => simp [hq] at hstep
              | false =>
                simp only [hq, Bool.false_eq_true, if_false, Except.ok.injEq] at hstep ⊢
                subst hstep
                obtain ⟨s2, r2⟩ := x2
                split <;> cases r2 <;> rfl
        · simp only [hp, Bool.false_eq_true, if_false, Except.ok.injEq] at hstep ⊢
          subst hstep
          trivial
  | BindCompletedAsyncTransfers =>
    exact Or.inr (hcall _ (by intro h; simp) (by simp) hstep)
  | RunTransferTask =>
    simp only [Threads.step, Threads.RunTransferTask] at hstep
    obtain ⟨s, r⟩ := x
    cases r with
    | some r =>
      left
      simp only [Except.ok.injEq] at hstep
      subst hstep
      rfl
    | none =>
      right
      simp only at hstep
      simp only [gpu.step, gpu.RunTransferTask, Threads.settle, PerformAsyncTexSubImage2D_record]
      cases hts : s.transfer_tasks with
      | nil =>
        simp only [hts, Except.ok.injEq] at hstep
        subst hstep
        rfl
      | cons t rest =>
        simp only [hts] at hstep
        cases hb : beginTask env { s with transfer_tasks := rest } t with
        | error e => simp [hb] at hstep
        | ok p =>
          obtain ⟨s1, r1⟩ := p
          simp only [hb, Except.ok.injEq] at hstep
          subst hstep
          simp only [runTask_eq_beginTask, hb]
          rfl

/-- Every execution seen from inside the sub-region uploads is, once the
transfer thread has left the task it is inside, an execution of `run` over
some of the same steps in the same order. -/
theorem Threads.run_settle (env : Env) : ∀ (es : List Event) (x x' : Threads),
    Threads.run env x es = .ok x' →
    ∃ es', es'.Sublist es ∧ gpu.run env x.settle es' = .ok x'.settle := by
  intro es
  induction es with
  | nil =>
    intro x x' hr
    simp only [Threads.run, Except.ok.injEq] at hr
    subst hr
    exact ⟨[], List.Sublist.refl _, rfl⟩
  | cons e es ih =>
    intro x x' hr
    simp only [Threads.run] at hr
    cases hs : Threads.step env x e with
    | error f => simp [hs] at hr
    | ok x1 =>
      simp only [hs] at hr
      obtain ⟨es', hsub, hrun⟩ := ih x1 x' hr
      rcases Threads.step_settle env x x1 e hs with heq | hstep
      · exact ⟨es', List.Sublist.cons _ hsub, by rw [← heq]; exact hrun⟩
      · refine ⟨e :: es', List.Sublist.cons₂ _ hsub, ?_⟩
        simp only [gpu.run, hstep]
        exact hrun

theorem settle_count (x : Threads) :
    x.settle.texture_upload_stats_.texture_upload_count_ =
      x.system.texture_upload_stats_.texture_upload_count_ + x.owed := by
  obtain ⟨s, r⟩ := x
  cases r <;> rfl

/-- In every execution seen from inside the sub-region uploads, the upload
count and the `AddUpload` call about to be made add up to the number of
sub-region uploads performed. -/
theorem Threads.run_owes_count (env : Env) (es : List Event) (x : Threads)
    (hrun : Threads.run env (Threads.init env) es = .ok x) :
    x.system.texture_upload_stats_.texture_upload_count_ + x.owed =
      subUploads x.system.transfer_gl := by
  obtain ⟨es', -, hrun'⟩ := Threads.run_settle env es _ x hrun
  have hinv := (gpu.run_keeps_stats env es' _ hrun').1
  rw [settle_count, Threads.settle, record_transfer_gl] at hinv
  exact hinv

theorem waitThreads_count (env : Env) (h : Nat) : ∀ (tasks : List Task) (x x' : Threads),
    waitThreads env h tasks x = .ok x' →
    x.system.texture_upload_stats_.texture_upload_count_ ≤
      x'.system.texture_upload_stats_.texture_upload_count_ := by
  intro tasks
  induction tasks with
  | nil =>
    intro x x' hw
    unfold waitThreads at hw
    split at hw
    · simp at hw
    · split at hw
      · simp only [Except.ok.injEq] at hw
        subst hw
        exact le_refl _
      · simp at hw
  | cons t rest ih =>
    intro x x' hw
    unfold waitThreads at hw
    split at hw
    · simp at hw
    · split at hw
      · simp only [Except.ok.injEq] at hw
        subst hw
        exact le_refl _
      · cases hb : beginTask env { x.settle with transfer_tasks := rest } t with
        | error e =>
          simp only [hb] at hw
          cases hw
        | ok p =>
          obtain ⟨s1, r⟩ := p
          simp only [hb] at hw
          have h1 := ih { system := s1, recording := r } x' hw
          have h2 := (beginTask_stats env _ s1 t r hb).1
          have h3 := settle_count x
          simp only at h1 h2
          rw [h2, h3] at h1
          omega

/-- No step lowers the upload count, wherever the transfer thread is. -/
theorem Threads.step_raises_count (env : Env) (x x' : Threads) (e : Event)
    (hstep : Threads.step env x e = .ok x') :
    x.system.texture_upload_stats_.texture_upload_count_ ≤
      x'.system.texture_upload_stats_.texture_upload_count_ := by
  have hcall : ∀ e' : Event, Threads.call env x e' = .ok x' →
      x.system.texture_upload_stats_.texture_upload_count_ ≤
        x'.system.texture_upload_stats_.texture_upload_count_ := by
    intro e' hc
    unfold Threads.call at hc
    cases hs : gpu.step env x.system e' with
    | error f => simp [hs] at hc
    | ok s1 =>
      simp only [hs, Except.ok.injEq] at hc
      subst hc
      exact gpu.step_count env x.system s1 e' hs
  cases e with
  | CreatePixelTransferState texture_id define_params =>
    exact hcall (.CreatePixelTransferState texture_id define_params) hstep
  | DestroyTransferState k =>
    have hkeep : ∀ s s1 : System, gpu.DestroyTransferState s k = .ok s1 →
        s1.texture_upload_stats_ = s.texture_upload_stats_ := by
      intro s s1 hd
      obtain ⟨o, -, -, rfl⟩ := (DestroyTransferState_ok_iff s s1 k).1 hd
      rfl
    obtain ⟨s, r⟩ := x
    simp only [Threads.step, Threads.DestroyTransferState] at hstep
    cases r with
    | none =>
      simp only at hstep
      cases hd : gpu.DestroyTransferState s k with
      | error f => simp [hd] at hstep
      | ok s1 =>
        simp only [hd, Except.ok.injEq] at hstep
        subst hstep
        simp only [hkeep s s1 hd]
        exact le_refl _
    | some r =>
      by_cases hk : r.state = k
      · simp only [hk, if_true] at hstep
        cases hd : gpu.DestroyTransferState
            (Threads.settle { system := s, recording := some r }) k with
        | error f => simp [hd] at hstep
        | ok s1 =>
          simp only [hd, Except.ok.injEq] at hstep
          subst hstep
          simp only [hkeep _ s1 hd]
          simp [Threads.settle, PerformAsyncTexSubImage2D_record,
            AsyncPixelTransferUploadStats.AddUpload]
      · simp only [hk, if_false] at hstep
        cases hd : gpu.DestroyTransferState s k with
        | error f => simp [hd] at hstep
        | ok s1 =>
          simp only [hd, Except.ok.injEq] at hstep
          subst hstep
          simp only [hkeep s s1 hd]
          exact le_refl _
  | AsyncTexImage2D k tex_params mem_params bind_callback =>
    exact hcall (.AsyncTexImage2D k tex_params mem_params bind_callback) hstep
  | AsyncTexSubImage2D k tex_params mem_params =>
    exact hcall (.AsyncTexSubImage2D k tex_params mem_params) hstep
  | AsyncNotifyCompletion mem_params callback =>
    exact hcall (.AsyncNotifyCompletion mem_params callback) hstep
  | WaitForTransferCompletion k =>
    simp only [Threads.step, Threads.WaitForTransferCompletion] at hstep
    split at hstep
    · simp at hstep
    · split at hstep
      · simp at hstep
      · split at hstep
        · split at hstep
          · simp at hstep
          · rename_i x2 hloop
            split at hstep
            · simp at hstep
            · split at hstep
              · simp at hstep
              · simp only [Except.ok.injEq] at hstep
                subst hstep
                have h1 := waitThreads_count env k _ _ x2 hloop
                have h2 : (if env.android_or_linux = true then
                    x.SetPriority ThreadPriority.Normal else x).system.texture_upload_stats_ =
                    x.system.texture_upload_stats_ := by
                  split <;> rfl
                have h3 : (if env.android_or_linux = true then
                    x2.SetPriority ThreadPriority.Background else x2).system.texture_upload_stats_
                    = x2.system.texture_upload_stats_ := by
                  split <;> rfl
                rw [h2] at h1
                rw [h3]
                exact h1
        · simp only [Except.ok.injEq] at hstep
          subst hstep
          exact le_refl _
  | BindCompletedAsyncTransfers => exact hcall .BindCompletedAsyncTransfers hstep
  | RunTransferTask =>
    simp only [Threads.step, Threads.RunTransferTask] at hstep
    obtain ⟨s, r⟩ := x
    cases r with
    | some r =>
      simp only [Except.ok.injEq] at hstep
      subst hstep
      simp [PerformAsyncTexSubImage2D_record, AsyncPixelTransferUploadStats.AddUpload]
    | none =>
      simp only at hstep
      cases hts : s.transfer_tasks with
      | nil =>
        simp only [hts, Except.ok.injEq] at hstep
        subst hstep
        exact le_refl _
      | cons t rest =>
        simp only [hts] at hstep
        cases hb : beginTask env { s with transfer_tasks := rest } t with
        | error e => simp [hb] at hstep
        | ok p =>
          obtain ⟨s1, r1⟩ := p
          simp only [hb, Except.ok.injEq] at hstep
          subst hstep
          rw [(beginTask_stats env _ s1 t r1 hb).1]

/-- What the part of a sub-region upload task up to `MarkAsCompleted()` does
when it returns: for a cancelled state nothing, and no `AddUpload` follows;
otherwise it performs one sub-region upload and signals completion, with the
`AddUpload` still to come when the task holds the statistics.  The upload
statistics are as they were in both cases. -/
theorem PerformAsyncTexSubImage2D_upload_spec (env : Env) (s s1 : System) (h : Nat)
    (o : AsyncTransferStateImpl) (tex_params : AsyncTexSubImage2DParams)
    (mem_params : AsyncMemoryParams) (safe_shared_memory : ScopedSafeSharedMemory)
    (stats : Bool) (r : Option Recording) (ho : s.heap[h]? = some o)
    (hr : PerformAsyncTexSubImage2D_upload env s h tex_params mem_params safe_shared_memory
      stats = .ok (s1, r)) :
    s1.texture_upload_stats_ = s.texture_upload_stats_ ∧
    (o.internal_.cancel_upload_flag_ = true → s1 = s ∧ r = none) ∧
    (o.internal_.cancel_upload_flag_ = false →
      r = (if stats then some { state := h, transfer_time := env.upload_ticks tex_params }
           else none) ∧
      subUploads s1.transfer_gl = subUploads s.transfer_gl + 1 ∧
      (s1.heap[h]?).map (fun o1 => o1.internal_.transfer_completion_) = some true) := by
  unfold PerformAsyncTexSubImage2D_upload at hr
  simp only [ho] at hr
  cases hc : o.internal_.cancel_upload_flag_ with
  | true =>
    simp only [hc, if_true, Except.ok.injEq, Prod.mk.injEq] at hr
    obtain ⟨rfl, rfl⟩ := hr
    exact ⟨rfl, fun _ => ⟨rfl, rfl⟩, fun hf => by cases hf⟩
  | false =>
    simp only [hc, Bool.false_eq_true, if_false] at hr
    split at hr
    · simp at hr
    · simp only [Except.ok.injEq, Prod.mk.injEq] at hr
      obtain ⟨rfl, rfl⟩ := hr
      refine ⟨rfl, (fun hf => by cases hf), fun _ => ⟨rfl, ?_, ?_⟩⟩
      · simp [subUploads, List.filter_append, isSubUpload]
      · simp [List.getElem?_set_self (getElem?_lt_length ho)]

/-- C13, as stated, fails in two ways.  A define-mode upload task runs
without being cancelled and performs its upload, and the upload count stays
at zero.  And a sub-region upload is performed and its completion is
signaled, the wait for it returns, and the count the main thread then reads
is still zero: the task records the upload after it has signaled. -/
theorem C13_define_upload_not_counted_counterexample :
    (∃ s, run env32 (System.init env32) traceDefine = .ok s ∧
      (s.heap[0]?).map (fun o => o.internal_.cancel_upload_flag_) = some false ∧
      defineUploads s.transfer_gl = 1 ∧ subUploads s.transfer_gl = 0 ∧
      GetTextureUploadCount s = 0 ∧
      GetTextureUploadCount s ≠ defineUploads s.transfer_gl + subUploads s.transfer_gl) ∧
    (∃ x, Threads.run env32 (Threads.init env32) traceLag = .ok x ∧
      (x.system.heap[0]?).map (fun o => (o.internal_.cancel_upload_flag_,
        o.internal_.transfer_completion_)) = some (false, true) ∧
      x.system.transfer_tasks = [] ∧
      defineUploads x.system.transfer_gl = 0 ∧ subUploads x.system.transfer_gl = 1 ∧
      GetTextureUploadCount x.system = 0 ∧
      GetTextureUploadCount x.system ≠
        defineUploads x.system.transfer_gl + subUploads x.system.transfer_gl) := by
  refine ⟨⟨_, rfl, by decide, by decide, by decide, by decide, by decide⟩,
    ⟨_, rfl, by decide, by decide, by decide, by decide, by decide, by decide⟩⟩

/-- C13, amended: the upload count counts the sub-region uploads only, and a
sub-region upload is counted at the end of its task, after its completion
has been signaled.  In every execution from the initial system, the main
thread being free to run while the transfer thread is between
`MarkAsCompleted()` and `AddUpload`: the count is the number of sub-region
uploads the transfer thread has performed, less the one it is about to
record; `GetTextureUploadCount` returns the count as a `uint32`; and no step
lowers the count, nor the value returned while the count is below `2 ^ 32`.
A define-mode upload task, cancelled or not, and a cancelled sub-region task
leave the count unchanged.  A sub-region upload task that runs without being
cancelled leaves it unchanged up to `MarkAsCompleted()` and raises it by
exactly one in its call of `AddUpload`, so by exactly one over the whole
task. -/
theorem C13_count_follows_sub_region_uploads (env : Env) (es : List Event) (x : Threads)
    (hrun : Threads.run env (Threads.init env) es = .ok x) :
    x.system.texture_upload_stats_.texture_upload_count_ + x.owed =
      subUploads x.system.transfer_gl ∧
    (x.recording = none →
      GetTextureUploadCount x.system = subUploads x.system.transfer_gl % 2 ^ 32) ∧
    (x.recording ≠ none →
      GetTextureUploadCount x.system = (subUploads x.system.transfer_gl - 1) % 2 ^ 32) ∧
    (∀ e x', Threads.step env x e = .ok x' →
      x.system.texture_upload_stats_.texture_upload_count_ ≤
        x'.system.texture_upload_stats_.texture_upload_count_ ∧
      (x'.system.texture_upload_stats_.texture_upload_count_ < 2 ^ 32 →
        GetTextureUploadCount x.system ≤ GetTextureUploadCount x'.system)) ∧
    (∀ s s' h tex_params mem_params safe_shared_memory,
      PerformAsyncTexImage2D env s h tex_params mem_params safe_shared_memory = .ok s' →
      s'.texture_upload_stats_ = s.texture_upload_stats_) ∧
    (∀ s s1 h o tex_params mem_params safe_shared_memory r, s.heap[h]? = some o →
      PerformAsyncTexSubImage2D_upload env s h tex_params mem_params safe_shared_memory true
        = .ok (s1, r) →
      s1.texture_upload_stats_ = s.texture_upload_stats_ ∧
      (o.internal_.cancel_upload_flag_ = true → s1 = s ∧ r = none) ∧
      (o.internal_.cancel_upload_flag_ = false →
        r = some { state := h, transfer_time := env.upload_ticks tex_params } ∧
        subUploads s1.transfer_gl = subUploads s.transfer_gl + 1 ∧
        (s1.heap[h]?).map (fun o1 => o1.internal_.transfer_completion_) = some true)) ∧
    (∀ s r, PerformAsyncTexSubImage2D_record s none = s ∧
      (PerformAsyncTexSubImage2D_record s (some r)).texture_upload_stats_.texture_upload_count_
        = s.texture_upload_stats_.texture_upload_count_ + 1) ∧
    (∀ s s' h o tex_params mem_params safe_shared_memory, s.heap[h]? = some o →
      PerformAsyncTexSubImage2D env s h tex_params mem_params safe_shared_memory true
        = .ok s' →
      (o.internal_.cancel_upload_flag_ = true →
        s'.texture_upload_stats_ = s.texture_upload_stats_) ∧
      (o.internal_.cancel_upload_flag_ = false →
        s'.texture_upload_stats_.texture_upload_count_ =
          s.texture_upload_stats_.texture_upload_count_ + 1)) := by
  have hinv := Threads.run_owes_count env es x hrun
  refine ⟨hinv, ?_, ?_, ?_, ?_, ?_, ?_, ?_⟩
  · intro hnone
    have h0 : x.owed = 0 := by simp [Threads.owed, hnone]
    rw [GetTextureUploadCount, ← hinv, h0, Nat.add_zero]
  · intro hsome
    have h1 : x.owed = 1 := by
      unfold Threads.owed
      cases hr : x.recording with
      | none => exact absurd hr hsome
      | some r => rfl
    rw [GetTextureUploadCount, ← hinv, h1, Nat.add_sub_cancel]
  · intro e x' hstep
    have hle := Threads.step_raises_count env x x' e hstep
    refine ⟨hle, fun hlt => ?_⟩
    unfold GetTextureUploadCount
    rw [Nat.mod_eq_of_lt hlt, Nat.mod_eq_of_lt (lt_of_le_of_lt hle hlt)]
    exact hle
  · intro s s' h tex_params mem_params safe_shared_memory hr
    exact (PerformAsyncTexImage2D_stats env s s' h _ _ _ hr).1
  · intro s s1 h o tex_params mem_params safe_shared_memory r ho hr
    obtain ⟨h1, h2, h3⟩ := PerformAsyncTexSubImage2D_upload_spec env s s1 h o _ _ _ true r ho hr
    exact ⟨h1, h2, fun hc => by simpa using h3 hc⟩
  · intro s r
    exact ⟨rfl, rfl⟩
  · intro s s' h o tex_params mem_params safe_shared_memory ho hr
    obtain ⟨o', ho', h1, h2⟩ := PerformAsyncTexSubImage2D_stats env s s' h _ _ _ true hr
    rw [ho] at ho'
    cases ho'
    refine ⟨fun hc => by rw [h1 hc], fun hc => ?_⟩
    rw [(h2 hc).2]
    rfl

/-- The witness of C13: a define-mode upload has been performed, a
sub-region upload has been performed and signaled and the wait for it has
returned, and a cancelled sub-region upload is still posted; the transfer
thread is about to record the sub-region upload and the count is zero. -/
theorem C13_count_follows_sub_region_uploads_witness :
    ∃ x, Threads.run env32 (Threads.init env32) traceWindow = .ok x ∧
      defineUploads x.system.transfer_gl = 1 ∧ subUploads x.system.transfer_gl = 1 ∧
      x.recording = some { state := 1, transfer_time := 1 } ∧
      x.system.transfer_tasks.length = 1 ∧ GetTextureUploadCount x.system = 0 ∧
      (∃ x', Threads.run env32 x [.RunTransferTask, .RunTransferTask] = .ok x' ∧
        x'.recording = none ∧ x'.system.transfer_tasks = [] ∧
        subUploads x'.system.transfer_gl = 1 ∧ GetTextureUploadCount x'.system = 1) ∧
      (x.system.texture_upload_stats_.texture_upload_count_ + x.owed =
        subUploads x.system.transfer_gl ∧
       (x.recording = none →
        GetTextureUploadCount x.system = subUploads x.system.transfer_gl % 2 ^ 32) ∧
       (x.recording ≠ none →
        GetTextureUploadCount x.system = (subUploads x.system.transfer_gl - 1) % 2 ^ 32) ∧
       (∀ e x', Threads.step env32 x e = .ok x' →
        x.system.texture_upload_stats_.texture_upload_count_ ≤
          x'.system.texture_upload_stats_.texture_upload_count_ ∧
        (x'.system.texture_upload_stats_.texture_upload_count_ < 2 ^ 32 →
          GetTextureUploadCount x.system ≤ GetTextureUploadCount x'.system)) ∧
       (∀ s s' h tex_params mem_params safe_shared_memory,
        PerformAsyncTexImage2D env32 s h tex_params mem_params safe_shared_memory = .ok s' →
        s'.texture_upload_stats_ = s.texture_upload_stats_) ∧
       (∀ s s1 h o tex_params mem_params safe_shared_memory r, s.heap[h]? = some o →
        PerformAsyncTexSubImage2D_upload env32 s h tex_params mem_params safe_shared_memory
          true = .ok (s1, r) →
        s1.texture_upload_stats_ = s.texture_upload_stats_ ∧
        (o.internal_.cancel_upload_flag_ = true → s1 = s ∧ r = none) ∧
        (o.internal_.cancel_upload_flag_ = false →
          r = some { state := h, transfer_time := env32.upload_ticks tex_params } ∧
          subUploads s1.transfer_gl = subUploads s.transfer_gl + 1 ∧
          (s1.heap[h]?).map (fun o1 => o1.internal_.transfer_completion_) = some true)) ∧
       (∀ s r, PerformAsyncTexSubImage2D_record s none = s ∧
        (PerformAsyncTexSubImage2D_record s
            (some r)).texture_upload_stats_.texture_upload_count_
          = s.texture_upload_stats_.texture_upload_count_ + 1) ∧
       (∀ s s' h o tex_params mem_params safe_shared_memory, s.heap[h]? = some o →
        PerformAsyncTexSubImage2D env32 s h tex_params mem_params safe_shared_memory true
          = .ok s' →
        (o.internal_.cancel_upload_flag_ = true →
          s'.texture_upload_stats_ = s.texture_upload_stats_) ∧
        (o.internal_.cancel_upload_flag_ = false →
          s'.texture_upload_stats_.texture_upload_count_ =
            s.texture_upload_stats_.texture_upload_count_ + 1))) :=
  ⟨_, rfl, by decide, by decide, by decide, by decide, by decide,
   ⟨_, rfl, by decide, by decide, by decide, by decide⟩,
   C13_count_follows_sub_region_uploads env32 traceWindow _ rfl⟩

/-! ## Initialization of the transfer thread -/

/-- Under the invariant the transfer thread runs all the posted tasks to
their end. -/
theorem drainTasks_returns (env : Env) : ∀ (tasks : List Task) (s : System),
    s.transfer_tasks = tasks → WaitInv s → ∃ s1, drainTasks env tasks s = .ok s1 := by
  intro tasks
  induction tasks with
  | nil => intro s _ _; exact ⟨s, rfl⟩
  | cons t rest ih =>
    intro s hts hinv
    have hwf : t.wellFormed = true := hinv.1 t (by rw [hts]; exact List.mem_cons_self _ _)
    have hex : ∀ k, t.handle = some k → k < s.heap.length := by
      intro k hk
      apply hinv.2.1 k
      rw [hts]
      simp [uploadHandles, List.filterMap_cons, hk]
    obtain ⟨s1, hs1⟩ := runTask_returns env { s with transfer_tasks := rest } t hwf hex
    have hstep : RunTransferTask env s = .ok s1 := by
      unfold RunTransferTask
      rw [hts]
      exact hs1
    obtain ⟨s2, hs2⟩ := ih s1 (runTask_frame env _ _ _ hs1).1 (wait_runTask env s s1 hinv hstep)
    exact ⟨s2, by simp only [drainTasks, hs1, hs2]⟩

/-- On every path `InitializeOnTransferThread` signals the event of the
caller exactly once. -/
theorem InitializeOnTransferThread_signals (gl : GLFactory) (t : TransferThread)
    (parent_context : Nat) (caller_wait : WaitableEvent) :
    (InitializeOnTransferThread gl t parent_context caller_wait).caller_wait =
      caller_wait.Signal := by
  unfold InitializeOnTransferThread
  split
  · rfl
  · simp only
    split
    · rfl
    · split <;> rfl

theorem InitializeOnTransferThread_initialized (gl : GLFactory) (t : TransferThread)
    (parent_context : Nat) (caller_wait : WaitableEvent) :
    (InitializeOnTransferThread gl t parent_context caller_wait).thread.initialized_ =
      (t.initialized_ ||
        (decide (parent_context ≠ 0) && decide (gl.CreateOffscreenGLSurface ≠ 0) &&
          decide (gl.CreateGLContext (gl.share_group parent_context)
            gl.CreateOffscreenGLSurface ≠ 0))) := by
  unfold InitializeOnTransferThread
  by_cases h1 : parent_context = 0
  · simp [h1]
  · by_cases h2 : gl.CreateOffscreenGLSurface = 0
    · simp [h1, h2]
    · by_cases h3 : gl.CreateGLContext (gl.share_group parent_context)
          gl.CreateOffscreenGLSurface = 0
      · simp [h1, h2, h3]
      · simp [h1, h2, h3]

/-- C14: on every outcome of the three steps `InitializeOnTransferThread`
signals the event of the caller exactly once, and from a thread that is not
initialized it leaves `initialized_` true exactly when the parent context is
not null and both the surface and the context were created.  In every system
reached from the initial one without posting a null completion callback,
`InitializeOnMainThread` on a thread that is not initialized posts one task
and returns, once the transfer thread has run the tasks posted before and
the initialization; on an initialized thread it posts no task and changes
nothing. -/
theorem C14_initialization_signals_once_and_posts_once (env : Env) (gl : GLFactory)
    (es : List Event) (s : System) (t : TransferThread) (parent_context : Nat)
    (caller_wait : WaitableEvent)
    (hrun : run env (System.init env) es = .ok s)
    (hcb : ∀ e ∈ es, e.postsNullCallback = false) :
    (InitializeOnTransferThread gl t parent_context caller_wait).caller_wait.signals =
      caller_wait.signals + 1 ∧
    (InitializeOnTransferThread gl t parent_context caller_wait).caller_wait.signaled = true ∧
    (t.initialized_ = false →
      ((InitializeOnTransferThread gl t parent_context caller_wait).thread.initialized_ = true ↔
        parent_context ≠ 0 ∧ gl.CreateOffscreenGLSurface ≠ 0 ∧
        gl.CreateGLContext (gl.share_group parent_context) gl.CreateOffscreenGLSurface ≠ 0)) ∧
    (t.initialized_ = true →
      InitializeOnMainThread env gl s t parent_context =
        .ok { system := s, thread := t, posted := 0, wait_for_init := none }) ∧
    (t.initialized_ = false →
      ∃ s1, drainTasks env s.transfer_tasks s = .ok s1 ∧
        InitializeOnMainThread env gl s t parent_context =
          .ok { system := s1,
                thread := (InitializeOnTransferThread gl t parent_context
                  { signaled := false, signals := 0 }).thread,
                posted := 1,
                wait_for_init := some { signaled := true, signals := 1 } }) := by
  refine ⟨?_, ?_, ?_, ?_, ?_⟩
  · rw [InitializeOnTransferThread_signals]; rfl
  · rw [InitializeOnTransferThread_signals]; rfl
  · intro ht
    rw [InitializeOnTransferThread_initialized, ht]
    simp [and_assoc]
  · intro ht
    simp [InitializeOnMainThread, ht]
  · intro ht
    obtain ⟨s1, hs1⟩ := drainTasks_returns env s.transfer_tasks s rfl
      (run_keeps_wait env es s hcb hrun)
    refine ⟨s1, hs1, ?_⟩
    simp only [InitializeOnMainThread, ht, hs1, InitializeOnTransferThread_signals,
      WaitableEvent.Signal]
    simp

/-- The witness of C14: with three tasks posted, initialization with a
working GL makes the thread initialized after the tasks have run, and a
second call posts nothing; without a context the thread stays uninitialized
and the caller is resumed all the same. -/
theorem C14_initialization_signals_once_and_posts_once_witness :
    (∀ e ∈ traceWait, e.postsNullCallback = false) ∧
    ∃ s, run env32 (System.init env32) traceWait = .ok s ∧ s.transfer_tasks.length = 3 ∧
      (∃ r, InitializeOnMainThread env32 glWorking s threadNew 7 = .ok r ∧
        r.thread = { initialized_ := true, surface_ := 11, context_ := 118 } ∧
        r.posted = 1 ∧ r.system.transfer_tasks = [] ∧
        InitializeOnMainThread env32 glWorking r.system r.thread 7 =
          .ok { system := r.system, thread := r.thread, posted := 0, wait_for_init := none }) ∧
      (∃ r, InitializeOnMainThread env32 glNoContext s threadNew 7 = .ok r ∧
        r.thread = { initialized_ := false, surface_ := 11, context_ := 0 } ∧
        r.wait_for_init = some { signaled := true, signals := 1 }) ∧
      ((InitializeOnTransferThread glNoContext threadNew 7
          { signaled := false, signals := 0 }).caller_wait.signals = 0 + 1 ∧
       (InitializeOnTransferThread glNoContext threadNew 7
          { signaled := false, signals := 0 }).caller_wait.signaled = true ∧
       (threadNew.initialized_ = false →
        ((InitializeOnTransferThread glNoContext threadNew 7
            { signaled := false, signals := 0 }).thread.initialized_ = true ↔
          7 ≠ 0 ∧ glNoContext.CreateOffscreenGLSurface ≠ 0 ∧
          glNoContext.CreateGLContext (glNoContext.share_group 7)
            glNoContext.CreateOffscreenGLSurface ≠ 0)) ∧
       (threadNew.initialized_ = true →
        InitializeOnMainThread env32 glNoContext s threadNew 7 =
          .ok { system := s, thread := threadNew, posted := 0, wait_for_init := none }) ∧
       (threadNew.initialized_ = false →
        ∃ s1, drainTasks env32 s.transfer_tasks s = .ok s1 ∧
          InitializeOnMainThread env32 glNoContext s threadNew 7 =
            .ok { system := s1,
                  thread := (InitializeOnTransferThread glNoContext threadNew 7
                    { signaled := false, signals := 0 }).thread,
                  posted := 1,
                  wait_for_init := some { signaled := true, signals := 1 } })) :=
  ⟨by decide, _, rfl, by decide,
   ⟨_, rfl, by decide, by decide, by decide, by decide⟩,
   ⟨_, rfl, by decide, by decide⟩,
   C14_initialization_signals_once_and_posts_once env32 glNoContext traceWait _ threadNew 7
    { signaled := false, signals := 0 } rfl (by decide)⟩

end gpu
